import Mathlib

/-!
# GBA as controller: Joybus responder

A shallow embedding of the two Joybus responders of the repository:

* `source/main.arm.c`   : the N64 personality (variant 1), namespace `N64`;
* `source/main.iwram.c` : the GameCube personality (variant 2), namespace `GC`.

Machine integers are natural numbers or integers with explicit reductions where the
C code truncates.  Memories (`buffer`, VRAM, the cartridge address space) are functions
from an index to a value; a pointer is a memory together with an offset.
-/

namespace GbaController

/-! ## Hardware interface shared by both personalities -/

/-- Modelled from the spec: the key masks of the KEYINPUT register come from the
libgba header `gba_input.h`, which is not among the sources.  The input snapshot is a
bitmask over the ten keys (two face buttons, select, start, four d-pad directions,
two shoulder buttons); these are the bit positions of the GBA key register. -/
def KEY_A : Nat := 0x0001
/-- Modelled from the spec: key mask of B (see `KEY_A`). -/
def KEY_B : Nat := 0x0002
/-- Modelled from the spec: key mask of Select (see `KEY_A`). -/
def KEY_SELECT : Nat := 0x0004
/-- Modelled from the spec: key mask of Start (see `KEY_A`). -/
def KEY_START : Nat := 0x0008
/-- Modelled from the spec: key mask of d-pad Right (see `KEY_A`). -/
def KEY_RIGHT : Nat := 0x0010
/-- Modelled from the spec: key mask of d-pad Left (see `KEY_A`). -/
def KEY_LEFT : Nat := 0x0020
/-- Modelled from the spec: key mask of d-pad Up (see `KEY_A`). -/
def KEY_UP : Nat := 0x0040
/-- Modelled from the spec: key mask of d-pad Down (see `KEY_A`). -/
def KEY_DOWN : Nat := 0x0080
/-- Modelled from the spec: key mask of shoulder R (see `KEY_A`). -/
def KEY_R : Nat := 0x0100
/-- Modelled from the spec: key mask of shoulder L (see `KEY_A`). -/
def KEY_L : Nat := 0x0200

/-- The value of `~REG_KEYINPUT` stored in the `unsigned gbaInput`: the 16-bit register
is promoted to `int`, complemented, and converted to a 32-bit unsigned. -/
def gbaInputOf (keyinput : Nat) : Nat := 2 ^ 32 - 1 - keyinput % 2 ^ 16

/-- The constant `-1009` converted to `unsigned` for the comparison `gbaInput == -1009`. -/
def SOFTRESET_INPUT : Nat := 2 ^ 32 - 1009

/-- The test `gbaInput & KEY` used as a C condition. -/
def keyDown (gbaInput key : Nat) : Bool := gbaInput &&& key != 0

/-- Sign extension of a 16-bit halfword (`int16_t` promoted to `int`). -/
def sext16 (h : Nat) : Int :=
  if h % 65536 < 32768 then ((h % 65536 : Nat) : Int) else ((h % 65536 : Nat) : Int) - 65536

/-- Write one cell of a memory. -/
def store (m : Nat → Nat) (i v : Nat) : Nat → Nat := fun j => if j = i then v else m j

/-- Modelled from the spec: the DMA control bits of the libgba header `gba_dma.h`, which is
not among the sources (`DMA_ENABLE`, start at vertical blank, repeat). -/
def DMA_ENABLE : Nat := 2 ^ 31
/-- Modelled from the spec: start timing "vertical blank" of `gba_dma.h`. -/
def DMA_VBLANK : Nat := 2 ^ 28
/-- Modelled from the spec: repeat bit of `gba_dma.h`. -/
def DMA_REPEAT : Nat := 2 ^ 25
/-- Modelled from the spec: base address of the cartridge save RAM (`SRAM` of libgba). -/
def SRAM : Nat := 0x0E000000

/-- Halfword index of `ROM_GPIODATA` (`0x080000C4`) in `ROM`. -/
def GPIODATA_IX : Nat := 0x62
/-- Halfword index of `ROM_GPIODIR` (`0x080000C6`) in `ROM`. -/
def GPIODIR_IX : Nat := 0x63

/-- The hardware touched by the rumble controller: the cartridge address space `ROM`
(16-bit halfwords, indexed as the C array `ROM[...]`) and the three DMA3 registers. -/
structure Hardware where
  rom : Nat → Nat
  dma3sad : Nat
  dma3dad : Nat
  dma3cnt : Nat

/-- The argument pair of `SISetResponse(buf, bits)`: the bytes at `buf` and the bit count. -/
structure Response where
  bytes : List Nat
  bits : Nat
deriving DecidableEq, Repr

/-- The result of `SIGetCommand(buffer, ...)`: the contents of `buffer` after the call and the
returned bit count. -/
structure Frame where
  buf : Nat → Nat
  len : Int

/-- The bytes `buf[off], ..., buf[off + n - 1]`. -/
def bytesAt (buf : Nat → Nat) (off n : Nat) : List Nat :=
  (List.range n).map (fun i => buf (off + i))

/-- Bit of a boolean. -/
def bit (b : Bool) : Nat := if b then 1 else 0

/-! ## Checksum engine (`main.arm.c`) -/

def crc8_lut : List Nat := [
  0x00, 0x85, 0x8F, 0x0A, 0x9B, 0x1E, 0x14, 0x91, 0xB3, 0x36, 0x3C, 0xB9, 0x28, 0xAD, 0xA7, 0x22,
  0xE3, 0x66, 0x6C, 0xE9, 0x78, 0xFD, 0xF7, 0x72, 0x50, 0xD5, 0xDF, 0x5A, 0xCB, 0x4E, 0x44, 0xC1,
  0x43, 0xC6, 0xCC, 0x49, 0xD8, 0x5D, 0x57, 0xD2, 0xF0, 0x75, 0x7F, 0xFA, 0x6B, 0xEE, 0xE4, 0x61,
  0xA0, 0x25, 0x2F, 0xAA, 0x3B, 0xBE, 0xB4, 0x31, 0x13, 0x96, 0x9C, 0x19, 0x88, 0x0D, 0x07, 0x82,
  0x86, 0x03, 0x09, 0x8C, 0x1D, 0x98, 0x92, 0x17, 0x35, 0xB0, 0xBA, 0x3F, 0xAE, 0x2B, 0x21, 0xA4,
  0x65, 0xE0, 0xEA, 0x6F, 0xFE, 0x7B, 0x71, 0xF4, 0xD6, 0x53, 0x59, 0xDC, 0x4D, 0xC8, 0xC2, 0x47,
  0xC5, 0x40, 0x4A, 0xCF, 0x5E, 0xDB, 0xD1, 0x54, 0x76, 0xF3, 0xF9, 0x7C, 0xED, 0x68, 0x62, 0xE7,
  0x26, 0xA3, 0xA9, 0x2C, 0xBD, 0x38, 0x32, 0xB7, 0x95, 0x10, 0x1A, 0x9F, 0x0E, 0x8B, 0x81, 0x04,
  0x89, 0x0C, 0x06, 0x83, 0x12, 0x97, 0x9D, 0x18, 0x3A, 0xBF, 0xB5, 0x30, 0xA1, 0x24, 0x2E, 0xAB,
  0x6A, 0xEF, 0xE5, 0x60, 0xF1, 0x74, 0x7E, 0xFB, 0xD9, 0x5C, 0x56, 0xD3, 0x42, 0xC7, 0xCD, 0x48,
  0xCA, 0x4F, 0x45, 0xC0, 0x51, 0xD4, 0xDE, 0x5B, 0x79, 0xFC, 0xF6, 0x73, 0xE2, 0x67, 0x6D, 0xE8,
  0x29, 0xAC, 0xA6, 0x23, 0xB2, 0x37, 0x3D, 0xB8, 0x9A, 0x1F, 0x15, 0x90, 0x01, 0x84, 0x8E, 0x0B,
  0x0F, 0x8A, 0x80, 0x05, 0x94, 0x11, 0x1B, 0x9E, 0xBC, 0x39, 0x33, 0xB6, 0x27, 0xA2, 0xA8, 0x2D,
  0xEC, 0x69, 0x63, 0xE6, 0x77, 0xF2, 0xF8, 0x7D, 0x5F, 0xDA, 0xD0, 0x55, 0xC4, 0x41, 0x4B, 0xCE,
  0x4C, 0xC9, 0xC3, 0x46, 0xD7, 0x52, 0x58, 0xDD, 0xFF, 0x7A, 0x70, 0xF5, 0x64, 0xE1, 0xEB, 0x6E,
  0xAF, 0x2A, 0x20, 0xA5, 0x34, 0xB1, 0xBB, 0x3E, 0x1C, 0x99, 0x93, 0x16, 0x87, 0x02, 0x08, 0x8D]

def crc5_lut : List Nat := [
  0x00, 0x15, 0x1F, 0x0A, 0x0B, 0x1E, 0x14, 0x01,
  0x16, 0x03, 0x09, 0x1C, 0x1D, 0x08, 0x02, 0x17,
  0x19, 0x0C, 0x06, 0x13, 0x12, 0x07, 0x0D, 0x18,
  0x0F, 0x1A, 0x10, 0x05, 0x04, 0x11, 0x1B, 0x0E]

/-- The function `crc5` of `main.arm.c`; `addr` is a `uint16_t`. -/
def crc5 (addr : Nat) : Nat :=
  let crc := if addr &&& 0x8000 ≠ 0 then 0x15 else 0
  let crc := crc ^^^ ((addr >>> 10) &&& 0x1F)
  let crc := crc5_lut.getD crc 0
  let crc := crc ^^^ ((addr >>> 5) &&& 0x1F)
  crc5_lut.getD crc 0

/-- One step of the checksum loops: `crc ^= byte; crc = crc8_lut[crc];`. -/
def crc8_step (crc byte : Nat) : Nat := crc8_lut.getD (crc ^^^ byte) 0

/-- The checksum of a block as the spec words it: seed 0, then `crc = crc8_lut[crc xor byte]`
for each byte in order. -/
def crc8 (bytes : List Nat) : Nat := bytes.foldl (fun crc b => crc8_lut.getD (crc ^^^ b) 0) 0

/-! ## Accessory store (`main.arm.c`) -/

/-- The loop of `pak_copyto`: `n` iterations remain, `i` have been done.  The pointer `dst`
is `(uint16_t *)VRAM + addr + i`, the pointer `src` is `src + off + i`. -/
def pak_copyto_loop (addr : Nat) (src : Nat → Nat) (off : Nat) :
    Nat → Nat → (Nat → Nat) → Nat → (Nat → Nat) × Nat
  | 0, _, vram, crc => (vram, crc)
  | n + 1, i, vram, crc =>
      let b := src (off + i)
      pak_copyto_loop addr src off n (i + 1) (store vram (addr + i) b) (crc8_step crc b)

/-- The function `pak_copyto(addr, src)` with `src = &buffer[off]`: the new VRAM and the
returned checksum. -/
def pak_copyto (vram : Nat → Nat) (addr : Nat) (src : Nat → Nat) (off : Nat) :
    (Nat → Nat) × Nat :=
  pak_copyto_loop addr src off 32 0 vram 0

/-- The loop of `pak_copyfrom`: the 16-bit cell is masked and truncated to the `uint8_t`
destination. -/
def pak_copyfrom_loop (vram : Nat → Nat) (addr : Nat) (off : Nat) (mask : Nat) :
    Nat → Nat → (Nat → Nat) → Nat → (Nat → Nat) × Nat
  | 0, _, dst, crc => (dst, crc)
  | n + 1, i, dst, crc =>
      let b := (vram (addr + i) &&& mask) % 256
      pak_copyfrom_loop vram addr off mask n (i + 1) (store dst (off + i) b) (crc8_step crc b)

/-- The function `pak_copyfrom(addr, dst, mask)` with `dst = &buffer[off]`: the new buffer and
the returned checksum. -/
def pak_copyfrom (vram : Nat → Nat) (addr : Nat) (dst : Nat → Nat) (off : Nat) (mask : Nat) :
    (Nat → Nat) × Nat :=
  pak_copyfrom_loop vram addr off mask 32 0 dst 0

/-! ## Variant 1: the N64 personality (`main.arm.c`) -/

namespace N64

def ID_GBAKEY_A : Int := 0
def ID_GBAKEY_B : Int := 1
def ID_GBAKEY_START : Int := 2
def ID_GBAKEY_SELECT : Int := 3
def ID_GBAKEY_L : Int := 4
def ID_GBAKEY_R : Int := 5

def ID_N64PAD_A : Int := 0
def ID_N64PAD_B : Int := 1
def ID_N64PAD_START : Int := 2
def ID_N64PAD_Z : Int := 3
def ID_N64PAD_L : Int := 4
def ID_N64PAD_R : Int := 5
def ID_N64PAD_UP : Int := 6
def ID_N64PAD_DOWN : Int := 7
def ID_N64PAD_LEFT : Int := 8
def ID_N64PAD_RIGHT : Int := 9
def ID_N64PAD_CUP : Int := 10
def ID_N64PAD_CDOWN : Int := 11
def ID_N64PAD_CLEFT : Int := 12
def ID_N64PAD_CRIGHT : Int := 13

/-- The mapping part of `aGameProfilesConfig[0]` (the entries after the choose key). -/
def defaultProfileConfig : Nat → Int := fun k =>
  [ID_N64PAD_A, ID_N64PAD_B, ID_N64PAD_START, ID_N64PAD_L, ID_N64PAD_Z, ID_N64PAD_R].getD k 0

def CMD_ID : Nat := 0x00
def CMD_STATUS : Nat := 0x01
def CMD_READ : Nat := 0x02
def CMD_WRITE : Nat := 0x03
def CMD_RESET : Nat := 0xFF

/-- The bytes of the static record `id`, which is never written. -/
def id_bytes : List Nat := [0x05, 0x00, 0x01]

/-- The bit-field `status.buttons`, fields in the order of the declaration. -/
structure Buttons where
  right : Bool
  left : Bool
  down : Bool
  up : Bool
  start : Bool
  z : Bool
  b : Bool
  a : Bool
  c_right : Bool
  c_left : Bool
  c_down : Bool
  c_up : Bool
  r : Bool
  l : Bool
  reset : Bool
deriving DecidableEq, Repr

/-- The static record `status`: the buttons and the `int8_t` stick. -/
structure Status where
  buttons : Buttons
  stick_x : Int
  stick_y : Int
deriving DecidableEq, Repr

/-- The zero-initialised `status.buttons`. -/
def Buttons.zero : Buttons :=
  ⟨false, false, false, false, false, false, false, false, false, false, false, false, false,
    false, false⟩

/-- An `int8_t` as the byte that represents it. -/
def byteOfInt8 (x : Int) : Nat := (x % 256).toNat

/-- The four bytes of `status` in memory: bit-fields are allocated from the least significant
bit of the little-endian `uint16_t`, the unnamed bit is bit 14. -/
def Status.bytes (st : Status) : List Nat :=
  [ bit st.buttons.right + 2 * bit st.buttons.left + 4 * bit st.buttons.down
      + 8 * bit st.buttons.up + 16 * bit st.buttons.start + 32 * bit st.buttons.z
      + 64 * bit st.buttons.b + 128 * bit st.buttons.a,
    bit st.buttons.c_right + 2 * bit st.buttons.c_left + 4 * bit st.buttons.c_down
      + 8 * bit st.buttons.c_up + 16 * bit st.buttons.r + 32 * bit st.buttons.l
      + 128 * bit st.buttons.reset,
    byteOfInt8 st.stick_x,
    byteOfInt8 st.stick_y ]

inductive Rumble where
  | RUMBLE_NONE
  | RUMBLE_GBA
  | RUMBLE_NDS
  | RUMBLE_NDS_SLIDE
deriving DecidableEq, Repr

/-- The function `has_motor`: the classification stored in `rumble` and the returned flag. -/
def has_motor (hw : Hardware) : Rumble × Bool :=
  if sext16 (hw.rom 0x59) = 0x59 then
    if sext16 (hw.rom 0xFFFFFF) = -3 then (Rumble.RUMBLE_NDS, true)
    else if sext16 (hw.rom 0xFFFFFF) = -258 then (Rumble.RUMBLE_NDS_SLIDE, true)
    else (Rumble.RUMBLE_NONE, false)
  else if sext16 (hw.rom 0x59) = 0x96 then
    if sext16 (hw.rom 0x56) % 256 = 0x52 ∨ sext16 (hw.rom 0x56) % 256 = 0x56 then
      (Rumble.RUMBLE_GBA, true)
    else (Rumble.RUMBLE_NONE, false)
  else (Rumble.RUMBLE_NONE, false)

/-- The function `set_motor`. -/
def set_motor (rumble : Rumble) (hw : Hardware) (enable : Bool) : Hardware :=
  match rumble with
  | Rumble.RUMBLE_NONE => hw
  | Rumble.RUMBLE_GBA =>
      { hw with rom := store (store hw.rom GPIODIR_IX (1 <<< 3)) GPIODATA_IX (bit enable <<< 3) }
  | Rumble.RUMBLE_NDS =>
      if enable then
        { hw with dma3sad := SRAM, dma3dad := SRAM,
                  dma3cnt := DMA_ENABLE ||| (DMA_VBLANK ||| DMA_REPEAT ||| 1) }
      else
        { hw with dma3cnt := hw.dma3cnt &&& (2 ^ 32 - 1 - DMA_REPEAT) }
  | Rumble.RUMBLE_NDS_SLIDE =>
      { hw with rom := store hw.rom 0 (bit enable <<< 8) }

/-- The first `switch` of the mapping loop: the state of physical key number `k`; the static
`nProfileIterationGbaButtonState` keeps its value `prev` for any other `k`. -/
def gbaButtonState (gbaInput : Nat) (k : Int) (prev : Bool) : Bool :=
  if k = ID_GBAKEY_A then keyDown gbaInput KEY_A
  else if k = ID_GBAKEY_B then keyDown gbaInput KEY_B
  else if k = ID_GBAKEY_START then keyDown gbaInput KEY_START
  else if k = ID_GBAKEY_SELECT then keyDown gbaInput KEY_SELECT
  else if k = ID_GBAKEY_L then keyDown gbaInput KEY_L
  else if k = ID_GBAKEY_R then keyDown gbaInput KEY_R
  else prev

/-- The second `switch` of the mapping loop: assign `v` to the button selected by the table
entry `t`; a value with no `case` changes nothing. -/
def setButton (b : Buttons) (t : Int) (v : Bool) : Buttons :=
  if t = ID_N64PAD_A then { b with a := v }
  else if t = ID_N64PAD_B then { b with b := v }
  else if t = ID_N64PAD_START then { b with start := v }
  else if t = ID_N64PAD_Z then { b with z := v }
  else if t = ID_N64PAD_L then { b with l := v }
  else if t = ID_N64PAD_R then { b with r := v }
  else if t = ID_N64PAD_UP then { b with up := v }
  else if t = ID_N64PAD_DOWN then { b with down := v }
  else if t = ID_N64PAD_LEFT then { b with left := v }
  else if t = ID_N64PAD_RIGHT then { b with right := v }
  else if t = ID_N64PAD_CUP then { b with c_up := v }
  else if t = ID_N64PAD_CDOWN then { b with c_down := v }
  else if t = ID_N64PAD_CLEFT then { b with c_left := v }
  else if t = ID_N64PAD_CRIGHT then { b with c_right := v }
  else b

/-- The mapping loop `while (nProfileIterationGbaKey >= 0)`: `n` is
`nProfileIterationGbaKey + 1`, so `mapLoop cfg g 6` runs the slots 5, 4, 3, 2, 1, 0.  The
state is the buttons and `nProfileIterationGbaButtonState`. -/
def mapLoop (cfg : Nat → Int) (gbaInput : Nat) : Nat → Buttons × Bool → Buttons × Bool
  | 0, st => st
  | n + 1, (b, prev) =>
      let v := gbaButtonState gbaInput (n : Int) prev
      mapLoop cfg gbaInput n (setButton b (cfg n) v, v)

/-- The stick computation of the Status command for one axis. -/
def stickAxis (gbaInput pos neg : Nat) : Int :=
  if keyDown gbaInput pos then 80
  else if keyDown gbaInput neg then -80
  else 0

/-- The static state of the N64 responder. -/
structure State where
  status : Status
  buffer : Nat → Nat
  rumble : Rumble
  vram : Nat → Nat
  hw : Hardware
  aGameProfileConfig : Nat → Int
  softReset : Bool
  nSiCmdLen : Int
  nProfileIterationGbaKey : Int
  nProfileIterationGbaButtonState : Bool
  gbaInput : Nat

/-- What one iteration of the poll loop does: the new state, the response handed to
`SISetResponse` (if any) and the argument of the `set_motor` call (if any). -/
structure Cycle where
  state : State
  response : Option Response
  motor : Option Bool

/-- The block address of a Read or Write frame:
`uint16_t address = (buffer[2] | buffer[1] << 8) & ~0x1F`. -/
def address (buffer : Nat → Nat) : Nat :=
  ((buffer 2 ||| (buffer 1 <<< 8)) &&& 0xFFFFFFE0) % 65536

/-- The body of `case CMD_STATUS` once the length is 9. -/
def cmdStatus (s : State) (keyinput : Nat) : Cycle :=
  let s := { s with gbaInput := gbaInputOf keyinput }
  if s.gbaInput = SOFTRESET_INPUT then
    ⟨{ s with softReset := true }, none, none⟩
  else
    let m := mapLoop s.aGameProfileConfig s.gbaInput 6
      (s.status.buttons, s.nProfileIterationGbaButtonState)
    let st : Status :=
      { buttons := m.1,
        stick_x := stickAxis s.gbaInput KEY_RIGHT KEY_LEFT,
        stick_y := stickAxis s.gbaInput KEY_UP KEY_DOWN }
    ⟨{ s with status := st, nProfileIterationGbaKey := -1,
              nProfileIterationGbaButtonState := m.2 },
      some ⟨st.bytes, 32⟩, none⟩

/-- The body of `case CMD_READ` once the length is 25. -/
def cmdRead (s : State) : Cycle :=
  let a := address s.buffer
  if crc5 a ≠ s.buffer 2 &&& 0x1F then ⟨s, none, none⟩
  else
    let mask := if (a &&& 0x8000) = 0x8000 ∧ s.rumble ≠ Rumble.RUMBLE_NONE then 0x81 else 0xFF
    let r := pak_copyfrom s.vram a s.buffer 3 mask
    let buffer := store r.1 35 r.2
    ⟨{ s with buffer := buffer }, some ⟨bytesAt buffer 3 33, 264⟩, none⟩

/-- The body of `case CMD_WRITE` once the length is 281. -/
def cmdWrite (s : State) : Cycle :=
  let a := address s.buffer
  if crc5 a ≠ s.buffer 2 &&& 0x1F then ⟨s, none, none⟩
  else
    let r := pak_copyto s.vram a s.buffer 3
    let buffer := store s.buffer 35 r.2
    let s := { s with vram := r.1, buffer := buffer }
    let resp : Option Response := some ⟨bytesAt buffer 35 1, 8⟩
    if (a &&& 0x8000) = 0x8000 then
      let hm := has_motor s.hw
      let s := { s with rumble := hm.1 }
      if hm.2 then
        let en : Bool := s.buffer 3 &&& 0x01 != 0
        ⟨{ s with hw := set_motor s.rumble s.hw en }, resp, some en⟩
      else ⟨s, resp, none⟩
    else ⟨s, resp, none⟩

/-- One iteration of `while (!softReset)` in `main`: `f` is the result of `SIGetCommand`,
`keyinput` the value `REG_KEYINPUT` would read in this iteration. -/
def poll (s : State) (f : Frame) (keyinput : Nat) : Cycle :=
  let s := { s with buffer := f.buf, nSiCmdLen := f.len }
  if s.nSiCmdLen < 9 then ⟨s, none, none⟩
  else if s.buffer 0 = CMD_RESET ∨ s.buffer 0 = CMD_ID then
    if s.nSiCmdLen = 9 then ⟨s, some ⟨id_bytes, 24⟩, none⟩ else ⟨s, none, none⟩
  else if s.buffer 0 = CMD_STATUS then
    if s.nSiCmdLen = 9 then cmdStatus s keyinput else ⟨s, none, none⟩
  else if s.buffer 0 = CMD_READ then
    if s.nSiCmdLen = 25 then cmdRead s else ⟨s, none, none⟩
  else if s.buffer 0 = CMD_WRITE then
    if s.nSiCmdLen = 281 then cmdWrite s else ⟨s, none, none⟩
  else ⟨s, none, none⟩

/-- The loop `while (!softReset)`: the frames and key snapshots are consumed one per
iteration until the flag is raised; the result is the final state and the responses in
order. -/
def pollLoop : State → List (Frame × Nat) → State × List (Option Response)
  | s, [] => (s, [])
  | s, (f, k) :: rest =>
      if s.softReset then (s, [])
      else
        let c := poll s f k
        let r := pollLoop c.state rest
        (r.1, c.response :: r.2)

end N64

/-! ## Variant 2: the GameCube personality (`main.iwram.c`) -/

namespace GC

def ID_GBAKEY_A : Int := 0
def ID_GBAKEY_B : Int := 1
def ID_GBAKEY_START : Int := 2
def ID_GBAKEY_SELECT : Int := 3
def ID_GBAKEY_L : Int := 4
def ID_GBAKEY_R : Int := 5

def ID_GCPAD_A : Int := 0
def ID_GCPAD_B : Int := 1
def ID_GCPAD_X : Int := 2
def ID_GCPAD_Y : Int := 3
def ID_GCPAD_START : Int := 4
def ID_GCPAD_Z : Int := 5
def ID_GCPAD_L : Int := 6
def ID_GCPAD_R : Int := 7
def ID_GCPAD_UP : Int := 8
def ID_GCPAD_DOWN : Int := 9
def ID_GCPAD_LEFT : Int := 10
def ID_GCPAD_RIGHT : Int := 11

def aDefaultProfileConfig : Nat → Int := fun k =>
  [ID_GCPAD_A, ID_GCPAD_B, ID_GCPAD_START, ID_GCPAD_Z, ID_GCPAD_L, ID_GCPAD_R].getD k 0

def CMD_ID : Nat := 0x00
def CMD_STATUS : Nat := 0x40
def CMD_ORIGIN : Nat := 0x41
def CMD_RECALIBRATE : Nat := 0x42
def CMD_STATUS_LONG : Nat := 0x43
def CMD_RESET : Nat := 0xFF

def MOTOR_STOP : Nat := 0
def MOTOR_RUMBLE : Nat := 1
def MOTOR_STOP_HARD : Nat := 2

/-- The bit-field `struct buttons`, fields in the order of the declaration (the leading
unnamed bit has no field). -/
structure Buttons where
  unknown : Bool
  get_origin : Bool
  start : Bool
  y : Bool
  x : Bool
  b : Bool
  a : Bool
  use_origin : Bool
  l : Bool
  r : Bool
  z : Bool
  up : Bool
  down : Bool
  right : Bool
  left : Bool
deriving DecidableEq, Repr

/-- The two bytes of a `struct buttons`: the records are packed with big-endian scalar
storage order, so the first field is the most significant bit of the first byte. -/
def Buttons.bytes (b : Buttons) : List Nat :=
  [ 64 * bit b.unknown + 32 * bit b.get_origin + 16 * bit b.start + 8 * bit b.y + 4 * bit b.x
      + 2 * bit b.b + bit b.a,
    128 * bit b.use_origin + 64 * bit b.l + 32 * bit b.r + 16 * bit b.z + 8 * bit b.up
      + 4 * bit b.down + 2 * bit b.right + bit b.left ]

/-- The static record `id`: `motor` is a 2-bit field, `mode` a 3-bit field. -/
structure Id where
  type : Nat
  unknown : Bool
  get_origin : Bool
  motor : Nat
  mode : Nat
deriving DecidableEq, Repr

/-- The three bytes of `id`. -/
def Id.bytes (i : Id) : List Nat :=
  [ i.type / 256 % 256, i.type % 256,
    64 * bit i.unknown + 32 * bit i.get_origin + 8 * (i.motor % 4) + i.mode % 8 ]

/-- The static record `status`: the buttons, the stick and the four bytes shared by the
members `mode0` ... `mode4` of the anonymous union. -/
structure Status where
  buttons : Buttons
  stick_x : Nat
  stick_y : Nat
  u0 : Nat
  u1 : Nat
  u2 : Nat
  u3 : Nat
deriving DecidableEq, Repr

/-- The eight bytes of `status`. -/
def Status.bytes (st : Status) : List Nat :=
  st.buttons.bytes ++ [st.stick_x, st.stick_y, st.u0, st.u1, st.u2, st.u3]

/-- The static record `origin`. -/
structure Origin where
  buttons : Buttons
  stick_x : Nat
  stick_y : Nat
  substick_x : Nat
  substick_y : Nat
  trigger_l : Nat
  trigger_r : Nat
  button_a : Nat
  button_b : Nat
deriving DecidableEq, Repr

/-- The ten bytes of `origin`. -/
def Origin.bytes (o : Origin) : List Nat :=
  o.buttons.bytes ++ [o.stick_x, o.stick_y, o.substick_x, o.substick_y, o.trigger_l,
    o.trigger_r, o.button_a, o.button_b]

/-- The zero `struct buttons`. -/
def Buttons.zero : Buttons :=
  ⟨false, false, false, false, false, false, false, false, false, false, false, false, false,
    false, false⟩

/-- The initialiser of `origin`. -/
def Origin.init : Origin :=
  { buttons := { Buttons.zero with use_origin := true },
    stick_x := 128, stick_y := 128, substick_x := 128, substick_y := 128,
    trigger_l := 0, trigger_r := 0, button_a := 0, button_b := 0 }

inductive Rumble where
  | RUMBLE_NONE
  | RUMBLE_GBA
  | RUMBLE_NDS
  | RUMBLE_NDS_SLIDE
  | RUMBLE_EZFLASH_OMEGA_DE
deriving DecidableEq, Repr

/-- The function `has_motor`: the classification stored in `rumble` and the returned flag. -/
def has_motor (hw : Hardware) : Rumble × Bool :=
  if sext16 (hw.rom 0x59) = 0x59 then
    if sext16 (hw.rom 0xFFFFFF) = -3 then (Rumble.RUMBLE_NDS, true)
    else if sext16 (hw.rom 0xFFFFFF) = -258 then (Rumble.RUMBLE_NDS_SLIDE, true)
    else (Rumble.RUMBLE_NONE, false)
  else if sext16 (hw.rom 0x59) = 0x96 then
    if sext16 (hw.rom 0x56) % 256 = 0x52 ∨ sext16 (hw.rom 0x56) % 256 = 0x56 then
      (Rumble.RUMBLE_GBA, true)
    else if sext16 (hw.rom 0x56) % 256 = 0x47 then (Rumble.RUMBLE_EZFLASH_OMEGA_DE, true)
    else (Rumble.RUMBLE_NONE, false)
  else (Rumble.RUMBLE_NONE, false)

/-- The function `set_motor`.  `ROM_GPIODATA` is a 16-bit halfword, so `& ~8` keeps its
other fifteen bits. -/
def set_motor (rumble : Rumble) (hw : Hardware) (enable : Bool) : Hardware :=
  match rumble with
  | Rumble.RUMBLE_NONE => hw
  | Rumble.RUMBLE_GBA =>
      { hw with rom := store (store hw.rom GPIODIR_IX (1 <<< 3)) GPIODATA_IX (bit enable <<< 3) }
  | Rumble.RUMBLE_NDS =>
      if enable then
        { hw with dma3sad := SRAM, dma3dad := SRAM,
                  dma3cnt := DMA_ENABLE ||| (DMA_VBLANK ||| DMA_REPEAT ||| 1) }
      else
        { hw with dma3cnt := hw.dma3cnt &&& (2 ^ 32 - 1 - DMA_REPEAT) }
  | Rumble.RUMBLE_NDS_SLIDE =>
      { hw with rom := store hw.rom 0 (bit enable <<< 8) }
  | Rumble.RUMBLE_EZFLASH_OMEGA_DE =>
      if enable then
        { hw with rom := store hw.rom GPIODATA_IX (hw.rom GPIODATA_IX ||| 8) }
      else
        { hw with rom := store hw.rom GPIODATA_IX (hw.rom GPIODATA_IX &&& 0xFFF7) }

/-- The first `switch` of the custom-profile loop (see `N64.gbaButtonState`). -/
def gbaButtonState (gbaInput : Nat) (k : Int) (prev : Bool) : Bool :=
  if k = ID_GBAKEY_A then keyDown gbaInput KEY_A
  else if k = ID_GBAKEY_B then keyDown gbaInput KEY_B
  else if k = ID_GBAKEY_START then keyDown gbaInput KEY_START
  else if k = ID_GBAKEY_SELECT then keyDown gbaInput KEY_SELECT
  else if k = ID_GBAKEY_L then keyDown gbaInput KEY_L
  else if k = ID_GBAKEY_R then keyDown gbaInput KEY_R
  else prev

/-- The second `switch` of the custom-profile loop: assign `v` to the button of
`origin.buttons` selected by the table entry `t`; a value with no `case` changes nothing. -/
def setButton (b : Buttons) (t : Int) (v : Bool) : Buttons :=
  if t = ID_GCPAD_A then { b with a := v }
  else if t = ID_GCPAD_B then { b with b := v }
  else if t = ID_GCPAD_X then { b with x := v }
  else if t = ID_GCPAD_Y then { b with y := v }
  else if t = ID_GCPAD_START then { b with start := v }
  else if t = ID_GCPAD_Z then { b with z := v }
  else if t = ID_GCPAD_L then { b with l := v }
  else if t = ID_GCPAD_R then { b with r := v }
  else if t = ID_GCPAD_UP then { b with up := v }
  else if t = ID_GCPAD_DOWN then { b with down := v }
  else if t = ID_GCPAD_LEFT then { b with left := v }
  else if t = ID_GCPAD_RIGHT then { b with right := v }
  else b

/-- The custom-profile loop `while (nProfileIterationGbaKey >= 0)`: `n` is
`nProfileIterationGbaKey + 1`, so `mapLoop cfg g 6` runs the slots 5, 4, 3, 2, 1, 0. -/
def mapLoop (cfg : Nat → Int) (gbaInput : Nat) : Nat → Buttons × Bool → Buttons × Bool
  | 0, st => st
  | n + 1, (b, prev) =>
      let v := gbaButtonState gbaInput (n : Int) prev
      mapLoop cfg gbaInput n (setButton b (cfg n) v, v)

/-- The hard-coded presets: `case 1` ... `case 6` of `switch (nGameProfile)`. -/
def presetButtons (nGameProfile : Int) (g : Nat) (b : Buttons) : Buttons :=
  if nGameProfile = 1 then
    { b with a := keyDown g KEY_A, b := keyDown g KEY_B, start := keyDown g KEY_START,
             z := keyDown g KEY_SELECT, l := keyDown g KEY_L, r := keyDown g KEY_R }
  else if nGameProfile = 2 then
    { b with a := keyDown g KEY_A, b := keyDown g KEY_B, start := keyDown g KEY_START,
             x := keyDown g KEY_SELECT, l := keyDown g KEY_L, z := keyDown g KEY_R }
  else if nGameProfile = 3 then
    { b with a := keyDown g KEY_A, z := keyDown g KEY_B, start := keyDown g KEY_START,
             b := keyDown g KEY_SELECT, x := keyDown g KEY_L, r := keyDown g KEY_R }
  else if nGameProfile = 4 then
    { b with a := keyDown g KEY_A, b := keyDown g KEY_B, start := keyDown g KEY_START,
             x := keyDown g KEY_SELECT, l := keyDown g KEY_L, r := keyDown g KEY_R }
  else if nGameProfile = 5 then
    { b with a := keyDown g KEY_A, y := keyDown g KEY_B, start := keyDown g KEY_START,
             b := keyDown g KEY_SELECT, l := keyDown g KEY_L, r := keyDown g KEY_R }
  else if nGameProfile = 6 then
    { b with a := keyDown g KEY_A, x := keyDown g KEY_B, start := keyDown g KEY_START,
             l := keyDown g KEY_L, b := keyDown g KEY_R, up := keyDown g KEY_UP,
             down := keyDown g KEY_DOWN }
  else b

/-- Assignment to a 4-bit field stored in the high nibble of a byte. -/
def setHi (byte v : Nat) : Nat := (v % 16) * 16 + byte % 16

/-- Assignment to a 4-bit field stored in the low nibble of a byte. -/
def setLo (byte v : Nat) : Nat := (byte % 256 / 16) * 16 + v % 16

/-- The operand `status.buttons.f ? 200 : origin.f` of the Status packer. -/
def analogOf (pressed : Bool) (originValue : Nat) : Nat := if pressed then 200 else originValue

/-- The static state of the GameCube responder. -/
structure State where
  id : Id
  status : Status
  origin : Origin
  buffer : Nat → Nat
  rumble : Rumble
  hw : Hardware
  aCustomGameProfileConfig : Nat → Int
  nGameProfile : Int
  bPrintKeys : Bool
  softReset : Bool
  hasMotor : Bool
  nSiCmdLen : Int
  nProfileIterationGbaKey : Int
  nProfileIterationGbaButtonState : Bool
  gbaInput : Nat
  previousGbaInput : Nat

/-- What one iteration of the poll loop does: the new state, the response handed to
`SISetResponse` (if any) and the argument of the `set_motor` call (if any). -/
structure Cycle where
  state : State
  response : Option Response
  motor : Option Bool

/-- The statement `switch (nGameProfile)`: the mapping into `origin.buttons`. -/
def applyProfile (s : State) : State :=
  if s.nGameProfile = 0 then
    let m := mapLoop s.aCustomGameProfileConfig s.gbaInput 6
      (s.origin.buttons, s.nProfileIterationGbaButtonState)
    { s with origin := { s.origin with buttons := m.1 }, nProfileIterationGbaKey := -1,
             nProfileIterationGbaButtonState := m.2 }
  else
    { s with origin :=
        { s.origin with buttons := presetButtons s.nGameProfile s.gbaInput s.origin.buttons } }

/-- The stick computation of `case CMD_STATUS` for one axis, in `uint8_t` arithmetic. -/
def stickAxis (gbaInput pos neg origin : Nat) : Nat :=
  if keyDown gbaInput pos then (origin + 100) % 256
  else if keyDown gbaInput neg then (((origin : Int) - 100) % 256).toNat
  else origin

/-- The statement `switch (id.status.mode)` of `case CMD_STATUS`, on the four union bytes. -/
def packMode (mode : Nat) (o : Origin) (st : Status) : Status :=
  let l := analogOf st.buttons.l o.trigger_l
  let r := analogOf st.buttons.r o.trigger_r
  let a := analogOf st.buttons.a o.button_a
  let b := analogOf st.buttons.b o.button_b
  if mode = 1 then
    { st with u0 := setLo (setHi st.u0 (o.substick_x >>> 4)) (o.substick_y >>> 4),
              u1 := l, u2 := r,
              u3 := setLo (setHi st.u3 (a >>> 4)) (b >>> 4) }
  else if mode = 2 then
    { st with u0 := setLo (setHi st.u0 (o.substick_x >>> 4)) (o.substick_y >>> 4),
              u1 := setLo (setHi st.u1 (l >>> 4)) (r >>> 4),
              u2 := a, u3 := b }
  else if mode = 3 then
    { st with u0 := o.substick_x, u1 := o.substick_y, u2 := l, u3 := r }
  else if mode = 4 then
    { st with u0 := o.substick_x, u1 := o.substick_y, u2 := a, u3 := b }
  else
    { st with u0 := o.substick_x, u1 := o.substick_y,
              u2 := setLo (setHi st.u2 (l >>> 4)) (r >>> 4),
              u3 := setLo (setHi st.u3 (a >>> 4)) (b >>> 4) }

/-- The body of `case CMD_STATUS` once the length is 25. -/
def cmdStatus (s : State) : State × Option Response :=
  let id := { s.id with mode := s.buffer 1 % 8, motor := s.buffer 2 % 4 }
  let st : Status :=
    { s.status with buttons := s.origin.buttons,
                    stick_x := stickAxis s.gbaInput KEY_RIGHT KEY_LEFT s.origin.stick_x,
                    stick_y := stickAxis s.gbaInput KEY_UP KEY_DOWN s.origin.stick_y }
  let st := packMode id.mode s.origin st
  ({ s with id := id, status := st }, some ⟨st.bytes, 64⟩)

/-- The statement `switch (buffer[0])` of `main`. -/
def dispatch (s : State) : State × Option Response :=
  if s.buffer 0 = CMD_RESET ∨ s.buffer 0 = CMD_ID then
    let s := if s.buffer 0 = CMD_RESET then { s with id := { s.id with motor := MOTOR_STOP } }
             else s
    if s.nSiCmdLen = 9 then
      let s := { s with id := { s.id with type := if s.hasMotor then 0x0900 else 0x2900 } }
      (s, some ⟨s.id.bytes, 24⟩)
    else (s, none)
  else if s.buffer 0 = CMD_STATUS then
    if s.nSiCmdLen = 25 then cmdStatus s else (s, none)
  else if s.buffer 0 = CMD_ORIGIN then
    if s.nSiCmdLen = 9 then (s, some ⟨s.origin.bytes, 80⟩) else (s, none)
  else if s.buffer 0 = CMD_RECALIBRATE ∨ s.buffer 0 = CMD_STATUS_LONG then
    if s.nSiCmdLen = 25 then
      let s := { s with id := { s.id with mode := s.buffer 1 % 8, motor := s.buffer 2 % 4 } }
      (s, some ⟨s.origin.bytes, 80⟩)
    else (s, none)
  else (s, none)

/-- The block `if (softReset) { ... }` that releases the buttons of `origin`. -/
def clearOrigin (o : Origin) : Origin :=
  { o with buttons := { Buttons.zero with unknown := o.buttons.unknown } }

/-- The head of an iteration, from `gbaInput = ~REG_KEYINPUT` to the assignment of
`id.status.unknown`: the snapshot is read, the soft-reset flag computed and the profile
applied to `origin.buttons`. -/
def prepare (s : State) (keyinput : Nat) : State :=
  let s := { s with gbaInput := gbaInputOf keyinput }
  let s := { s with softReset := decide (s.gbaInput = SOFTRESET_INPUT) }
  let s := applyProfile s
  { s with id := { s.id with unknown := s.origin.buttons.unknown } }

/-- The argument of the call `set_motor(!softReset && id.status.motor == MOTOR_RUMBLE)`. -/
def motorArg (s : State) : Bool := !s.softReset && decide (s.id.motor = MOTOR_RUMBLE)

/-- The tail of an iteration: the `set_motor` call, then the release of the buttons of
`origin` on soft reset, else the bookkeeping of the key echo. -/
def finish (s : State) : State :=
  let s := { s with hw := set_motor s.rumble s.hw (motorArg s) }
  if s.softReset then { s with origin := clearOrigin s.origin }
  else if s.bPrintKeys then { s with previousGbaInput := s.gbaInput }
  else s

/-- One iteration of `while (!softReset)` in `main`: `f` is the result of `SIGetCommand`,
`keyinput` the value `REG_KEYINPUT` reads in this iteration. -/
def poll (s : State) (f : Frame) (keyinput : Nat) : Cycle :=
  let s := { s with buffer := f.buf, nSiCmdLen := f.len }
  if s.nSiCmdLen < 9 then ⟨s, none, none⟩
  else
    let d := dispatch (prepare s keyinput)
    ⟨finish d.1, d.2, some (motorArg d.1)⟩

/-- The loop `while (!softReset)`: the frames and key snapshots are consumed one per
iteration until the flag is raised; the result is the final state and the responses in
order. -/
def pollLoop : State → List (Frame × Nat) → State × List (Option Response)
  | s, [] => (s, [])
  | s, (f, k) :: rest =>
      if s.softReset then (s, [])
      else
        let c := poll s f k
        let r := pollLoop c.state rest
        (r.1, c.response :: r.2)

/-- The effect of `profileSelect` on the rumble state: `hasMotor = has_motor()`. -/
def classify (s : State) : State :=
  let hm := has_motor s.hw
  { s with rumble := hm.1, hasMotor := hm.2 }

end GC

/-! ## Concrete sessions used to evaluate the model -/

/-- A cartridge space with no recognised signature and idle DMA registers. -/
def plainCart : Hardware := ⟨fun _ => 0, 0, 0, 0⟩

/-- A cartridge space classified as the GPIO-toggle kind: `ROM[0x59] = 0x96` and the low
byte of `ROM[0x56]` is the letter R. -/
def gpioCart : Hardware := ⟨fun i => if i = 0x59 then 0x96 else if i = 0x56 then 0x52 else 0, 0, 0, 0⟩

/-- A frame holding the given leading bytes (zero after them) with the given bit count. -/
def frameOf (bytes : List Nat) (len : Int) : Frame := ⟨fun i => bytes.getD i 0, len⟩

/-- A state of the N64 responder at entry of the poll loop: statics zero-initialised, the
default profile selected, a blank backing store. -/
def N64.bootState (hw : Hardware) : N64.State :=
  { status := ⟨N64.Buttons.zero, 0, 0⟩, buffer := fun _ => 0, rumble := N64.Rumble.RUMBLE_NONE,
    vram := fun _ => 0, hw := hw, aGameProfileConfig := N64.defaultProfileConfig,
    softReset := false, nSiCmdLen := 0, nProfileIterationGbaKey := 0,
    nProfileIterationGbaButtonState := false, gbaInput := 0 }

/-- A state of the GameCube responder at entry of the poll loop for the given profile:
statics at their initialisers, `profileSelect` has classified the cartridge. -/
def GC.bootState (hw : Hardware) (nGameProfile : Int) : GC.State :=
  GC.classify
    { id := ⟨0, false, false, 0, 0⟩, status := ⟨GC.Buttons.zero, 0, 0, 0, 0, 0, 0⟩,
      origin := GC.Origin.init, buffer := fun _ => 0, rumble := GC.Rumble.RUMBLE_NONE,
      hw := hw, aCustomGameProfileConfig := GC.aDefaultProfileConfig,
      nGameProfile := nGameProfile, bPrintKeys := false, softReset := false,
      hasMotor := false, nSiCmdLen := 0, nProfileIterationGbaKey := 0,
      nProfileIterationGbaButtonState := false, gbaInput := 0, previousGbaInput := 0 }

/-- A session in which a Write of 32 bytes `0xFF` to block `0x8000` has been accepted with a
GPIO-toggle cartridge inserted: the block holds `0xFF` and `rumble` is set. -/
def N64.afterRumbleWrite : N64.State :=
  (N64.poll (N64.bootState gpioCart)
    (frameOf ([0x03, 0x80, 0x01] ++ List.replicate 32 0xFF) 281) 0x3FF).state

/-! ## Specification-side vocabulary -/

/-- The single legal frame length of each opcode of variant 1. -/
def N64.legalLen (opcode : Nat) : Option Int :=
  if opcode = 0x00 ∨ opcode = 0xFF then some 9
  else if opcode = 0x01 then some 9
  else if opcode = 0x02 then some 25
  else if opcode = 0x03 then some 281
  else none

/-- The single legal frame length of each opcode of variant 2. -/
def GC.legalLen (opcode : Nat) : Option Int :=
  if opcode = 0x00 ∨ opcode = 0xFF then some 9
  else if opcode = 0x40 then some 25
  else if opcode = 0x41 then some 9
  else if opcode = 0x42 ∨ opcode = 0x43 then some 25
  else none

/-- The key mask of the physical key of slot `k` (A, B, Start, Select, L, R in that order). -/
def slotKey (k : Nat) : Nat := [KEY_A, KEY_B, KEY_START, KEY_SELECT, KEY_L, KEY_R].getD k 0

/-- The bit of target button `t` of the N64 pad, `t` being its `ID_N64PAD_` number. -/
def N64.Buttons.get (b : N64.Buttons) (t : Nat) : Bool :=
  match t with
  | 0 => b.a
  | 1 => b.b
  | 2 => b.start
  | 3 => b.z
  | 4 => b.l
  | 5 => b.r
  | 6 => b.up
  | 7 => b.down
  | 8 => b.left
  | 9 => b.right
  | 10 => b.c_up
  | 11 => b.c_down
  | 12 => b.c_left
  | 13 => b.c_right
  | _ => false

/-- The bit of target button `t` of the GameCube pad, `t` being its `ID_GCPAD_` number. -/
def GC.Buttons.get (b : GC.Buttons) (t : Nat) : Bool :=
  match t with
  | 0 => b.a
  | 1 => b.b
  | 2 => b.x
  | 3 => b.y
  | 4 => b.start
  | 5 => b.z
  | 6 => b.l
  | 7 => b.r
  | 8 => b.up
  | 9 => b.down
  | 10 => b.left
  | 11 => b.right
  | _ => false

/-- A mapping table given by its six entries. -/
def tableOf (entries : List Int) : Nat → Int := fun k => entries.getD k 0

/-! ## Intermediate states of the dispatchers -/

/-- The state in which a command body runs: the frame has been received. -/
def N64.received (s : N64.State) (f : Frame) : N64.State :=
  { s with buffer := f.buf, nSiCmdLen := f.len }

/-- The mask a Read applies: `0x81` in the top half when `rumble` is set, else `0xFF`. -/
def N64.readMask (s : N64.State) : Nat :=
  if (N64.address s.buffer &&& 0x8000) = 0x8000 ∧ s.rumble ≠ N64.Rumble.RUMBLE_NONE then 0x81
  else 0xFF

/-- The buffer after an accepted Read: the masked block at offset 3, its checksum at 35. -/
def N64.readBuffer (s : N64.State) : Nat → Nat :=
  store (pak_copyfrom s.vram (N64.address s.buffer) s.buffer 3 (N64.readMask s)).1 35
    (pak_copyfrom s.vram (N64.address s.buffer) s.buffer 3 (N64.readMask s)).2

/-- The state of the GameCube responder once the frame has been received. -/
def GC.received (s : GC.State) (f : Frame) : GC.State :=
  { s with buffer := f.buf, nSiCmdLen := f.len }

/-! ## Sessions and reachable states -/

/-- Entry of `main` of the N64 responder, up to the poll loop: `profileSelect` installs a
mapping table (and draws on the screen, so VRAM is whatever it left), `softReset = false`,
and `RegisterRamReset(RESET_ALL_REG)` resets hardware registers.  Every other static keeps
its value: `main` calls itself after a soft reset. -/
def N64.sessionStart (s : N64.State) (hw : Hardware) (vram : Nat → Nat) (cfg : Nat → Int) :
    N64.State :=
  { s with hw := hw, vram := vram, aGameProfileConfig := cfg, softReset := false }

/-- The states of the N64 responder at the head of a poll-loop iteration or at loop exit:
the first session starts from the static initialisers, an iteration runs while the flag is
down, and a raised flag leads to a new session. -/
inductive N64.Reachable : N64.State → Prop where
  | boot (hw : Hardware) (vram : Nat → Nat) (cfg : Nat → Int) :
      N64.Reachable (N64.sessionStart (N64.bootState hw) hw vram cfg)
  | poll (s : N64.State) (f : Frame) (keyinput : Nat) :
      N64.Reachable s → s.softReset = false → N64.Reachable (N64.poll s f keyinput).state
  | restart (s : N64.State) (hw : Hardware) (vram : Nat → Nat) (cfg : Nat → Int) :
      N64.Reachable s → s.softReset = true → N64.Reachable (N64.sessionStart s hw vram cfg)

/-- Entry of `main` of the GameCube responder, up to the poll loop: the menus choose the key
echo, the profile and (for the custom profile) the table, `profileSelect` stores
`hasMotor = has_motor()`, then `softReset = false` and `previousGbaInput = 0`.  The records
`id`, `status` and `origin` keep their values: `main` calls itself after a soft reset. -/
def GC.sessionStart (s : GC.State) (hw : Hardware) (nGameProfile : Int) (cfg : Nat → Int)
    (bPrintKeys : Bool) : GC.State :=
  GC.classify
    { s with hw := hw, nGameProfile := nGameProfile, aCustomGameProfileConfig := cfg,
             bPrintKeys := bPrintKeys, softReset := false, previousGbaInput := 0 }

/-- The states of the GameCube responder at the head of a poll-loop iteration or at loop
exit (see `N64.Reachable`). -/
inductive GC.Reachable : GC.State → Prop where
  | boot (hw : Hardware) (nGameProfile : Int) (cfg : Nat → Int) (bPrintKeys : Bool) :
      GC.Reachable (GC.sessionStart (GC.bootState hw nGameProfile) hw nGameProfile cfg
        bPrintKeys)
  | poll (s : GC.State) (f : Frame) (keyinput : Nat) :
      GC.Reachable s → s.softReset = false → GC.Reachable (GC.poll s f keyinput).state
  | restart (s : GC.State) (hw : Hardware) (nGameProfile : Int) (cfg : Nat → Int)
      (bPrintKeys : Bool) :
      GC.Reachable s → s.softReset = true →
      GC.Reachable (GC.sessionStart s hw nGameProfile cfg bPrintKeys)

/-- The last four bytes of a GameCube Status response as the spec words them, from the mode,
the substick and the values `v(L)`, `v(R)`, `v(A)`, `v(B)`. -/
def GC.packedTail (mode sx sy vL vR vA vB : Nat) : List Nat :=
  if mode = 1 then
    [((sx >>> 4) <<< 4) ||| (sy >>> 4), vL, vR, ((vA >>> 4) <<< 4) ||| (vB >>> 4)]
  else if mode = 2 then
    [((sx >>> 4) <<< 4) ||| (sy >>> 4), ((vL >>> 4) <<< 4) ||| (vR >>> 4), vA, vB]
  else if mode = 3 then [sx, sy, vL, vR]
  else if mode = 4 then [sx, sy, vA, vB]
  else [sx, sy, ((vL >>> 4) <<< 4) ||| (vR >>> 4), ((vA >>> 4) <<< 4) ||| (vB >>> 4)]

/-- The state in which `switch (buffer[0])` of the GameCube responder runs. -/
def GC.atDispatch (s : GC.State) (f : Frame) (keyinput : Nat) : GC.State :=
  GC.prepare (GC.received s f) keyinput

/-- A GameCube session (default preset, no rumble) whose origin record has trigger L at
`0xFF`. -/
def GC.fullTriggerState : GC.State :=
  { GC.bootState plainCart 1 with origin := { GC.Origin.init with trigger_l := 0xFF } }

/-- A GameCube session restarted after a soft reset: the first session (default preset) saw
the chord on an Identify frame, then `main` was entered again with the same choices. -/
def GC.afterSoftReset : GC.State :=
  GC.sessionStart (GC.poll (GC.bootState plainCart 1) (frameOf [0x00] 9) 0x3F0).state
    plainCart 1 GC.aDefaultProfileConfig false

/-- A cartridge space classified as the GPIO-bit variant: `ROM[0x59] = 0x96` and the low
byte of `ROM[0x56]` is the letter G; the GPIO data register holds `0x1234`. -/
def omegaCart : Hardware :=
  ⟨fun i => if i = 0x59 then 0x96 else if i = 0x56 then 0x47 else if i = 0x62 then 0x1234 else 0,
    0, 0, 0⟩

/-- A GameCube session (default preset, no rumble cartridge) that has answered one Status
frame whose byte 2 asks for rumble: the stored motor field is 1. -/
def GC.afterRumbleStatus : GC.State :=
  (GC.poll (GC.bootState plainCart 1) (frameOf [0x40, 0x03, 0x01] 25) 0x3FF).state

/-- The session `s` switched to the custom profile with the built-in table
`aDefaultProfileConfig` (what the profile menu leaves when the custom profile is chosen and
the table is not edited). -/
def GC.withDefaultTable (s : GC.State) : GC.State :=
  { s with nGameProfile := 0, aCustomGameProfileConfig := GC.aDefaultProfileConfig }

/-- The state `s` with the profile choice and the scratch variables of the custom-profile
loop replaced. -/
def GC.withProfile (s : GC.State) (nGameProfile : Int) (cfg : Nat → Int) (key : Int)
    (state : Bool) : GC.State :=
  { s with nGameProfile := nGameProfile, aCustomGameProfileConfig := cfg,
           nProfileIterationGbaKey := key, nProfileIterationGbaButtonState := state }

/-! ## Profile validation (`isGameProfileValid`, identical in both files) -/

/-- Inner loop of `isGameProfileValid`: `while (i < 6 && valid)` comparing the entry `n` of
the slot under test with entry `i`; a match clears `valid`, a mismatch advances `i`.
`fuel` bounds the number of evaluations of the loop condition; `none` means it ran out. -/
def isGameProfileValid_inner (aGameProfileConfig : Nat → Int) (n : Int) :
    Nat → Nat → Bool → Option Bool
  | 0, _, _ => none
  | fuel + 1, i, valid =>
    if i < 6 ∧ valid = true then
      if n = aGameProfileConfig i then
        isGameProfileValid_inner aGameProfileConfig n fuel i false
      else
        isGameProfileValid_inner aGameProfileConfig n fuel (i + 1) valid
    else some valid

/-- Outer loop of `isGameProfileValid`: `while (nGbaKey < 6 && valid)`, running the inner
loop from `nGbaKey + 1` and then advancing `nGbaKey`. -/
def isGameProfileValid_outer (aGameProfileConfig : Nat → Int) :
    Nat → Nat → Bool → Option Bool
  | 0, _, _ => none
  | fuel + 1, nGbaKey, valid =>
    if nGbaKey < 6 ∧ valid = true then
      match isGameProfileValid_inner aGameProfileConfig (aGameProfileConfig nGbaKey) fuel
          (nGbaKey + 1) valid with
      | none => none
      | some v => isGameProfileValid_outer aGameProfileConfig fuel (nGbaKey + 1) v
    else some valid

/-- The function `isGameProfileValid(aGameProfileConfig)`: `valid = true`, `nGbaKey = 0`,
the two nested loops, `return valid`. -/
def isGameProfileValid (fuel : Nat) (aGameProfileConfig : Nat → Int) : Option Bool :=
  isGameProfileValid_outer aGameProfileConfig fuel 0 true

/-! ## Reference shift registers for the checksum tables -/

/-- One LSB-first (reflected) step: shift right by one, xor `p` when the bit shifted out
is 1. -/
def lsbStep (p x : Nat) : Nat :=
  if x.testBit 0 then (x / 2) ^^^ p else x / 2

/-- The result of `n` LSB-first steps. -/
def lsbSteps (p : Nat) : Nat → Nat → Nat
  | 0, x => x
  | n + 1, x => lsbSteps p n (lsbStep p x)

/-- One MSB-first step on a register of `w` bits: shift left by one within `w` bits, xor
`p` when the bit shifted out is 1. -/
def msbStep (w p x : Nat) : Nat :=
  if x.testBit (w - 1) then ((x * 2) % 2 ^ w) ^^^ p else (x * 2) % 2 ^ w

/-- The result of `n` MSB-first steps. -/
def msbSteps (w p : Nat) : Nat → Nat → Nat
  | 0, x => x
  | n + 1, x => msbSteps w p n (msbStep w p x)

/-! ## Polynomial arithmetic over GF(2) (bit `k` of a number is the coefficient of `x^k`) -/

/-- Carry-less product of the polynomial `a` with the low `n` bits of the polynomial `b`. -/
def gf2_mul (a b : Nat) : Nat → Nat
  | 0 => 0
  | k + 1 => gf2_mul a b k ^^^ (if b.testBit k then a <<< k else 0)

/-- Long division by the polynomial `p` of degree `deg`: `n` steps, from the coefficient of
`x^(deg + n - 1)` down to the coefficient of `x^deg`; each step that meets a coefficient 1
subtracts `p * x^k` and records `x^k` in the quotient.  The pair is (quotient, remainder). -/
def gf2_divmod (p deg : Nat) : Nat → Nat × Nat → Nat × Nat
  | 0, qr => qr
  | k + 1, (q, r) =>
    if r.testBit (k + deg) then gf2_divmod p deg k (q ^^^ (1 <<< k), r ^^^ (p <<< k))
    else gf2_divmod p deg k (q, r)

/-- The remainder of the polynomial `x` (of degree below `deg + n`) modulo `p`. -/
def gf2_mod (p deg n x : Nat) : Nat := (gf2_divmod p deg n (0, x)).2

/-- The polynomial `x^5 + x^4 + x^2 + 1`. -/
def CRC5_POLY : Nat := 0x35

/-- What is checked of one 16-bit word `x`: long division by `CRC5_POLY` leaves the address
checksum of `x`, and quotient times divisor plus remainder gives `x` back. -/
def crc5_agrees (x : Nat) : Bool :=
  (gf2_divmod CRC5_POLY 5 11 (0, x)).2 == crc5 x
    && (gf2_mul CRC5_POLY (gf2_divmod CRC5_POLY 5 11 (0, x)).1 11
          ^^^ (gf2_divmod CRC5_POLY 5 11 (0, x)).2 == x)
    && decide ((gf2_divmod CRC5_POLY 5 11 (0, x)).1 < 2048)

/-! ## Bit-serial reference of the data checksum -/

/-- One step of the bit-serial CRC-8 with polynomial `0x85`: the register is shifted left by
one within 8 bits and the polynomial is xored in when the bit shifted out differs from the
message bit `m`. -/
def crc8_bit (crc : Nat) (m : Bool) : Nat :=
  if xor (crc.testBit 7) m then ((crc * 2) % 256) ^^^ 0x85 else (crc * 2) % 256

/-- The eight bits of a byte, most significant first. -/
def bitsOfByte (b : Nat) : List Bool :=
  [b.testBit 7, b.testBit 6, b.testBit 5, b.testBit 4, b.testBit 3, b.testBit 2, b.testBit 1,
    b.testBit 0]

/-- The message bits of a block: its bytes in order, each most significant bit first. -/
def messageBits : List Nat → List Bool
  | [] => []
  | b :: bs => bitsOfByte b ++ messageBits bs

/-- The bit-serial CRC-8 of a block: initial value 0, one `crc8_bit` step per message bit,
no reflection, no final xor. -/
def crc8_bitwise (bytes : List Nat) : Nat := (messageBits bytes).foldl crc8_bit 0

/-- The first `n` bits that leave an 8-bit register `r` shifted left step by step. -/
def bitsShiftedOut : Nat → Nat → List Bool
  | 0, _ => []
  | n + 1, r => r.testBit 7 :: bitsShiftedOut n ((r * 2) % 256)

/-- What is left of an 8-bit register `r` after `n` left shifts. -/
def shiftedLeft : Nat → Nat → Nat
  | 0, r => r
  | n + 1, r => shiftedLeft n ((r * 2) % 256)

/-! ## Lemmas on the accessory store -/

theorem store_same (m : Nat → Nat) (i v : Nat) : store m i v i = v := by
  simp [store]

theorem store_other (m : Nat → Nat) (i v j : Nat) (h : j ≠ i) : store m i v j = m j := by
  simp [store, h]

theorem crc8_step_lt (crc b : Nat) : crc8_step crc b < 256 := by
  unfold crc8_step
  have h : ∀ x ∈ crc8_lut, x < 256 := by
    set_option maxRecDepth 100000 in decide
  by_cases hi : crc ^^^ b < crc8_lut.length
  · rw [List.getD_eq_getElem _ _ hi]
    exact h _ (List.getElem_mem _)
  · rw [List.getD_eq_default _ _ (by omega)]
    decide

theorem pak_copyto_loop_vram (addr : Nat) (src : Nat → Nat) (off : Nat) :
    ∀ (n i : Nat) (vram : Nat → Nat) (crc j : Nat),
      (pak_copyto_loop addr src off n i vram crc).1 j
        = if addr + i ≤ j ∧ j < addr + i + n then src (off + (j - addr)) else vram j := by
  intro n
  induction n with
  | zero =>
    intro i vram crc j
    have h : ¬ (addr + i ≤ j ∧ j < addr + i + 0) := by omega
    simp only [pak_copyto_loop, if_neg h]
  | succ n ih =>
    intro i vram crc j
    simp only [pak_copyto_loop]
    rw [ih]
    by_cases h1 : j = addr + i
    · subst h1
      simp [store]
    · by_cases h2 : addr + (i + 1) ≤ j ∧ j < addr + (i + 1) + n
      · have h3 : addr + i ≤ j ∧ j < addr + i + (n + 1) := by omega
        simp [h2, h3]
      · have h3 : ¬ (addr + i ≤ j ∧ j < addr + i + (n + 1)) := by omega
        simp [h2, h3, store, h1]

theorem pak_copyto_loop_crc (addr : Nat) (src : Nat → Nat) (off : Nat) :
    ∀ (n i : Nat) (vram : Nat → Nat) (crc : Nat),
      (pak_copyto_loop addr src off n i vram crc).2
        = ((List.range' i n).map (fun k => src (off + k))).foldl crc8_step crc := by
  intro n
  induction n with
  | zero => intro i vram crc; simp [pak_copyto_loop]
  | succ n ih =>
    intro i vram crc
    simp only [pak_copyto_loop]
    rw [ih]
    simp [List.range'_succ]

theorem pak_copyfrom_loop_dst (vram : Nat → Nat) (addr off mask : Nat) :
    ∀ (n i : Nat) (dst : Nat → Nat) (crc j : Nat),
      (pak_copyfrom_loop vram addr off mask n i dst crc).1 j
        = if off + i ≤ j ∧ j < off + i + n then (vram (addr + (j - off)) &&& mask) % 256
          else dst j := by
  intro n
  induction n with
  | zero =>
    intro i dst crc j
    have h : ¬ (off + i ≤ j ∧ j < off + i + 0) := by omega
    simp only [pak_copyfrom_loop, if_neg h]
  | succ n ih =>
    intro i dst crc j
    simp only [pak_copyfrom_loop]
    rw [ih]
    by_cases h1 : j = off + i
    · subst h1
      simp [store]
    · by_cases h2 : off + (i + 1) ≤ j ∧ j < off + (i + 1) + n
      · have h3 : off + i ≤ j ∧ j < off + i + (n + 1) := by omega
        simp [h2, h3]
      · have h3 : ¬ (off + i ≤ j ∧ j < off + i + (n + 1)) := by omega
        simp [h2, h3, store, h1]

theorem pak_copyfrom_loop_crc (vram : Nat → Nat) (addr off mask : Nat) :
    ∀ (n i : Nat) (dst : Nat → Nat) (crc : Nat),
      (pak_copyfrom_loop vram addr off mask n i dst crc).2
        = ((List.range' i n).map (fun k => (vram (addr + k) &&& mask) % 256)).foldl
            crc8_step crc := by
  intro n
  induction n with
  | zero => intro i dst crc; simp [pak_copyfrom_loop]
  | succ n ih =>
    intro i dst crc
    simp only [pak_copyfrom_loop]
    rw [ih]
    simp [List.range'_succ]

theorem crc8_eq_foldl (bytes : List Nat) : crc8 bytes = bytes.foldl crc8_step 0 := rfl

theorem pak_copyto_crc (vram : Nat → Nat) (addr : Nat) (src : Nat → Nat) (off : Nat) :
    (pak_copyto vram addr src off).2 = crc8 (bytesAt src off 32) := by
  rw [pak_copyto, pak_copyto_loop_crc, crc8_eq_foldl, bytesAt, List.range_eq_range']

theorem pak_copyto_vram (vram : Nat → Nat) (addr : Nat) (src : Nat → Nat) (off j : Nat) :
    (pak_copyto vram addr src off).1 j
      = if addr ≤ j ∧ j < addr + 32 then src (off + (j - addr)) else vram j := by
  rw [pak_copyto, pak_copyto_loop_vram]
  simp

theorem pak_copyfrom_crc (vram : Nat → Nat) (addr : Nat) (dst : Nat → Nat) (off mask : Nat) :
    (pak_copyfrom vram addr dst off mask).2
      = crc8 ((List.range 32).map (fun k => (vram (addr + k) &&& mask) % 256)) := by
  rw [pak_copyfrom, pak_copyfrom_loop_crc, crc8_eq_foldl, List.range_eq_range']

theorem pak_copyfrom_dst (vram : Nat → Nat) (addr : Nat) (dst : Nat → Nat) (off mask j : Nat) :
    (pak_copyfrom vram addr dst off mask).1 j
      = if off ≤ j ∧ j < off + 32 then (vram (addr + (j - off)) &&& mask) % 256 else dst j := by
  rw [pak_copyfrom, pak_copyfrom_loop_dst]
  simp

theorem and_255_mod (x : Nat) : (x &&& 0xFF) % 256 = x % 256 := by
  have h : x &&& 0xFF = x % 256 := Nat.and_pow_two_sub_one_eq_mod x 8
  rw [h, Nat.mod_mod]

/-! ## Lemmas on the N64 dispatcher -/

theorem n64_poll_read (s : N64.State) (f : Frame) (keyinput : Nat)
    (hop : f.buf 0 = N64.CMD_READ) (hlen : f.len = 25) :
    N64.poll s f keyinput = N64.cmdRead (N64.received s f) := by
  simp [N64.poll, N64.received, hop, hlen, N64.CMD_READ, N64.CMD_RESET, N64.CMD_ID,
    N64.CMD_STATUS]

theorem n64_poll_write (s : N64.State) (f : Frame) (keyinput : Nat)
    (hop : f.buf 0 = N64.CMD_WRITE) (hlen : f.len = 281) :
    N64.poll s f keyinput = N64.cmdWrite (N64.received s f) := by
  simp [N64.poll, N64.received, hop, hlen, N64.CMD_READ, N64.CMD_RESET, N64.CMD_ID,
    N64.CMD_STATUS, N64.CMD_WRITE]

theorem n64_poll_status (s : N64.State) (f : Frame) (keyinput : Nat)
    (hop : f.buf 0 = N64.CMD_STATUS) (hlen : f.len = 9) :
    N64.poll s f keyinput = N64.cmdStatus (N64.received s f) keyinput := by
  simp [N64.poll, N64.received, hop, hlen, N64.CMD_RESET, N64.CMD_ID, N64.CMD_STATUS]

theorem n64_cmdRead_drop (s : N64.State)
    (hc : crc5 (N64.address s.buffer) ≠ s.buffer 2 &&& 0x1F) :
    N64.cmdRead s = ⟨s, none, none⟩ := by
  simp [N64.cmdRead, hc]

theorem n64_cmdWrite_drop (s : N64.State)
    (hc : crc5 (N64.address s.buffer) ≠ s.buffer 2 &&& 0x1F) :
    N64.cmdWrite s = ⟨s, none, none⟩ := by
  simp [N64.cmdWrite, hc]

theorem n64_cmdRead_accept (s : N64.State)
    (hc : crc5 (N64.address s.buffer) = s.buffer 2 &&& 0x1F) :
    N64.cmdRead s =
      ⟨{ s with buffer := N64.readBuffer s }, some ⟨bytesAt (N64.readBuffer s) 3 33, 264⟩,
        none⟩ := by
  simp [N64.cmdRead, hc, N64.readMask, N64.readBuffer]

theorem bytesAt_one (buf : Nat → Nat) (off : Nat) : bytesAt buf off 1 = [buf off] := rfl

theorem n64_cmdWrite_response (s : N64.State)
    (hc : crc5 (N64.address s.buffer) = s.buffer 2 &&& 0x1F) :
    (N64.cmdWrite s).response
      = some ⟨[(pak_copyto s.vram (N64.address s.buffer) s.buffer 3).2], 8⟩ := by
  simp only [N64.cmdWrite, hc, ne_eq, not_true_eq_false, if_false, bytesAt_one, store_same]
  split_ifs <;> rfl

theorem n64_cmdWrite_vram (s : N64.State)
    (hc : crc5 (N64.address s.buffer) = s.buffer 2 &&& 0x1F) :
    (N64.cmdWrite s).state.vram = (pak_copyto s.vram (N64.address s.buffer) s.buffer 3).1 := by
  simp only [N64.cmdWrite, hc, ne_eq, not_true_eq_false, if_false]
  split_ifs <;> rfl

theorem n64_cmdWrite_motor (s : N64.State)
    (hc : crc5 (N64.address s.buffer) = s.buffer 2 &&& 0x1F) :
    (N64.cmdWrite s).motor
      = if (N64.address s.buffer &&& 0x8000) = 0x8000 ∧ (N64.has_motor s.hw).2 = true
        then some (s.buffer 3 &&& 0x01 != 0) else none := by
  simp only [N64.cmdWrite, hc, ne_eq, not_true_eq_false, if_false]
  by_cases h1 : (N64.address s.buffer &&& 0x8000) = 0x8000
  · by_cases h2 : (N64.has_motor s.hw).2 = true
    · simp [h1, h2, store]
    · simp [h1, h2]
  · simp [h1]

theorem n64_cmdWrite_hw (s : N64.State)
    (hc : crc5 (N64.address s.buffer) = s.buffer 2 &&& 0x1F) :
    (N64.cmdWrite s).state.hw
      = if (N64.address s.buffer &&& 0x8000) = 0x8000 ∧ (N64.has_motor s.hw).2 = true
        then N64.set_motor (N64.has_motor s.hw).1 s.hw (s.buffer 3 &&& 0x01 != 0) else s.hw := by
  simp only [N64.cmdWrite, hc, ne_eq, not_true_eq_false, if_false]
  by_cases h1 : (N64.address s.buffer &&& 0x8000) = 0x8000
  · by_cases h2 : (N64.has_motor s.hw).2 = true
    · simp [h1, h2, store]
    · simp [h1, h2]
  · simp [h1]

theorem n64_has_motor_flag (hw : Hardware) :
    (N64.has_motor hw).2 = true ↔ (N64.has_motor hw).1 ≠ N64.Rumble.RUMBLE_NONE := by
  unfold N64.has_motor
  split_ifs <;> simp

/-! ## Variant 1: accessory read and write -/

/-- C1: in the N64 dispatcher, for every Read frame of 25 bits and every Write frame of 281
bits, the accessory operation is performed and a response is produced if and only if
`crc5(address)` equals the low 5 bits of `buffer[2]`: on a match a Read answers the 33 bytes
that `pak_copyfrom` left in the buffer and a Write stores the block with `pak_copyto` and
answers its checksum; on a mismatch the backing store is unchanged, no motor command is
issued, the rumble hardware is untouched and no response is produced. -/
theorem c1_address_check (s : N64.State) (f : Frame) (keyinput : Nat)
    (hop : (f.buf 0 = N64.CMD_READ ∧ f.len = 25) ∨ (f.buf 0 = N64.CMD_WRITE ∧ f.len = 281)) :
    ((N64.poll s f keyinput).response ≠ none
        ↔ crc5 (N64.address f.buf) = f.buf 2 &&& 0x1F)
    ∧ (crc5 (N64.address f.buf) = f.buf 2 &&& 0x1F →
        (f.buf 0 = N64.CMD_READ →
          ∃ mask, (N64.poll s f keyinput).response
            = some ⟨bytesAt (store (pak_copyfrom s.vram (N64.address f.buf) f.buf 3 mask).1 35
                (pak_copyfrom s.vram (N64.address f.buf) f.buf 3 mask).2) 3 33, 264⟩)
        ∧ (f.buf 0 = N64.CMD_WRITE →
          (N64.poll s f keyinput).state.vram = (pak_copyto s.vram (N64.address f.buf) f.buf 3).1
          ∧ (N64.poll s f keyinput).response
            = some ⟨[(pak_copyto s.vram (N64.address f.buf) f.buf 3).2], 8⟩))
    ∧ (crc5 (N64.address f.buf) ≠ f.buf 2 &&& 0x1F →
        (N64.poll s f keyinput).state.vram = s.vram
        ∧ (N64.poll s f keyinput).motor = none
        ∧ (N64.poll s f keyinput).state.hw = s.hw
        ∧ (N64.poll s f keyinput).state.rumble = s.rumble
        ∧ (N64.poll s f keyinput).response = none) := by
  have hw : N64.CMD_READ ≠ N64.CMD_WRITE := by decide
  rcases hop with ⟨hop, hlen⟩ | ⟨hop, hlen⟩
  · rw [n64_poll_read s f keyinput hop hlen]
    by_cases hc : crc5 (N64.address f.buf) = f.buf 2 &&& 0x1F
    · have hc2 : crc5 (N64.address (N64.received s f).buffer) = (N64.received s f).buffer 2 &&& 0x1F := hc
      rw [n64_cmdRead_accept _ hc2]
      refine ⟨by simp [hc], fun _ => ⟨fun _ => ⟨_, rfl⟩, fun h => ?_⟩, fun h => absurd hc h⟩
      rw [hop] at h
      exact absurd h hw
    · have hc2 : crc5 (N64.address (N64.received s f).buffer) ≠ (N64.received s f).buffer 2 &&& 0x1F := hc
      rw [n64_cmdRead_drop _ hc2]
      exact ⟨by simp [hc], fun h => absurd h hc, fun _ => ⟨rfl, rfl, rfl, rfl, rfl⟩⟩
  · rw [n64_poll_write s f keyinput hop hlen]
    by_cases hc : crc5 (N64.address f.buf) = f.buf 2 &&& 0x1F
    · have hc2 : crc5 (N64.address (N64.received s f).buffer) = (N64.received s f).buffer 2 &&& 0x1F := hc
      rw [n64_cmdWrite_response _ hc2, n64_cmdWrite_vram _ hc2]
      refine ⟨by simp [hc], fun _ => ⟨fun h => ?_, fun _ => ⟨rfl, rfl⟩⟩, fun h => absurd hc h⟩
      rw [hop] at h
      exact absurd h.symm hw
    · have hc2 : crc5 (N64.address (N64.received s f).buffer) ≠ (N64.received s f).buffer 2 &&& 0x1F := hc
      rw [n64_cmdWrite_drop _ hc2]
      exact ⟨by simp [hc], fun h => absurd h hc, fun _ => ⟨rfl, rfl, rfl, rfl, rfl⟩⟩

/-- C1 at a concrete session: a Read of block `0x8000` whose address checksum is right is
answered, by the theorem. -/
theorem c1_address_check_witness :
    (N64.poll (N64.bootState gpioCart) (frameOf [2, 0x80, 0x01] 25) 0x3FF).response ≠ none :=
  (c1_address_check (N64.bootState gpioCart) (frameOf [2, 0x80, 0x01] 25) 0x3FF
    (Or.inl ⟨by decide, by decide⟩)).1.2 (by decide)

/-! ## Frame lengths -/

theorem n64_poll_response_legal (s : N64.State) (f : Frame) (keyinput : Nat)
    (h : (N64.poll s f keyinput).response ≠ none) : N64.legalLen (f.buf 0) = some f.len := by
  unfold N64.poll at h
  simp only [] at h
  split_ifs at h with h1 h2 h3 h4 h5 h6 h7 h8 h9 <;>
    simp_all [N64.legalLen, N64.CMD_RESET, N64.CMD_ID, N64.CMD_STATUS, N64.CMD_READ,
      N64.CMD_WRITE]
  intros
  omega

theorem gc_dispatch_response_legal (s : GC.State)
    (h : (GC.dispatch s).2 ≠ none) : GC.legalLen (s.buffer 0) = some s.nSiCmdLen := by
  unfold GC.dispatch at h
  simp only [] at h
  split_ifs at h with h1 h2 h3 h4 h5 h6 h7 h8 h9 <;>
    simp_all [GC.legalLen, GC.CMD_RESET, GC.CMD_ID, GC.CMD_STATUS, GC.CMD_ORIGIN,
      GC.CMD_RECALIBRATE, GC.CMD_STATUS_LONG]

theorem gc_applyProfile_frame (s : GC.State) :
    (GC.applyProfile s).buffer = s.buffer ∧ (GC.applyProfile s).nSiCmdLen = s.nSiCmdLen := by
  unfold GC.applyProfile
  split_ifs <;> exact ⟨rfl, rfl⟩

theorem gc_prepare_frame (s : GC.State) (keyinput : Nat) :
    (GC.prepare s keyinput).buffer = s.buffer
      ∧ (GC.prepare s keyinput).nSiCmdLen = s.nSiCmdLen := by
  simp [GC.prepare, gc_applyProfile_frame]

theorem gc_poll_of_short (s : GC.State) (f : Frame) (keyinput : Nat) (hlen : f.len < 9) :
    GC.poll s f keyinput = ⟨GC.received s f, none, none⟩ := by
  simp [GC.poll, GC.received, hlen]

theorem gc_poll_of_long (s : GC.State) (f : Frame) (keyinput : Nat) (hlen : ¬ f.len < 9) :
    GC.poll s f keyinput
      = ⟨GC.finish (GC.dispatch (GC.prepare (GC.received s f) keyinput)).1,
         (GC.dispatch (GC.prepare (GC.received s f) keyinput)).2,
         some (GC.motorArg (GC.dispatch (GC.prepare (GC.received s f) keyinput)).1)⟩ := by
  simp [GC.poll, GC.received, hlen]

theorem gc_poll_response_legal (s : GC.State) (f : Frame) (keyinput : Nat)
    (h : (GC.poll s f keyinput).response ≠ none) : GC.legalLen (f.buf 0) = some f.len := by
  by_cases hlen : f.len < 9
  · rw [gc_poll_of_short s f keyinput hlen] at h
    exact absurd rfl h
  · rw [gc_poll_of_long s f keyinput hlen] at h
    have := gc_dispatch_response_legal _ h
    simpa [gc_prepare_frame, GC.received] using this

/-- C2: in both dispatchers a response is produced only when the received bit count is the
single legal length of the opcode of the frame (N64: ID/RESET 9, STATUS 9, READ 25, WRITE 281;
GameCube: ID/RESET 9, STATUS 25, ORIGIN 9, RECALIBRATE/STATUS_LONG 25); hence no response
for any other length, for an unknown opcode (it has no legal length), or for a frame shorter
than 9 bits such as an 8-bit Identify. -/
theorem c2_legal_length (s1 : N64.State) (s2 : GC.State) (f : Frame) (keyinput : Nat) :
    ((N64.poll s1 f keyinput).response ≠ none → N64.legalLen (f.buf 0) = some f.len)
    ∧ ((GC.poll s2 f keyinput).response ≠ none → GC.legalLen (f.buf 0) = some f.len)
    ∧ (N64.legalLen (f.buf 0) ≠ some f.len → (N64.poll s1 f keyinput).response = none)
    ∧ (GC.legalLen (f.buf 0) ≠ some f.len → (GC.poll s2 f keyinput).response = none)
    ∧ (f.len < 9 →
        (N64.poll s1 f keyinput).response = none ∧ (GC.poll s2 f keyinput).response = none)
    ∧ (N64.poll s1 (frameOf [0x00] 8) keyinput).response = none
    ∧ (GC.poll s2 (frameOf [0x00] 8) keyinput).response = none := by
  have hn := n64_poll_response_legal s1 f keyinput
  have hg := gc_poll_response_legal s2 f keyinput
  refine ⟨hn, hg, fun h => ?_, fun h => ?_, fun h => ⟨?_, ?_⟩, ?_, ?_⟩
  · by_contra hc
    exact h (hn hc)
  · by_contra hc
    exact h (hg hc)
  · simp [N64.poll, h]
  · rw [gc_poll_of_short s2 f keyinput h]
  · simp [N64.poll, frameOf]
  · rw [gc_poll_of_short s2 _ keyinput (by simp [frameOf])]

/-- C2 at concrete sessions: a 9-bit Identify is answered by both responders, so the legal
length is the received one, by the theorem. -/
theorem c2_legal_length_witness :
    N64.legalLen 0 = some 9 ∧ GC.legalLen 0 = some 9 :=
  ⟨(c2_legal_length (N64.bootState plainCart) (GC.bootState plainCart 1) (frameOf [0x00] 9)
      0x3FF).1 (by decide),
   (c2_legal_length (N64.bootState plainCart) (GC.bootState plainCart 1) (frameOf [0x00] 9)
      0x3FF).2.1 (by decide)⟩


/-! ## Store round trip and write acknowledgement -/

/-- C3: store round trip.  For every address `a` (32-aligned or not) and every block `d` of
32 bytes, `pak_copyfrom(a, out, 0xFF)` executed after `pak_copyto(a, d)` leaves `out` equal
to `d` byte for byte and returns the checksum that `pak_copyto` returned. -/
theorem c3_store_round_trip (vram : Nat → Nat) (a : Nat) (d : Nat → Nat) (off : Nat)
    (out : Nat → Nat) (outOff : Nat) (hd : ∀ i, i < 32 → d (off + i) < 256) :
    (∀ i, i < 32 →
        (pak_copyfrom (pak_copyto vram a d off).1 a out outOff 0xFF).1 (outOff + i) = d (off + i))
    ∧ (pak_copyfrom (pak_copyto vram a d off).1 a out outOff 0xFF).2
        = (pak_copyto vram a d off).2 := by
  have hcell : ∀ i, i < 32 → ((pak_copyto vram a d off).1 (a + i) &&& 0xFF) % 256 = d (off + i) := by
    intro i hi
    rw [and_255_mod, pak_copyto_vram]
    have h : a ≤ a + i ∧ a + i < a + 32 := by omega
    rw [if_pos h, Nat.add_sub_cancel_left]
    exact Nat.mod_eq_of_lt (hd i hi)
  constructor
  · intro i hi
    rw [pak_copyfrom_dst]
    have h : outOff ≤ outOff + i ∧ outOff + i < outOff + 32 := by omega
    rw [if_pos h, Nat.add_sub_cancel_left]
    exact hcell i hi
  · rw [pak_copyfrom_crc, pak_copyto_crc, bytesAt]
    congr 1
    apply List.map_congr_left
    intro i hi
    exact hcell i (List.mem_range.mp hi)

/-- C3 at a concrete block: the bytes 0, 7, 14, ... written at block `0x0020` read back
unchanged, by the theorem. -/
theorem c3_store_round_trip_witness :
    (∀ i, i < 32 →
        (pak_copyfrom (pak_copyto (fun _ => 0xABCD) 0x20 (fun i => 7 * i % 256) 0).1 0x20
            (fun _ => 0) 3 0xFF).1 (3 + i) = 7 * (0 + i) % 256)
    ∧ (pak_copyfrom (pak_copyto (fun _ => 0xABCD) 0x20 (fun i => 7 * i % 256) 0).1 0x20
            (fun _ => 0) 3 0xFF).2
        = (pak_copyto (fun _ => 0xABCD) 0x20 (fun i => 7 * i % 256) 0).2 :=
  c3_store_round_trip (fun _ => 0xABCD) 0x20 (fun i => 7 * i % 256) 0 (fun _ => 0) 3
    (fun i _ => Nat.mod_lt _ (by decide))

/-- C4: for every accepted Write the acknowledgement is the one byte `crc8` of the 32 data
bytes (seed 0, `crc = crc8_lut[crc xor byte]` per byte) and afterwards the 32 cells of the
addressed block hold exactly those bytes; in particular a write of 32 zero bytes to address
`0x0000` in a session with no rumble classified is accepted, acknowledges `0x00` and leaves
the block all zero. -/
theorem c4_write_ack :
    (∀ (s : N64.State) (f : Frame) (keyinput : Nat),
        f.buf 0 = N64.CMD_WRITE → f.len = 281 →
        crc5 (N64.address f.buf) = f.buf 2 &&& 0x1F →
        (N64.poll s f keyinput).response = some ⟨[crc8 (bytesAt f.buf 3 32)], 8⟩
        ∧ ∀ i, i < 32 → (N64.poll s f keyinput).state.vram (N64.address f.buf + i) = f.buf (3 + i))
    ∧ (∀ (s : N64.State) (keyinput : Nat), s.rumble = N64.Rumble.RUMBLE_NONE →
        crc5 (N64.address (frameOf [0x03, 0x00, 0x00] 281).buf)
            = (frameOf [0x03, 0x00, 0x00] 281).buf 2 &&& 0x1F
        ∧ N64.address (frameOf [0x03, 0x00, 0x00] 281).buf = 0
        ∧ (∀ i, i < 32 → (frameOf [0x03, 0x00, 0x00] 281).buf (3 + i) = 0)
        ∧ (N64.poll s (frameOf [0x03, 0x00, 0x00] 281) keyinput).response = some ⟨[0x00], 8⟩
        ∧ (N64.poll s (frameOf [0x03, 0x00, 0x00] 281) keyinput).motor = none
        ∧ ∀ i, i < 32 → (N64.poll s (frameOf [0x03, 0x00, 0x00] 281) keyinput).state.vram i = 0) := by
  have gen : ∀ (s : N64.State) (f : Frame) (keyinput : Nat),
      f.buf 0 = N64.CMD_WRITE → f.len = 281 →
      crc5 (N64.address f.buf) = f.buf 2 &&& 0x1F →
      (N64.poll s f keyinput).response = some ⟨[crc8 (bytesAt f.buf 3 32)], 8⟩
      ∧ ∀ i, i < 32 → (N64.poll s f keyinput).state.vram (N64.address f.buf + i) = f.buf (3 + i) := by
    intro s f keyinput hop hlen hc
    have hc2 : crc5 (N64.address (N64.received s f).buffer) = (N64.received s f).buffer 2 &&& 0x1F := hc
    rw [n64_poll_write s f keyinput hop hlen, n64_cmdWrite_response _ hc2, n64_cmdWrite_vram _ hc2,
      pak_copyto_crc]
    refine ⟨rfl, fun i hi => ?_⟩
    rw [pak_copyto_vram]
    have h : N64.address (N64.received s f).buffer ≤ N64.address f.buf + i
        ∧ N64.address f.buf + i < N64.address (N64.received s f).buffer + 32 := by
      simp only [N64.received]
      omega
    rw [if_pos h]
    simp [N64.received]
  refine ⟨gen, fun s keyinput _ => ?_⟩
  have hc : crc5 (N64.address (frameOf [0x03, 0x00, 0x00] 281).buf)
      = (frameOf [0x03, 0x00, 0x00] 281).buf 2 &&& 0x1F := by decide
  have ha : N64.address (frameOf [0x03, 0x00, 0x00] 281).buf = 0 := by decide
  have hz : ∀ i, i < 32 → (frameOf [0x03, 0x00, 0x00] 281).buf (3 + i) = 0 := by
    intro i _
    exact List.getD_eq_default _ _ (by simp)
  have hcrc : crc8 (bytesAt (frameOf [0x03, 0x00, 0x00] 281).buf 3 32) = 0 := by decide
  obtain ⟨h1, h2⟩ := gen s (frameOf [0x03, 0x00, 0x00] 281) keyinput (by decide) (by decide) hc
  refine ⟨hc, ha, hz, ?_, ?_, ?_⟩
  · rw [h1, hcrc]
  · have hc2 : crc5 (N64.address (N64.received s (frameOf [0x03, 0x00, 0x00] 281)).buffer)
        = (N64.received s (frameOf [0x03, 0x00, 0x00] 281)).buffer 2 &&& 0x1F := hc
    rw [n64_poll_write s _ keyinput (by decide) (by decide), n64_cmdWrite_motor _ hc2]
    have : ¬ (N64.address (N64.received s (frameOf [0x03, 0x00, 0x00] 281)).buffer &&& 0x8000) = 0x8000 := by
      show ¬ (N64.address (frameOf [0x03, 0x00, 0x00] 281).buf &&& 0x8000) = 0x8000
      rw [ha]
      decide
    simp [this]
  · intro i hi
    have := h2 i hi
    rw [ha, hz i hi, Nat.zero_add] at this
    exact this

/-- C4 at a concrete session: a Write of the block 1, 0, 0, ... to `0x8000` is acknowledged
with the checksum of the block and the first cell holds the first byte, by the theorem. -/
theorem c4_write_ack_witness :
    (N64.poll (N64.bootState gpioCart) (frameOf [0x03, 0x80, 0x01, 0x01] 281) 0x3FF).response
        = some ⟨[crc8 (bytesAt (frameOf [0x03, 0x80, 0x01, 0x01] 281).buf 3 32)], 8⟩
    ∧ (N64.poll (N64.bootState gpioCart) (frameOf [0x03, 0x80, 0x01, 0x01] 281) 0x3FF).state.vram
        (N64.address (frameOf [0x03, 0x80, 0x01, 0x01] 281).buf + 0) = 1 :=
  ⟨(c4_write_ack.1 (N64.bootState gpioCart) (frameOf [0x03, 0x80, 0x01, 0x01] 281) 0x3FF
      (by decide) (by decide) (by decide)).1,
   (c4_write_ack.1 (N64.bootState gpioCart) (frameOf [0x03, 0x80, 0x01, 0x01] 281) 0x3FF
      (by decide) (by decide) (by decide)).2 0 (by decide)⟩


/-! ## Read mask and motor command -/

theorem bytesAt_getD (buf : Nat → Nat) (off n i : Nat) (h : i < n) :
    (bytesAt buf off n).getD i 0 = buf (off + i) := by
  have hl : i < (bytesAt buf off n).length := by simp [bytesAt, h]
  rw [List.getD_eq_getElem _ _ hl]
  simp [bytesAt]

theorem n64_readBuffer_block (s : N64.State) (i : Nat) (h : i < 32) :
    N64.readBuffer s (3 + i)
      = (s.vram (N64.address s.buffer + i) &&& N64.readMask s) % 256 := by
  unfold N64.readBuffer
  rw [store_other _ _ _ _ (by omega), pak_copyfrom_dst]
  have h2 : 3 ≤ 3 + i ∧ 3 + i < 3 + 32 := by omega
  rw [if_pos h2, Nat.add_sub_cancel_left]

theorem and_129_mod (x : Nat) : (x &&& 0x81) % 256 = x &&& 0x81 := by
  apply Nat.mod_eq_of_lt
  have : x &&& 0x81 ≤ 0x81 := Nat.and_le_right
  omega

/-- C5 as stated fails: after an accepted Write of `0xFF` bytes to block `0x8000` with a
rumble cartridge classified, an accepted Read of that block returns `0x81` in its first byte:
bit 7 is still set, and the byte is not the low 7 bits `0x7F` of the stored `0xFF`. -/
theorem c5_read_mask_counterexample :
    N64.afterRumbleWrite.rumble ≠ N64.Rumble.RUMBLE_NONE
    ∧ N64.afterRumbleWrite.vram 0x8000 = 0xFF
    ∧ (N64.address (frameOf [0x02, 0x80, 0x01] 25).buf &&& 0x8000) = 0x8000
    ∧ ((N64.poll N64.afterRumbleWrite (frameOf [0x02, 0x80, 0x01] 25) 0x3FF).response.map
        (fun r => r.bytes.getD 0 0)) = some 0x81
    ∧ 0x81 &&& 0x80 ≠ 0
    ∧ 0xFF &&& 0x7F ≠ 0x81 := by
  decide

/-- C5 amended: on an accepted Read whose address has bit 15 set while `rumble` holds a
mechanism other than none, each of the 32 returned bytes is the stored cell ANDed with `0x81`
(bits 7 and 0 are kept, bits 1 to 6 cleared); on every other accepted Read each returned byte
is the low byte of the stored cell, unmodified; the 33rd byte is the checksum of the 32
returned bytes. -/
theorem c5_read_mask (s : N64.State) (f : Frame) (keyinput : Nat)
    (hop : f.buf 0 = N64.CMD_READ) (hlen : f.len = 25)
    (hc : crc5 (N64.address f.buf) = f.buf 2 &&& 0x1F) :
    ∃ bytes, (N64.poll s f keyinput).response = some ⟨bytes, 264⟩
      ∧ bytes.length = 33
      ∧ ((N64.address f.buf &&& 0x8000) = 0x8000 ∧ s.rumble ≠ N64.Rumble.RUMBLE_NONE →
          ∀ i, i < 32 → bytes.getD i 0 = s.vram (N64.address f.buf + i) &&& 0x81)
      ∧ (¬ ((N64.address f.buf &&& 0x8000) = 0x8000 ∧ s.rumble ≠ N64.Rumble.RUMBLE_NONE) →
          ∀ i, i < 32 → bytes.getD i 0 = s.vram (N64.address f.buf + i) % 256)
      ∧ bytes.getD 32 0 = crc8 (bytes.take 32) := by
  have hc2 : crc5 (N64.address (N64.received s f).buffer)
      = (N64.received s f).buffer 2 &&& 0x1F := hc
  rw [n64_poll_read s f keyinput hop hlen, n64_cmdRead_accept _ hc2]
  refine ⟨_, rfl, by simp [bytesAt], fun hm i hi => ?_, fun hm i hi => ?_, ?_⟩
  · rw [bytesAt_getD _ _ _ _ (by omega), n64_readBuffer_block _ _ hi]
    have hmask : N64.readMask (N64.received s f) = 0x81 := by
      unfold N64.readMask
      exact if_pos hm
    rw [hmask, and_129_mod]
    rfl
  · rw [bytesAt_getD _ _ _ _ (by omega), n64_readBuffer_block _ _ hi]
    have hmask : N64.readMask (N64.received s f) = 0xFF := by
      unfold N64.readMask
      exact if_neg hm
    rw [hmask, and_255_mod]
    rfl
  · rw [bytesAt_getD _ _ _ _ (by omega)]
    have h35 : N64.readBuffer (N64.received s f) (3 + 32)
        = (pak_copyfrom (N64.received s f).vram (N64.address (N64.received s f).buffer)
            (N64.received s f).buffer 3 (N64.readMask (N64.received s f))).2 := by
      unfold N64.readBuffer
      exact store_same _ _ _
    rw [h35, pak_copyfrom_crc]
    rfl

/-- C5 amended, at the session of the counterexample: the Read of block `0x8000` returns the
stored `0xFF` ANDed with `0x81`, by the theorem. -/
theorem c5_read_mask_witness :
    ∃ bytes, (N64.poll N64.afterRumbleWrite (frameOf [0x02, 0x80, 0x01] 25) 0x3FF).response
        = some ⟨bytes, 264⟩ ∧ bytes.getD 0 0 = 0xFF &&& 0x81 := by
  obtain ⟨bytes, h1, _, h3, _, _⟩ :=
    c5_read_mask N64.afterRumbleWrite (frameOf [0x02, 0x80, 0x01] 25) 0x3FF
      (by decide) (by decide) (by decide)
  exact ⟨bytes, h1, h3 (by decide) 0 (by decide)⟩


theorem n64_has_motor_of_rom (hw hw2 : Hardware) (h59 : hw2.rom 0x59 = hw.rom 0x59)
    (h56 : hw2.rom 0x56 = hw.rom 0x56) (hend : hw2.rom 0xFFFFFF = hw.rom 0xFFFFFF) :
    N64.has_motor hw2 = N64.has_motor hw := by
  simp [N64.has_motor, h59, h56, hend]

/-- C6: on an accepted Write a motor command is issued if and only if address bit 15 is set
and the classification of the cartridge yields a mechanism other than none; the enable value
of the command is the low bit of the first data byte and the hardware is driven by
`set_motor` with the classified kind; the data is stored in either case.  With a cartridge of
the GPIO-toggle kind, an accepted Write to `0x8000` whose first byte is `0x01` sets bit 3 of
the GPIO data register, and a following accepted Write to the top half whose first byte has
low bit 0 clears it. -/
theorem c6_write_motor :
    (∀ (s : N64.State) (f : Frame) (keyinput : Nat),
        f.buf 0 = N64.CMD_WRITE → f.len = 281 →
        crc5 (N64.address f.buf) = f.buf 2 &&& 0x1F →
        ((N64.poll s f keyinput).motor ≠ none
            ↔ ((N64.address f.buf &&& 0x8000) = 0x8000
                ∧ (N64.has_motor s.hw).1 ≠ N64.Rumble.RUMBLE_NONE))
        ∧ (∀ en, (N64.poll s f keyinput).motor = some en →
            en = (f.buf 3 &&& 0x01 != 0)
            ∧ (N64.poll s f keyinput).state.hw = N64.set_motor (N64.has_motor s.hw).1 s.hw en)
        ∧ ((N64.poll s f keyinput).motor = none → (N64.poll s f keyinput).state.hw = s.hw)
        ∧ (∀ i, i < 32 →
            (N64.poll s f keyinput).state.vram (N64.address f.buf + i) = f.buf (3 + i)))
    ∧ (∀ (s : N64.State) (f1 f2 : Frame) (k1 k2 : Nat),
        (N64.has_motor s.hw).1 = N64.Rumble.RUMBLE_GBA →
        f1.buf 0 = N64.CMD_WRITE → f1.len = 281 →
        f1.buf 1 = 0x80 → f1.buf 2 = 0x01 → f1.buf 3 = 0x01 →
        f2.buf 0 = N64.CMD_WRITE → f2.len = 281 →
        crc5 (N64.address f2.buf) = f2.buf 2 &&& 0x1F →
        (N64.address f2.buf &&& 0x8000) = 0x8000 → f2.buf 3 &&& 0x01 = 0 →
        N64.address f1.buf = 0x8000
        ∧ (N64.poll s f1 k1).motor = some true
        ∧ (N64.poll s f1 k1).state.hw.rom GPIODATA_IX &&& 8 = 8
        ∧ (N64.poll (N64.poll s f1 k1).state f2 k2).motor = some false
        ∧ (N64.poll (N64.poll s f1 k1).state f2 k2).state.hw.rom GPIODATA_IX &&& 8 = 0) := by
  constructor
  · intro s f keyinput hop hlen hc
    have hc2 : crc5 (N64.address (N64.received s f).buffer)
        = (N64.received s f).buffer 2 &&& 0x1F := hc
    rw [n64_poll_write s f keyinput hop hlen, n64_cmdWrite_motor _ hc2, n64_cmdWrite_hw _ hc2,
      n64_cmdWrite_vram _ hc2]
    have hb : (N64.received s f).buffer = f.buf := rfl
    have hh : (N64.received s f).hw = s.hw := rfl
    have hv : (N64.received s f).vram = s.vram := rfl
    rw [hb, hh, hv]
    by_cases hm : (N64.address f.buf &&& 0x8000) = 0x8000 ∧ (N64.has_motor s.hw).2 = true
    · have hm2 := hm
      rw [n64_has_motor_flag] at hm2
      rw [if_pos hm, if_pos hm]
      refine ⟨by simp [hm2], fun en h => ?_, fun h => by simp at h, fun i hi => ?_⟩
      · have : (f.buf 3 &&& 0x01 != 0) = en := by simpa using h
        subst this
        exact ⟨rfl, rfl⟩
      · rw [pak_copyto_vram, if_pos (by omega), Nat.add_sub_cancel_left]
    · have hm2 := hm
      rw [n64_has_motor_flag] at hm2
      rw [if_neg hm, if_neg hm]
      refine ⟨by simp [hm2], fun en h => by simp at h, fun _ => rfl, fun i hi => ?_⟩
      rw [pak_copyto_vram, if_pos (by omega), Nat.add_sub_cancel_left]
  · intro s f1 f2 k1 k2 hk op1 len1 b1 b2 b3 op2 len2 hc2 top2 low2
    have ha1 : N64.address f1.buf = 0x8000 := by
      unfold N64.address
      rw [b1, b2]
      decide
    have hc1 : crc5 (N64.address f1.buf) = f1.buf 2 &&& 0x1F := by
      rw [ha1, b2]
      decide
    have hc1r : crc5 (N64.address (N64.received s f1).buffer)
        = (N64.received s f1).buffer 2 &&& 0x1F := hc1
    have hflag : (N64.has_motor s.hw).2 = true := by
      rw [n64_has_motor_flag, hk]
      decide
    have hcond1 : (N64.address (N64.received s f1).buffer &&& 0x8000) = 0x8000
        ∧ (N64.has_motor (N64.received s f1).hw).2 = true := by
      refine ⟨?_, hflag⟩
      show (N64.address f1.buf &&& 0x8000) = 0x8000
      rw [ha1]
      decide
    have hm1 : (N64.poll s f1 k1).motor = some true := by
      rw [n64_poll_write s f1 k1 op1 len1, n64_cmdWrite_motor _ hc1r, if_pos hcond1]
      show some (f1.buf 3 &&& 0x01 != 0) = some true
      rw [b3]
      rfl
    have hw1 : (N64.poll s f1 k1).state.hw = N64.set_motor N64.Rumble.RUMBLE_GBA s.hw true := by
      rw [n64_poll_write s f1 k1 op1 len1, n64_cmdWrite_hw _ hc1r, if_pos hcond1]
      show N64.set_motor (N64.has_motor s.hw).1 s.hw (f1.buf 3 &&& 0x01 != 0) = _
      rw [hk, b3]
      rfl
    have hkind2 : N64.has_motor (N64.poll s f1 k1).state.hw = N64.has_motor s.hw := by
      apply n64_has_motor_of_rom <;> rw [hw1] <;> simp [N64.set_motor, store, GPIODATA_IX, GPIODIR_IX]
    have hc2r : crc5 (N64.address (N64.received (N64.poll s f1 k1).state f2).buffer)
        = (N64.received (N64.poll s f1 k1).state f2).buffer 2 &&& 0x1F := hc2
    have hcond2 : (N64.address (N64.received (N64.poll s f1 k1).state f2).buffer &&& 0x8000) = 0x8000
        ∧ (N64.has_motor (N64.received (N64.poll s f1 k1).state f2).hw).2 = true := by
      refine ⟨top2, ?_⟩
      show (N64.has_motor (N64.poll s f1 k1).state.hw).2 = true
      rw [hkind2]
      exact hflag
    have hen2 : (f2.buf 3 &&& 0x01 != 0) = false := by simp [low2]
    refine ⟨ha1, hm1, ?_, ?_, ?_⟩
    · rw [hw1]
      simp [N64.set_motor, store, bit]
    · rw [n64_poll_write _ f2 k2 op2 len2, n64_cmdWrite_motor _ hc2r, if_pos hcond2]
      show some (f2.buf 3 &&& 0x01 != 0) = some false
      rw [hen2]
    · rw [n64_poll_write _ f2 k2 op2 len2, n64_cmdWrite_hw _ hc2r, if_pos hcond2]
      show (N64.set_motor (N64.has_motor (N64.poll s f1 k1).state.hw).1 (N64.poll s f1 k1).state.hw
        (f2.buf 3 &&& 0x01 != 0)).rom GPIODATA_IX &&& 8 = 0
      rw [hkind2, hk, hen2]
      simp [N64.set_motor, store, bit]

/-- C6 at a concrete session with a GPIO-toggle cartridge: the Write of `0x01` to `0x8000`
issues the command "on" and sets bit 3 of the GPIO data register, the next Write of `0x00`
issues "off" and clears it, by the theorem. -/
theorem c6_write_motor_witness :
    (N64.poll (N64.bootState gpioCart) (frameOf [0x03, 0x80, 0x01, 0x01] 281) 0x3FF).motor
        = some true
    ∧ (N64.poll (N64.bootState gpioCart) (frameOf [0x03, 0x80, 0x01, 0x01] 281)
        0x3FF).state.hw.rom GPIODATA_IX &&& 8 = 8
    ∧ (N64.poll (N64.poll (N64.bootState gpioCart) (frameOf [0x03, 0x80, 0x01, 0x01] 281)
        0x3FF).state (frameOf [0x03, 0x80, 0x01, 0x00] 281) 0x3FF).state.hw.rom GPIODATA_IX
          &&& 8 = 0 :=
  ⟨(c6_write_motor.2 (N64.bootState gpioCart) (frameOf [0x03, 0x80, 0x01, 0x01] 281)
      (frameOf [0x03, 0x80, 0x01, 0x00] 281) 0x3FF 0x3FF (by decide) (by decide) (by decide)
      (by decide) (by decide) (by decide) (by decide) (by decide) (by decide) (by decide)
      (by decide)).2.1,
   (c6_write_motor.2 (N64.bootState gpioCart) (frameOf [0x03, 0x80, 0x01, 0x01] 281)
      (frameOf [0x03, 0x80, 0x01, 0x00] 281) 0x3FF 0x3FF (by decide) (by decide) (by decide)
      (by decide) (by decide) (by decide) (by decide) (by decide) (by decide) (by decide)
      (by decide)).2.2.1,
   (c6_write_motor.2 (N64.bootState gpioCart) (frameOf [0x03, 0x80, 0x01, 0x01] 281)
      (frameOf [0x03, 0x80, 0x01, 0x00] 281) 0x3FF 0x3FF (by decide) (by decide) (by decide)
      (by decide) (by decide) (by decide) (by decide) (by decide) (by decide) (by decide)
      (by decide)).2.2.2.2⟩


/-! ## Mapping engine -/

theorem n64_gbaButtonState_slot (g k : Nat) (prev : Bool) (h : k < 6) :
    N64.gbaButtonState g (k : Int) prev = keyDown g (slotKey k) := by
  interval_cases k <;> rfl

theorem gc_gbaButtonState_slot (g k : Nat) (prev : Bool) (h : k < 6) :
    GC.gbaButtonState g (k : Int) prev = keyDown g (slotKey k) := by
  interval_cases k <;> rfl

theorem n64_setButton_out_of_range (b : N64.Buttons) (t : Int) (v : Bool)
    (h : t < 0 ∨ 13 < t) : N64.setButton b t v = b := by
  unfold N64.setButton
  simp only [N64.ID_N64PAD_A, N64.ID_N64PAD_B, N64.ID_N64PAD_START, N64.ID_N64PAD_Z,
    N64.ID_N64PAD_L, N64.ID_N64PAD_R, N64.ID_N64PAD_UP, N64.ID_N64PAD_DOWN, N64.ID_N64PAD_LEFT,
    N64.ID_N64PAD_RIGHT, N64.ID_N64PAD_CUP, N64.ID_N64PAD_CDOWN, N64.ID_N64PAD_CLEFT,
    N64.ID_N64PAD_CRIGHT]
  iterate 14 rw [if_neg (by omega)]

theorem gc_setButton_out_of_range (b : GC.Buttons) (t : Int) (v : Bool)
    (h : t < 0 ∨ 11 < t) : GC.setButton b t v = b := by
  unfold GC.setButton
  simp only [GC.ID_GCPAD_A, GC.ID_GCPAD_B, GC.ID_GCPAD_X, GC.ID_GCPAD_Y, GC.ID_GCPAD_START,
    GC.ID_GCPAD_Z, GC.ID_GCPAD_L, GC.ID_GCPAD_R, GC.ID_GCPAD_UP, GC.ID_GCPAD_DOWN,
    GC.ID_GCPAD_LEFT, GC.ID_GCPAD_RIGHT]
  iterate 12 rw [if_neg (by omega)]

theorem n64_get_setButton_in_range (b : N64.Buttons) (v : Bool) (t t2 : Nat)
    (ht : t < 14) (h : t2 < 14) :
    (N64.setButton b (t : Int) v).get t2 = if t = t2 then v else b.get t2 := by
  interval_cases t <;> interval_cases t2 <;> rfl

theorem n64_get_setButton (b : N64.Buttons) (t : Int) (v : Bool) (t2 : Nat) (h : t2 < 14) :
    (N64.setButton b t v).get t2 = if t = (t2 : Int) then v else b.get t2 := by
  by_cases hr : t < 0 ∨ 13 < t
  · rw [n64_setButton_out_of_range b t v hr, if_neg (by omega)]
  · obtain ⟨n, rfl⟩ : ∃ n : Nat, t = (n : Int) := ⟨t.toNat, by omega⟩
    rw [n64_get_setButton_in_range b v n t2 (by omega) h]
    simp

theorem gc_get_setButton_in_range (b : GC.Buttons) (v : Bool) (t t2 : Nat)
    (ht : t < 12) (h : t2 < 12) :
    (GC.setButton b (t : Int) v).get t2 = if t = t2 then v else b.get t2 := by
  interval_cases t <;> interval_cases t2 <;> rfl

theorem gc_get_setButton (b : GC.Buttons) (t : Int) (v : Bool) (t2 : Nat) (h : t2 < 12) :
    (GC.setButton b t v).get t2 = if t = (t2 : Int) then v else b.get t2 := by
  by_cases hr : t < 0 ∨ 11 < t
  · rw [gc_setButton_out_of_range b t v hr, if_neg (by omega)]
  · obtain ⟨n, rfl⟩ : ∃ n : Nat, t = (n : Int) := ⟨t.toNat, by omega⟩
    rw [gc_get_setButton_in_range b v n t2 (by omega) h]
    simp

theorem n64_mapLoop_get_unmapped (cfg : Nat → Int) (g t : Nat) (ht : t < 14) :
    ∀ (n : Nat) (b : N64.Buttons) (p : Bool), (∀ k, k < n → cfg k ≠ (t : Int)) →
      (N64.mapLoop cfg g n (b, p)).1.get t = b.get t := by
  intro n
  induction n with
  | zero => intro b p _; rfl
  | succ n ih =>
    intro b p h
    simp only [N64.mapLoop]
    rw [ih _ _ (fun k hk => h k (by omega)), n64_get_setButton _ _ _ _ ht,
      if_neg (h n (by omega))]

theorem n64_mapLoop_get_lowest (cfg : Nat → Int) (g t : Nat) (ht : t < 14) :
    ∀ (n : Nat) (b : N64.Buttons) (p : Bool) (k : Nat), n ≤ 6 → k < n → cfg k = (t : Int) →
      (∀ j, j < k → cfg j ≠ (t : Int)) →
      (N64.mapLoop cfg g n (b, p)).1.get t = keyDown g (slotKey k) := by
  intro n
  induction n with
  | zero => intro b p k _ hk; omega
  | succ n ih =>
    intro b p k hn hk hck hlow
    simp only [N64.mapLoop]
    by_cases hkn : k = n
    · subst hkn
      rw [n64_mapLoop_get_unmapped cfg g t ht _ _ _ hlow, n64_get_setButton _ _ _ _ ht,
        if_pos hck, n64_gbaButtonState_slot _ _ _ (by omega)]
    · exact ih _ _ k (by omega) (by omega) hck hlow

theorem gc_mapLoop_get_unmapped (cfg : Nat → Int) (g t : Nat) (ht : t < 12) :
    ∀ (n : Nat) (b : GC.Buttons) (p : Bool), (∀ k, k < n → cfg k ≠ (t : Int)) →
      (GC.mapLoop cfg g n (b, p)).1.get t = b.get t := by
  intro n
  induction n with
  | zero => intro b p _; rfl
  | succ n ih =>
    intro b p h
    simp only [GC.mapLoop]
    rw [ih _ _ (fun k hk => h k (by omega)), gc_get_setButton _ _ _ _ ht,
      if_neg (h n (by omega))]

theorem gc_mapLoop_get_lowest (cfg : Nat → Int) (g t : Nat) (ht : t < 12) :
    ∀ (n : Nat) (b : GC.Buttons) (p : Bool) (k : Nat), n ≤ 6 → k < n → cfg k = (t : Int) →
      (∀ j, j < k → cfg j ≠ (t : Int)) →
      (GC.mapLoop cfg g n (b, p)).1.get t = keyDown g (slotKey k) := by
  intro n
  induction n with
  | zero => intro b p k _ hk; omega
  | succ n ih =>
    intro b p k hn hk hck hlow
    simp only [GC.mapLoop]
    by_cases hkn : k = n
    · subst hkn
      rw [gc_mapLoop_get_unmapped cfg g t ht _ _ _ hlow, gc_get_setButton _ _ _ _ ht,
        if_pos hck, gc_gbaButtonState_slot _ _ _ (by omega)]
    · exact ih _ _ k (by omega) (by omega) hck hlow

/-- With pairwise distinct entries, the N64 mapping loop started on released target buttons
sets target `t` exactly when the one slot mapped to it is pressed. -/
theorem n64_mapLoop_distinct (cfg : Nat → Int) (g : Nat) (b : N64.Buttons) (p : Bool)
    (hd : ∀ i, i < 6 → ∀ j, j < 6 → i ≠ j → cfg i ≠ cfg j)
    (hz : ∀ t, t < 14 → b.get t = false) (t : Nat) (ht : t < 14) :
    (N64.mapLoop cfg g 6 (b, p)).1.get t = true
      ↔ ∃ k, k < 6 ∧ cfg k = (t : Int) ∧ keyDown g (slotKey k) = true := by
  by_cases hex : ∃ k, k < 6 ∧ cfg k = (t : Int)
  · obtain ⟨k, hk, hck⟩ := hex
    have hlow : ∀ j, j < k → cfg j ≠ (t : Int) := by
      intro j hj hcj
      exact hd j (by omega) k hk (by omega) (hcj.trans hck.symm)
    rw [n64_mapLoop_get_lowest cfg g t ht 6 b p k (le_refl 6) hk hck hlow]
    constructor
    · intro h
      exact ⟨k, hk, hck, h⟩
    · rintro ⟨k2, hk2, hck2, hdown⟩
      have : k2 = k := by
        by_contra hne
        exact hd k2 hk2 k hk hne (hck2.trans hck.symm)
      rw [← this]
      exact hdown
  · have hno : ∀ k, k < 6 → cfg k ≠ (t : Int) := fun k hk hc => hex ⟨k, hk, hc⟩
    rw [n64_mapLoop_get_unmapped cfg g t ht 6 b p hno, hz t ht]
    constructor
    · intro h
      exact absurd h (by decide)
    · rintro ⟨k, hk, hck, _⟩
      exact absurd hck (hno k hk)

/-- With pairwise distinct entries, the GameCube custom-profile loop started on released
target buttons sets target `t` exactly when the one slot mapped to it is pressed. -/
theorem gc_mapLoop_distinct (cfg : Nat → Int) (g : Nat) (b : GC.Buttons) (p : Bool)
    (hd : ∀ i, i < 6 → ∀ j, j < 6 → i ≠ j → cfg i ≠ cfg j)
    (hz : ∀ t, t < 12 → b.get t = false) (t : Nat) (ht : t < 12) :
    (GC.mapLoop cfg g 6 (b, p)).1.get t = true
      ↔ ∃ k, k < 6 ∧ cfg k = (t : Int) ∧ keyDown g (slotKey k) = true := by
  by_cases hex : ∃ k, k < 6 ∧ cfg k = (t : Int)
  · obtain ⟨k, hk, hck⟩ := hex
    have hlow : ∀ j, j < k → cfg j ≠ (t : Int) := by
      intro j hj hcj
      exact hd j (by omega) k hk (by omega) (hcj.trans hck.symm)
    rw [gc_mapLoop_get_lowest cfg g t ht 6 b p k (le_refl 6) hk hck hlow]
    constructor
    · intro h
      exact ⟨k, hk, hck, h⟩
    · rintro ⟨k2, hk2, hck2, hdown⟩
      have : k2 = k := by
        by_contra hne
        exact hd k2 hk2 k hk hne (hck2.trans hck.symm)
      rw [← this]
      exact hdown
  · have hno : ∀ k, k < 6 → cfg k ≠ (t : Int) := fun k hk hc => hex ⟨k, hk, hc⟩
    rw [gc_mapLoop_get_unmapped cfg g t ht 6 b p hno, hz t ht]
    constructor
    · intro h
      exact absurd h (by decide)
    · rintro ⟨k, hk, hck, _⟩
      exact absurd hck (hno k hk)

theorem n64_cmdStatus_buttons (s : N64.State) (keyinput : Nat)
    (hs : gbaInputOf keyinput ≠ SOFTRESET_INPUT) :
    (N64.cmdStatus s keyinput).state.status.buttons
      = (N64.mapLoop s.aGameProfileConfig (gbaInputOf keyinput) 6
          (s.status.buttons, s.nProfileIterationGbaButtonState)).1 := by
  simp [N64.cmdStatus, hs]

theorem gc_applyProfile_custom (s : GC.State) (h : s.nGameProfile = 0) :
    (GC.applyProfile s).origin.buttons
      = (GC.mapLoop s.aCustomGameProfileConfig s.gbaInput 6
          (s.origin.buttons, s.nProfileIterationGbaButtonState)).1 := by
  simp [GC.applyProfile, h]

/-- C7: for every 6-entry mapping table whose entries are pairwise distinct (in range or
not), every input snapshot and target buttons that start released, the mapping step (the
loop of the N64 Status command; the custom-profile loop of the GameCube responder) leaves
each target button `t` set if and only if some slot `k` (A, B, Start, Select, L, R in that
order) has `table[k] = t` and physical key `k` is pressed; a target button that no slot maps
to is 0.  The Status command of variant 1 and the profile step of variant 2 run exactly this
loop. -/
theorem c7_mapping (cfg1 cfg2 : Nat → Int) (g : Nat) (b1 : N64.Buttons) (b2 : GC.Buttons)
    (p : Bool)
    (hd1 : ∀ i, i < 6 → ∀ j, j < 6 → i ≠ j → cfg1 i ≠ cfg1 j)
    (hz1 : ∀ t, t < 14 → b1.get t = false)
    (hd2 : ∀ i, i < 6 → ∀ j, j < 6 → i ≠ j → cfg2 i ≠ cfg2 j)
    (hz2 : ∀ t, t < 12 → b2.get t = false) :
    (∀ t : Nat, t < 14 →
        ((N64.mapLoop cfg1 g 6 (b1, p)).1.get t = true
          ↔ ∃ k, k < 6 ∧ cfg1 k = (t : Int) ∧ keyDown g (slotKey k) = true))
    ∧ (∀ t : Nat, t < 14 → (∀ k, k < 6 → cfg1 k ≠ (t : Int)) →
        (N64.mapLoop cfg1 g 6 (b1, p)).1.get t = false)
    ∧ (∀ t : Nat, t < 12 →
        ((GC.mapLoop cfg2 g 6 (b2, p)).1.get t = true
          ↔ ∃ k, k < 6 ∧ cfg2 k = (t : Int) ∧ keyDown g (slotKey k) = true))
    ∧ (∀ t : Nat, t < 12 → (∀ k, k < 6 → cfg2 k ≠ (t : Int)) →
        (GC.mapLoop cfg2 g 6 (b2, p)).1.get t = false)
    ∧ (∀ (s : N64.State) (keyinput : Nat), gbaInputOf keyinput ≠ SOFTRESET_INPUT →
        (N64.cmdStatus s keyinput).state.status.buttons
          = (N64.mapLoop s.aGameProfileConfig (gbaInputOf keyinput) 6
              (s.status.buttons, s.nProfileIterationGbaButtonState)).1)
    ∧ (∀ (s : GC.State), s.nGameProfile = 0 →
        (GC.applyProfile s).origin.buttons
          = (GC.mapLoop s.aCustomGameProfileConfig s.gbaInput 6
              (s.origin.buttons, s.nProfileIterationGbaButtonState)).1) := by
  refine ⟨fun t ht => n64_mapLoop_distinct cfg1 g b1 p hd1 hz1 t ht, fun t ht hno => ?_,
    fun t ht => gc_mapLoop_distinct cfg2 g b2 p hd2 hz2 t ht, fun t ht hno => ?_,
    n64_cmdStatus_buttons, gc_applyProfile_custom⟩
  · rw [n64_mapLoop_get_unmapped cfg1 g t ht 6 b1 p hno, hz1 t ht]
  · rw [gc_mapLoop_get_unmapped cfg2 g t ht 6 b2 p hno, hz2 t ht]

/-- C7 at the built-in default tables with A and R held: both tables are pairwise distinct,
so target A (number 0) is set in both variants, by the theorem. -/
theorem c7_mapping_witness :
    (N64.mapLoop N64.defaultProfileConfig (gbaInputOf 0x2FE) 6 (N64.Buttons.zero, false)).1.get 0
        = true
    ∧ (GC.mapLoop GC.aDefaultProfileConfig (gbaInputOf 0x2FE) 6 (GC.Buttons.zero, false)).1.get 0
        = true :=
  ⟨((c7_mapping N64.defaultProfileConfig GC.aDefaultProfileConfig (gbaInputOf 0x2FE)
      N64.Buttons.zero GC.Buttons.zero false (by decide) (by decide) (by decide)
      (by decide)).1 0 (by decide)).2 ⟨0, by decide, by decide, by decide⟩,
   ((c7_mapping N64.defaultProfileConfig GC.aDefaultProfileConfig (gbaInputOf 0x2FE)
      N64.Buttons.zero GC.Buttons.zero false (by decide) (by decide) (by decide)
      (by decide)).2.2.1 0 (by decide)).2 ⟨0, by decide, by decide, by decide⟩⟩


theorem n64_poll_status_response (s : N64.State) (f : Frame) (keyinput : Nat)
    (hop : f.buf 0 = N64.CMD_STATUS) (hlen : f.len = 9)
    (hs : gbaInputOf keyinput ≠ SOFTRESET_INPUT) :
    (N64.poll s f keyinput).response
      = some ⟨(N64.poll s f keyinput).state.status.bytes, 32⟩ := by
  rw [n64_poll_status s f keyinput hop hlen]
  simp [N64.cmdStatus, hs]

theorem gc_dispatch_status_response (s : GC.State)
    (hop : s.buffer 0 = GC.CMD_STATUS) (hlen : s.nSiCmdLen = 25) :
    (GC.dispatch s).2 = some ⟨(GC.dispatch s).1.status.bytes, 64⟩ := by
  simp [GC.dispatch, GC.cmdStatus, hop, hlen, GC.CMD_STATUS, GC.CMD_RESET, GC.CMD_ID]

theorem gc_poll_status_response (s : GC.State) (f : Frame) (keyinput : Nat)
    (hop : f.buf 0 = GC.CMD_STATUS) (hlen : f.len = 25) :
    ∃ bytes, (GC.poll s f keyinput).response = some ⟨bytes, 64⟩ := by
  rw [gc_poll_of_long s f keyinput (by omega)]
  refine ⟨_, gc_dispatch_status_response _ ?_ ?_⟩
  · rw [(gc_prepare_frame _ _).1]
    exact hop
  · rw [(gc_prepare_frame _ _).2]
    exact hlen

/-- C8: a mapping table entry outside the target-button range (below 0 or above 13 in
variant 1, below 0 or above 11 in variant 2) changes no button bit for its slot; the loop is
the composition of the six slot assignments from R down to A, so the other slots are applied
as usual; and for every table, valid or not, the Status computation completes and responds
(variant 1: a 9-bit Status with no soft-reset chord; variant 2: a 25-bit Status). -/
theorem c8_out_of_range :
    (∀ (b : N64.Buttons) (t : Int) (v : Bool), t < 0 ∨ 13 < t → N64.setButton b t v = b)
    ∧ (∀ (b : GC.Buttons) (t : Int) (v : Bool), t < 0 ∨ 11 < t → GC.setButton b t v = b)
    ∧ (∀ (cfg : Nat → Int) (g : Nat) (b : N64.Buttons) (p : Bool),
        (N64.mapLoop cfg g 6 (b, p)).1
          = N64.setButton (N64.setButton (N64.setButton (N64.setButton (N64.setButton
              (N64.setButton b (cfg 5) (keyDown g KEY_R)) (cfg 4) (keyDown g KEY_L))
              (cfg 3) (keyDown g KEY_SELECT)) (cfg 2) (keyDown g KEY_START))
              (cfg 1) (keyDown g KEY_B)) (cfg 0) (keyDown g KEY_A))
    ∧ (∀ (cfg : Nat → Int) (g : Nat) (b : GC.Buttons) (p : Bool),
        (GC.mapLoop cfg g 6 (b, p)).1
          = GC.setButton (GC.setButton (GC.setButton (GC.setButton (GC.setButton
              (GC.setButton b (cfg 5) (keyDown g KEY_R)) (cfg 4) (keyDown g KEY_L))
              (cfg 3) (keyDown g KEY_SELECT)) (cfg 2) (keyDown g KEY_START))
              (cfg 1) (keyDown g KEY_B)) (cfg 0) (keyDown g KEY_A))
    ∧ (∀ (s : N64.State) (f : Frame) (keyinput : Nat),
        f.buf 0 = N64.CMD_STATUS → f.len = 9 → gbaInputOf keyinput ≠ SOFTRESET_INPUT →
        (N64.poll s f keyinput).response
            = some ⟨(N64.poll s f keyinput).state.status.bytes, 32⟩
        ∧ (N64.poll s f keyinput).state.status.buttons
            = (N64.mapLoop s.aGameProfileConfig (gbaInputOf keyinput) 6
                (s.status.buttons, s.nProfileIterationGbaButtonState)).1)
    ∧ (∀ (s : GC.State) (f : Frame) (keyinput : Nat),
        f.buf 0 = GC.CMD_STATUS → f.len = 25 →
        ∃ bytes, (GC.poll s f keyinput).response = some ⟨bytes, 64⟩) := by
  refine ⟨n64_setButton_out_of_range, gc_setButton_out_of_range, fun _ _ _ _ => rfl,
    fun _ _ _ _ => rfl, fun s f keyinput hop hlen hs => ⟨?_, ?_⟩, gc_poll_status_response⟩
  · exact n64_poll_status_response s f keyinput hop hlen hs
  · rw [n64_poll_status s f keyinput hop hlen]
    exact n64_cmdStatus_buttons _ keyinput hs

/-- C8 at a concrete table: with the entries `A, 99, -1, Z, L, R` and every key held except
the d-pad, slots B and Start change nothing, the other four are applied, and the Status is
answered. -/
theorem c8_out_of_range_witness :
    N64.setButton N64.Buttons.zero 99 true = N64.Buttons.zero
    ∧ GC.setButton GC.Buttons.zero (-1) true = GC.Buttons.zero
    ∧ (N64.poll { N64.bootState plainCart with aGameProfileConfig := tableOf [0, 99, -1, 3, 4, 5] }
        (frameOf [0x01] 9) 0x0F0).response = some ⟨[0xA0, 0x30, 0, 0], 32⟩ :=
  ⟨c8_out_of_range.1 N64.Buttons.zero 99 true (by decide),
   c8_out_of_range.2.1 GC.Buttons.zero (-1) true (by decide),
   by
    rw [(c8_out_of_range.2.2.2.2.1 _ (frameOf [0x01] 9) 0x0F0 (by decide) (by decide)
      (by decide)).1]
    decide⟩


/-! ## Stick and soft reset -/

theorem n64_stickAxis_cases (g pos neg : Nat) :
    N64.stickAxis g pos neg = -80 ∨ N64.stickAxis g pos neg = 0 ∨ N64.stickAxis g pos neg = 80 := by
  unfold N64.stickAxis
  split_ifs <;> simp

/-- C9: in variant 1, for every state (hence every mapping table) and every input snapshot
for which a Status response is produced, the stick of the response depends only on the d-pad
keys: x is +80 if Right is held, else -80 if Left is held, else 0; y is +80 if Up is held,
else -80 if Down is held, else 0; these are bytes 2 and 3 of the response in two-complement
form; each axis is one of -80, 0, +80, and replacing the mapping table leaves the stick
unchanged. -/
theorem c9_stick (s : N64.State) (f : Frame) (keyinput : Nat)
    (hop : f.buf 0 = N64.CMD_STATUS) (hlen : f.len = 9)
    (hs : gbaInputOf keyinput ≠ SOFTRESET_INPUT) :
    (N64.poll s f keyinput).state.status.stick_x
        = (if keyDown (gbaInputOf keyinput) KEY_RIGHT then 80
           else if keyDown (gbaInputOf keyinput) KEY_LEFT then -80 else 0)
    ∧ (N64.poll s f keyinput).state.status.stick_y
        = (if keyDown (gbaInputOf keyinput) KEY_UP then 80
           else if keyDown (gbaInputOf keyinput) KEY_DOWN then -80 else 0)
    ∧ (∃ b0 b1, (N64.poll s f keyinput).response
        = some ⟨[b0, b1, N64.byteOfInt8 (N64.poll s f keyinput).state.status.stick_x,
                 N64.byteOfInt8 (N64.poll s f keyinput).state.status.stick_y], 32⟩)
    ∧ ((N64.poll s f keyinput).state.status.stick_x = -80
        ∨ (N64.poll s f keyinput).state.status.stick_x = 0
        ∨ (N64.poll s f keyinput).state.status.stick_x = 80)
    ∧ ((N64.poll s f keyinput).state.status.stick_y = -80
        ∨ (N64.poll s f keyinput).state.status.stick_y = 0
        ∨ (N64.poll s f keyinput).state.status.stick_y = 80)
    ∧ (∀ cfg : Nat → Int,
        (N64.poll { s with aGameProfileConfig := cfg } f keyinput).state.status.stick_x
            = (N64.poll s f keyinput).state.status.stick_x
        ∧ (N64.poll { s with aGameProfileConfig := cfg } f keyinput).state.status.stick_y
            = (N64.poll s f keyinput).state.status.stick_y) := by
  have hx : ∀ s2 : N64.State, (N64.poll s2 f keyinput).state.status.stick_x
      = N64.stickAxis (gbaInputOf keyinput) KEY_RIGHT KEY_LEFT := by
    intro s2
    rw [n64_poll_status s2 f keyinput hop hlen]
    simp [N64.cmdStatus, hs]
  have hy : ∀ s2 : N64.State, (N64.poll s2 f keyinput).state.status.stick_y
      = N64.stickAxis (gbaInputOf keyinput) KEY_UP KEY_DOWN := by
    intro s2
    rw [n64_poll_status s2 f keyinput hop hlen]
    simp [N64.cmdStatus, hs]
  refine ⟨?_, ?_, ?_, ?_, ?_, fun cfg => ⟨?_, ?_⟩⟩
  · rw [hx]
    rfl
  · rw [hy]
    rfl
  · rw [n64_poll_status_response s f keyinput hop hlen hs]
    exact ⟨_, _, rfl⟩
  · rw [hx]
    exact n64_stickAxis_cases _ _ _
  · rw [hy]
    exact n64_stickAxis_cases _ _ _
  · rw [hx, hx]
  · rw [hy, hy]

/-- C9 at a concrete snapshot: with Left and Up held the stick is (-80, +80) and the response
carries the bytes `0xB0` and `0x50`, by the theorem. -/
theorem c9_stick_witness :
    (N64.poll (N64.bootState plainCart) (frameOf [0x01] 9) 0x39F).state.status.stick_x = -80
    ∧ (N64.poll (N64.bootState plainCart) (frameOf [0x01] 9) 0x39F).state.status.stick_y = 80
    ∧ (N64.poll (N64.bootState plainCart) (frameOf [0x01] 9) 0x39F).response
        = some ⟨[0, 0, 0xB0, 0x50], 32⟩ := by
  have h := c9_stick (N64.bootState plainCart) (frameOf [0x01] 9) 0x39F (by decide) (by decide)
    (by decide)
  refine ⟨h.1.trans (by decide), h.2.1.trans (by decide), by decide⟩


/-- The only snapshot of the ten key bits in which A, B, Start and Select are held and the six
other keys are released is `0x3F0`. -/
theorem chord_snapshot (k : Nat) (hk : k < 1024)
    (hA : keyDown (gbaInputOf k) KEY_A = true) (hB : keyDown (gbaInputOf k) KEY_B = true)
    (hStart : keyDown (gbaInputOf k) KEY_START = true)
    (hSelect : keyDown (gbaInputOf k) KEY_SELECT = true)
    (hL : keyDown (gbaInputOf k) KEY_L = false) (hR : keyDown (gbaInputOf k) KEY_R = false)
    (hUp : keyDown (gbaInputOf k) KEY_UP = false)
    (hDown : keyDown (gbaInputOf k) KEY_DOWN = false)
    (hLeft : keyDown (gbaInputOf k) KEY_LEFT = false)
    (hRight : keyDown (gbaInputOf k) KEY_RIGHT = false) : k = 0x3F0 := by
  have key : ∀ k, k < 1024 →
      (keyDown (gbaInputOf k) KEY_A && keyDown (gbaInputOf k) KEY_B
        && keyDown (gbaInputOf k) KEY_START && keyDown (gbaInputOf k) KEY_SELECT
        && !keyDown (gbaInputOf k) KEY_L && !keyDown (gbaInputOf k) KEY_R
        && !keyDown (gbaInputOf k) KEY_UP && !keyDown (gbaInputOf k) KEY_DOWN
        && !keyDown (gbaInputOf k) KEY_LEFT && !keyDown (gbaInputOf k) KEY_RIGHT) = true →
      k = 0x3F0 := by
    set_option maxRecDepth 1000000 in decide
  apply key k hk
  simp [hA, hB, hStart, hSelect, hL, hR, hUp, hDown, hLeft, hRight]

theorem gbaInputOf_chord : gbaInputOf 0x3F0 = SOFTRESET_INPUT := by decide

theorem n64_pollLoop_cons (s : N64.State) (f : Frame) (k : Nat) (rest : List (Frame × Nat))
    (h : s.softReset = false) :
    N64.pollLoop s ((f, k) :: rest)
      = ((N64.pollLoop (N64.poll s f k).state rest).1,
         (N64.poll s f k).response :: (N64.pollLoop (N64.poll s f k).state rest).2) := by
  simp [N64.pollLoop, h]

theorem n64_pollLoop_stopped (s : N64.State) (rest : List (Frame × Nat))
    (h : s.softReset = true) : N64.pollLoop s rest = (s, []) := by
  cases rest with
  | nil => rfl
  | cons e rest =>
    obtain ⟨f, k⟩ := e
    simp [N64.pollLoop, h]

theorem gc_pollLoop_cons (s : GC.State) (f : Frame) (k : Nat) (rest : List (Frame × Nat))
    (h : s.softReset = false) :
    GC.pollLoop s ((f, k) :: rest)
      = ((GC.pollLoop (GC.poll s f k).state rest).1,
         (GC.poll s f k).response :: (GC.pollLoop (GC.poll s f k).state rest).2) := by
  simp [GC.pollLoop, h]

theorem gc_pollLoop_stopped (s : GC.State) (rest : List (Frame × Nat))
    (h : s.softReset = true) : GC.pollLoop s rest = (s, []) := by
  cases rest with
  | nil => rfl
  | cons e rest =>
    obtain ⟨f, k⟩ := e
    simp [GC.pollLoop, h]

theorem gc_dispatch_softReset (s : GC.State) : (GC.dispatch s).1.softReset = s.softReset := by
  simp only [GC.dispatch, GC.cmdStatus]
  split_ifs <;> rfl

theorem gc_finish_softReset (s : GC.State) : (GC.finish s).softReset = s.softReset := by
  unfold GC.finish
  simp only []
  split_ifs <;> rfl

theorem gc_prepare_softReset (s : GC.State) (keyinput : Nat) :
    (GC.prepare s keyinput).softReset = decide (gbaInputOf keyinput = SOFTRESET_INPUT) := by
  unfold GC.prepare GC.applyProfile
  simp only []
  split_ifs <;> rfl

theorem gc_poll_softReset (s : GC.State) (f : Frame) (keyinput : Nat) (hlen : ¬ f.len < 9) :
    (GC.poll s f keyinput).state.softReset = decide (gbaInputOf keyinput = SOFTRESET_INPUT) := by
  rw [gc_poll_of_long s f keyinput hlen]
  show (GC.finish _).softReset = _
  rw [gc_finish_softReset, gc_dispatch_softReset, gc_prepare_softReset]

/-- C10 as stated fails: with A, B, Start and Select held together with L (snapshot `0x1F0`),
neither responder raises the soft-reset flag: the N64 Status cycle answers and the loop goes
on to the next frame, and the GameCube cycle leaves the flag down. -/
theorem c10_soft_reset_counterexample :
    keyDown (gbaInputOf 0x1F0) KEY_A = true ∧ keyDown (gbaInputOf 0x1F0) KEY_B = true
    ∧ keyDown (gbaInputOf 0x1F0) KEY_START = true ∧ keyDown (gbaInputOf 0x1F0) KEY_SELECT = true
    ∧ (N64.poll (N64.bootState plainCart) (frameOf [0x01] 9) 0x1F0).state.softReset = false
    ∧ (N64.pollLoop (N64.bootState plainCart)
        [(frameOf [0x01] 9, 0x1F0), (frameOf [0x00] 9, 0x3FF)]).2
        = [some ⟨[0xF0, 0x20, 0, 0], 32⟩, some ⟨[0x05, 0x00, 0x01], 24⟩]
    ∧ (GC.poll (GC.bootState plainCart 1) (frameOf [0x40, 0x00, 0x00] 25) 0x1F0).state.softReset
        = false := by
  decide

/-- C10 amended: in both variants, for every input snapshot in which A, B, Start and Select
are all held and none of L, R and the four d-pad keys is held, the poll cycle that reads this
snapshot (variant 1: a 9-bit Status; variant 2: any frame of at least 9 bits) raises the
soft-reset flag, and the poll loop exits: no later frame is consumed. -/
theorem c10_soft_reset (keyinput : Nat) (hk : keyinput < 1024)
    (hA : keyDown (gbaInputOf keyinput) KEY_A = true)
    (hB : keyDown (gbaInputOf keyinput) KEY_B = true)
    (hStart : keyDown (gbaInputOf keyinput) KEY_START = true)
    (hSelect : keyDown (gbaInputOf keyinput) KEY_SELECT = true)
    (hL : keyDown (gbaInputOf keyinput) KEY_L = false)
    (hR : keyDown (gbaInputOf keyinput) KEY_R = false)
    (hUp : keyDown (gbaInputOf keyinput) KEY_UP = false)
    (hDown : keyDown (gbaInputOf keyinput) KEY_DOWN = false)
    (hLeft : keyDown (gbaInputOf keyinput) KEY_LEFT = false)
    (hRight : keyDown (gbaInputOf keyinput) KEY_RIGHT = false) :
    (∀ (s : N64.State) (f : Frame), f.buf 0 = N64.CMD_STATUS → f.len = 9 →
        (N64.poll s f keyinput).state.softReset = true
        ∧ (N64.poll s f keyinput).response = none
        ∧ ∀ rest, s.softReset = false →
            N64.pollLoop s ((f, keyinput) :: rest) = ((N64.poll s f keyinput).state, [none]))
    ∧ (∀ (s : GC.State) (f : Frame), ¬ f.len < 9 →
        (GC.poll s f keyinput).state.softReset = true
        ∧ ∀ rest, s.softReset = false →
            GC.pollLoop s ((f, keyinput) :: rest)
              = ((GC.poll s f keyinput).state, [(GC.poll s f keyinput).response])) := by
  have hkey : keyinput = 0x3F0 :=
    chord_snapshot keyinput hk hA hB hStart hSelect hL hR hUp hDown hLeft hRight
  subst hkey
  constructor
  · intro s f hop hlen
    have h1 : (N64.poll s f 0x3F0).state.softReset = true := by
      rw [n64_poll_status s f _ hop hlen]
      simp [N64.cmdStatus, gbaInputOf_chord]
    have h2 : (N64.poll s f 0x3F0).response = none := by
      rw [n64_poll_status s f _ hop hlen]
      simp [N64.cmdStatus, gbaInputOf_chord]
    refine ⟨h1, h2, fun rest hs => ?_⟩
    rw [n64_pollLoop_cons s f _ rest hs, n64_pollLoop_stopped _ rest h1, h2]
  · intro s f hlen
    have h1 : (GC.poll s f 0x3F0).state.softReset = true := by
      rw [gc_poll_softReset s f _ hlen, gbaInputOf_chord]
      simp
    refine ⟨h1, fun rest hs => ?_⟩
    rw [gc_pollLoop_cons s f _ rest hs, gc_pollLoop_stopped _ rest h1]

/-- C10 amended, at the snapshot `0x3F0` (exactly A, B, Start and Select held): the N64
Status cycle and a GameCube Identify cycle raise the flag, by the theorem. -/
theorem c10_soft_reset_witness :
    (N64.poll (N64.bootState plainCart) (frameOf [0x01] 9) 0x3F0).state.softReset = true
    ∧ (GC.poll (GC.bootState plainCart 1) (frameOf [0x00] 9) 0x3F0).state.softReset = true :=
  ⟨((c10_soft_reset 0x3F0 (by decide) (by decide) (by decide) (by decide) (by decide)
      (by decide) (by decide) (by decide) (by decide) (by decide) (by decide)).1
      (N64.bootState plainCart) (frameOf [0x01] 9) (by decide) (by decide)).1,
   ((c10_soft_reset 0x3F0 (by decide) (by decide) (by decide) (by decide) (by decide)
      (by decide) (by decide) (by decide) (by decide) (by decide) (by decide)).2
      (GC.bootState plainCart 1) (frameOf [0x00] 9) (by decide)).1⟩


/-! ## Lemmas on the GameCube poll cycle -/

theorem gc_setButton_flags (b : GC.Buttons) (t : Int) (v : Bool) :
    (GC.setButton b t v).unknown = b.unknown
      ∧ (GC.setButton b t v).get_origin = b.get_origin
      ∧ (GC.setButton b t v).use_origin = b.use_origin := by
  by_cases hr : t < 0 ∨ 11 < t
  · rw [gc_setButton_out_of_range b t v hr]
    exact ⟨rfl, rfl, rfl⟩
  · obtain ⟨n, rfl⟩ : ∃ n : Nat, t = (n : Int) := ⟨t.toNat, by omega⟩
    have hn : n < 12 := by omega
    interval_cases n <;> exact ⟨rfl, rfl, rfl⟩

theorem gc_mapLoop_flags (cfg : Nat → Int) (g : Nat) :
    ∀ (n : Nat) (b : GC.Buttons) (p : Bool),
      (GC.mapLoop cfg g n (b, p)).1.unknown = b.unknown
        ∧ (GC.mapLoop cfg g n (b, p)).1.get_origin = b.get_origin
        ∧ (GC.mapLoop cfg g n (b, p)).1.use_origin = b.use_origin := by
  intro n
  induction n with
  | zero => intro b p; exact ⟨rfl, rfl, rfl⟩
  | succ n ih =>
    intro b p
    simp only [GC.mapLoop]
    obtain ⟨h1, h2, h3⟩ := ih (GC.setButton b (cfg n) (GC.gbaButtonState g (n : Int) p))
      (GC.gbaButtonState g (n : Int) p)
    obtain ⟨k1, k2, k3⟩ := gc_setButton_flags b (cfg n) (GC.gbaButtonState g (n : Int) p)
    exact ⟨h1.trans k1, h2.trans k2, h3.trans k3⟩

theorem gc_presetButtons_flags (p : Int) (g : Nat) (b : GC.Buttons) :
    (GC.presetButtons p g b).unknown = b.unknown
      ∧ (GC.presetButtons p g b).get_origin = b.get_origin
      ∧ (GC.presetButtons p g b).use_origin = b.use_origin := by
  unfold GC.presetButtons
  split_ifs <;> exact ⟨rfl, rfl, rfl⟩

theorem gc_applyProfile_flags (s : GC.State) :
    (GC.applyProfile s).origin.buttons.unknown = s.origin.buttons.unknown
      ∧ (GC.applyProfile s).origin.buttons.get_origin = s.origin.buttons.get_origin
      ∧ (GC.applyProfile s).origin.buttons.use_origin = s.origin.buttons.use_origin := by
  unfold GC.applyProfile
  split_ifs
  · exact gc_mapLoop_flags _ _ 6 _ _
  · exact gc_presetButtons_flags _ _ _

theorem gc_applyProfile_rest (s : GC.State) :
    (GC.applyProfile s).origin = { s.origin with buttons := (GC.applyProfile s).origin.buttons }
      ∧ (GC.applyProfile s).id = s.id ∧ (GC.applyProfile s).status = s.status
      ∧ (GC.applyProfile s).hw = s.hw ∧ (GC.applyProfile s).rumble = s.rumble
      ∧ (GC.applyProfile s).hasMotor = s.hasMotor
      ∧ (GC.applyProfile s).softReset = s.softReset
      ∧ (GC.applyProfile s).gbaInput = s.gbaInput := by
  unfold GC.applyProfile
  split_ifs <;> exact ⟨rfl, rfl, rfl, rfl, rfl, rfl, rfl, rfl⟩

/-- What `GC.prepare` leaves: only the buttons of `origin`, `id.status.unknown`, the
snapshot, the flag and the loop scratch variables change. -/
theorem gc_prepare_rest (s : GC.State) (keyinput : Nat) :
    (GC.prepare s keyinput).origin
        = { s.origin with buttons := (GC.prepare s keyinput).origin.buttons }
      ∧ (GC.prepare s keyinput).id
        = { s.id with unknown := (GC.prepare s keyinput).origin.buttons.unknown }
      ∧ (GC.prepare s keyinput).status = s.status
      ∧ (GC.prepare s keyinput).hw = s.hw ∧ (GC.prepare s keyinput).rumble = s.rumble
      ∧ (GC.prepare s keyinput).hasMotor = s.hasMotor
      ∧ (GC.prepare s keyinput).gbaInput = gbaInputOf keyinput := by
  simp only [GC.prepare]
  refine ⟨?_, ?_, ?_, ?_, ?_, ?_, ?_⟩
  · exact (gc_applyProfile_rest _).1
  · rw [(gc_applyProfile_rest _).2.1]
  · exact (gc_applyProfile_rest _).2.2.1
  · exact (gc_applyProfile_rest _).2.2.2.1
  · exact (gc_applyProfile_rest _).2.2.2.2.1
  · exact (gc_applyProfile_rest _).2.2.2.2.2.1
  · exact (gc_applyProfile_rest _).2.2.2.2.2.2.2

theorem gc_prepare_flags (s : GC.State) (keyinput : Nat) :
    (GC.prepare s keyinput).origin.buttons.unknown = s.origin.buttons.unknown
      ∧ (GC.prepare s keyinput).origin.buttons.get_origin = s.origin.buttons.get_origin
      ∧ (GC.prepare s keyinput).origin.buttons.use_origin = s.origin.buttons.use_origin := by
  simp only [GC.prepare]
  exact gc_applyProfile_flags _

/-- What `GC.dispatch` leaves: it writes only `id` and `status`. -/
theorem gc_dispatch_rest (s : GC.State) :
    (GC.dispatch s).1.origin = s.origin ∧ (GC.dispatch s).1.hw = s.hw
      ∧ (GC.dispatch s).1.rumble = s.rumble ∧ (GC.dispatch s).1.hasMotor = s.hasMotor
      ∧ (GC.dispatch s).1.gbaInput = s.gbaInput
      ∧ (GC.dispatch s).1.bPrintKeys = s.bPrintKeys
      ∧ (GC.dispatch s).1.id.unknown = s.id.unknown
      ∧ (GC.dispatch s).1.id.get_origin = s.id.get_origin := by
  simp only [GC.dispatch, GC.cmdStatus]
  split_ifs <;> exact ⟨rfl, rfl, rfl, rfl, rfl, rfl, rfl, rfl⟩

theorem gc_finish_rest (s : GC.State) :
    (GC.finish s).origin = (if s.softReset then GC.clearOrigin s.origin else s.origin)
      ∧ (GC.finish s).hw = GC.set_motor s.rumble s.hw (GC.motorArg s)
      ∧ (GC.finish s).rumble = s.rumble ∧ (GC.finish s).hasMotor = s.hasMotor
      ∧ (GC.finish s).id = s.id ∧ (GC.finish s).status = s.status := by
  simp only [GC.finish]
  split_ifs <;> exact ⟨rfl, rfl, rfl, rfl, rfl, rfl⟩

theorem gc_poll_state (s : GC.State) (f : Frame) (keyinput : Nat) (hlen : ¬ f.len < 9) :
    (GC.poll s f keyinput).state = GC.finish (GC.dispatch (GC.atDispatch s f keyinput)).1
      ∧ (GC.poll s f keyinput).response = (GC.dispatch (GC.atDispatch s f keyinput)).2 := by
  rw [gc_poll_of_long s f keyinput hlen]
  exact ⟨rfl, rfl⟩

theorem gc_atDispatch_frame (s : GC.State) (f : Frame) (keyinput : Nat) :
    (GC.atDispatch s f keyinput).buffer = f.buf
      ∧ (GC.atDispatch s f keyinput).nSiCmdLen = f.len := by
  unfold GC.atDispatch
  rw [(gc_prepare_frame _ _).1, (gc_prepare_frame _ _).2]
  exact ⟨rfl, rfl⟩


theorem gc_dispatch_id_mode (s : GC.State) :
    (GC.dispatch s).1.id.mode
      = if (s.buffer 0 = GC.CMD_STATUS ∨ s.buffer 0 = GC.CMD_RECALIBRATE
            ∨ s.buffer 0 = GC.CMD_STATUS_LONG) ∧ s.nSiCmdLen = 25
        then s.buffer 1 % 8 else s.id.mode := by
  simp only [GC.dispatch, GC.cmdStatus, GC.CMD_RESET, GC.CMD_ID, GC.CMD_STATUS, GC.CMD_ORIGIN,
    GC.CMD_RECALIBRATE, GC.CMD_STATUS_LONG]
  split_ifs <;> first | rfl | (exfalso; omega)

theorem gc_dispatch_id_motor (s : GC.State) :
    (GC.dispatch s).1.id.motor
      = if (s.buffer 0 = GC.CMD_STATUS ∨ s.buffer 0 = GC.CMD_RECALIBRATE
            ∨ s.buffer 0 = GC.CMD_STATUS_LONG) ∧ s.nSiCmdLen = 25
        then s.buffer 2 % 4
        else if s.buffer 0 = GC.CMD_RESET then GC.MOTOR_STOP else s.id.motor := by
  simp only [GC.dispatch, GC.cmdStatus, GC.CMD_RESET, GC.CMD_ID, GC.CMD_STATUS, GC.CMD_ORIGIN,
    GC.CMD_RECALIBRATE, GC.CMD_STATUS_LONG]
  split_ifs <;> first | rfl | (exfalso; omega)

/-- Invariants of the reachable states of the GameCube responder: the spare bits `unknown`
and `get_origin` are never set and the bit-fields `motor` and `mode` hold values of their
width. -/
theorem gc_reachable_inv (s : GC.State) (h : GC.Reachable s) :
    s.origin.buttons.unknown = false ∧ s.id.unknown = false ∧ s.id.get_origin = false
      ∧ s.id.motor < 4 ∧ s.id.mode < 8 := by
  induction h with
  | boot hw p cfg pk =>
    refine ⟨rfl, rfl, rfl, ?_, ?_⟩
    · show (0 : Nat) < 4
      decide
    · show (0 : Nat) < 8
      decide
  | restart s hw p cfg pk _ _ ih => exact ih
  | poll s f keyinput _ _ ih =>
    obtain ⟨h1, h2, h3, h4, h5⟩ := ih
    by_cases hlen : f.len < 9
    · rw [gc_poll_of_short s f keyinput hlen]
      exact ⟨h1, h2, h3, h4, h5⟩
    · rw [(gc_poll_state s f keyinput hlen).1]
      have hp := gc_prepare_rest (GC.received s f) keyinput
      have hpf := gc_prepare_flags (GC.received s f) keyinput
      have hd := gc_dispatch_rest (GC.atDispatch s f keyinput)
      have hf := gc_finish_rest (GC.dispatch (GC.atDispatch s f keyinput)).1
      have hu : (GC.atDispatch s f keyinput).origin.buttons.unknown = false := by
        unfold GC.atDispatch
        rw [hpf.1]
        exact h1
      have hid : (GC.atDispatch s f keyinput).id
          = { s.id with unknown := (GC.atDispatch s f keyinput).origin.buttons.unknown } :=
        hp.2.1
      refine ⟨?_, ?_, ?_, ?_, ?_⟩
      · rw [hf.1, hd.1]
        split_ifs
        · exact hu
        · exact hu
      · rw [hf.2.2.2.2.1, hd.2.2.2.2.2.2.1, hid]
        exact hu
      · rw [hf.2.2.2.2.1, hd.2.2.2.2.2.2.2, hid]
        exact h3
      · rw [hf.2.2.2.2.1, gc_dispatch_id_motor, hid]
        split_ifs
        · exact Nat.mod_lt _ (by decide)
        · decide
        · exact h4
      · rw [hf.2.2.2.2.1, gc_dispatch_id_mode, hid]
        split_ifs
        · exact Nat.mod_lt _ (by decide)
        · exact h5


/-! ## Soft reset and the persisted records -/

/-- C11 as stated fails.  Variant 1: after a Status cycle with R held and then the cycle that
detects the chord, the flag is up and the R bit of `status` is still set.  Variant 2: the
cycle that detects the chord on a Status frame leaves the A bit of `status` set (only
`origin` is released). -/
theorem c11_all_released_counterexample :
    (N64.pollLoop (N64.bootState plainCart)
        [(frameOf [0x01] 9, 0x2FF), (frameOf [0x01] 9, 0x3F0)]).1.softReset = true
    ∧ (N64.pollLoop (N64.bootState plainCart)
        [(frameOf [0x01] 9, 0x2FF), (frameOf [0x01] 9, 0x3F0)]).1.status.buttons.r = true
    ∧ (GC.poll (GC.bootState plainCart 1) (frameOf [0x40, 0x00, 0x00] 25)
        0x3F0).state.softReset = true
    ∧ (GC.poll (GC.bootState plainCart 1) (frameOf [0x40, 0x00, 0x00] 25)
        0x3F0).state.status.buttons.a = true
    ∧ (GC.poll (GC.bootState plainCart 1) (frameOf [0x40, 0x00, 0x00] 25)
        0x3F0).state.origin.buttons = GC.Buttons.zero := by
  decide

theorem gc_cmdStatus_buttons (s : GC.State) :
    (GC.cmdStatus s).1.status.buttons = s.origin.buttons := by
  simp only [GC.cmdStatus, GC.packMode]
  split_ifs <;> rfl

/-- C11 amended: in variant 2, after the poll cycle in which the soft-reset chord is
detected, every button bit of the persisted origin record is 0 (the spare bit `unknown`
keeps its value, which is 0 in every reachable state), whatever was pressed before, and the
analog fields of origin are untouched.  The status record is no persisted state: the cycle
leaves it as its command wrote it, and a Status command rewrites all its buttons from the
origin record. -/
theorem c11_all_released (s : GC.State) (f : Frame) (keyinput : Nat) (hlen : ¬ f.len < 9)
    (hchord : gbaInputOf keyinput = SOFTRESET_INPUT) :
    (GC.poll s f keyinput).state.softReset = true
    ∧ (GC.poll s f keyinput).state.origin
        = { s.origin with buttons := { GC.Buttons.zero with unknown := s.origin.buttons.unknown } }
    ∧ (GC.Reachable s → (GC.poll s f keyinput).state.origin.buttons = GC.Buttons.zero)
    ∧ (GC.poll s f keyinput).state.status = (GC.dispatch (GC.atDispatch s f keyinput)).1.status
    ∧ (∀ s2 : GC.State, (GC.cmdStatus s2).1.status.buttons = s2.origin.buttons) := by
  have hsr : (GC.poll s f keyinput).state.softReset = true := by
    rw [gc_poll_softReset s f keyinput hlen, hchord]
    exact decide_eq_true rfl
  have hd := gc_dispatch_rest (GC.atDispatch s f keyinput)
  have hf := gc_finish_rest (GC.dispatch (GC.atDispatch s f keyinput)).1
  have hp := gc_prepare_rest (GC.received s f) keyinput
  have hpf := gc_prepare_flags (GC.received s f) keyinput
  have hsr2 : (GC.dispatch (GC.atDispatch s f keyinput)).1.softReset = true := by
    rw [gc_dispatch_softReset]
    unfold GC.atDispatch
    rw [gc_prepare_softReset, hchord]
    exact decide_eq_true rfl
  have horigin : (GC.poll s f keyinput).state.origin
      = { s.origin with
          buttons := { GC.Buttons.zero with unknown := s.origin.buttons.unknown } } := by
    rw [(gc_poll_state s f keyinput hlen).1, hf.1, hsr2, if_pos rfl, hd.1]
    unfold GC.atDispatch
    rw [hp.1]
    simp only [GC.clearOrigin]
    rw [hpf.1]
    rfl
  refine ⟨hsr, horigin, fun hr => ?_, ?_, gc_cmdStatus_buttons⟩
  · rw [horigin, (gc_reachable_inv s hr).1]
    rfl
  · rw [(gc_poll_state s f keyinput hlen).1, hf.2.2.2.2.2]

/-- C11 amended, at a concrete session: after a Status cycle with every key of the pad held
except the d-pad, the cycle that detects the chord releases every button of origin. -/
theorem c11_all_released_witness :
    (GC.poll (GC.poll (GC.bootState plainCart 1) (frameOf [0x40, 0x00, 0x00] 25) 0x0F0).state
        (frameOf [0x40, 0x00, 0x00] 25) 0x3F0).state.origin
      = { GC.Origin.init with buttons := GC.Buttons.zero } :=
  (c11_all_released
    (GC.poll (GC.bootState plainCart 1) (frameOf [0x40, 0x00, 0x00] 25) 0x0F0).state
    (frameOf [0x40, 0x00, 0x00] 25) 0x3F0 (by decide) (by decide)).2.1.trans (by decide)


/-! ## Status packer -/

theorem nibbles_or : ∀ a, a < 16 → ∀ b, b < 16 → (a <<< 4) ||| b = a * 16 + b := by
  decide

theorem pack_nibbles (old x y : Nat) (hx : x < 256) (hy : y < 256) :
    GC.setLo (GC.setHi old (x >>> 4)) (y >>> 4) = ((x >>> 4) <<< 4) ||| (y >>> 4) := by
  have h1 : x >>> 4 = x / 16 := Nat.shiftRight_eq_div_pow x 4
  have h2 : y >>> 4 = y / 16 := Nat.shiftRight_eq_div_pow y 4
  rw [nibbles_or (x >>> 4) (by omega) (y >>> 4) (by omega), h1, h2]
  unfold GC.setLo GC.setHi
  omega

theorem analogOf_lt (p : Bool) (v : Nat) (h : v < 256) : GC.analogOf p v < 256 := by
  unfold GC.analogOf
  split_ifs
  · decide
  · exact h

theorem gc_cmdStatus_response (s : GC.State)
    (hsx : s.origin.substick_x < 256) (hsy : s.origin.substick_y < 256)
    (hl : s.origin.trigger_l < 256) (hr : s.origin.trigger_r < 256)
    (ha : s.origin.button_a < 256) (hb : s.origin.button_b < 256) :
    (GC.cmdStatus s).2
      = some ⟨(s.origin.buttons.bytes
            ++ [GC.stickAxis s.gbaInput KEY_RIGHT KEY_LEFT s.origin.stick_x,
                GC.stickAxis s.gbaInput KEY_UP KEY_DOWN s.origin.stick_y])
          ++ GC.packedTail (s.buffer 1 % 8) s.origin.substick_x s.origin.substick_y
              (GC.analogOf s.origin.buttons.l s.origin.trigger_l)
              (GC.analogOf s.origin.buttons.r s.origin.trigger_r)
              (GC.analogOf s.origin.buttons.a s.origin.button_a)
              (GC.analogOf s.origin.buttons.b s.origin.button_b), 64⟩ := by
  have nl := analogOf_lt s.origin.buttons.l _ hl
  have nr := analogOf_lt s.origin.buttons.r _ hr
  have na := analogOf_lt s.origin.buttons.a _ ha
  have nb := analogOf_lt s.origin.buttons.b _ hb
  simp only [GC.cmdStatus, GC.packMode, GC.packedTail, GC.Status.bytes]
  split_ifs <;>
    simp only [pack_nibbles _ _ _ hsx hsy, pack_nibbles _ _ _ nl nr, pack_nibbles _ _ _ na nb,
      List.append_assoc, List.cons_append, List.nil_append]

theorem gc_dispatch_status (s : GC.State) (hop : s.buffer 0 = GC.CMD_STATUS)
    (hlen : s.nSiCmdLen = 25) : GC.dispatch s = GC.cmdStatus s := by
  simp [GC.dispatch, hop, hlen, GC.CMD_STATUS, GC.CMD_RESET, GC.CMD_ID]

theorem gc_poll_status (s : GC.State) (f : Frame) (keyinput : Nat)
    (hop : f.buf 0 = GC.CMD_STATUS) (hlen : f.len = 25) :
    (GC.poll s f keyinput).response = (GC.cmdStatus (GC.atDispatch s f keyinput)).2
      ∧ (GC.poll s f keyinput).state = GC.finish (GC.cmdStatus (GC.atDispatch s f keyinput)).1 := by
  have hd : GC.dispatch (GC.atDispatch s f keyinput) = GC.cmdStatus (GC.atDispatch s f keyinput) := by
    apply gc_dispatch_status
    · rw [(gc_atDispatch_frame s f keyinput).1]
      exact hop
    · rw [(gc_atDispatch_frame s f keyinput).2]
      exact hlen
  rw [(gc_poll_state s f keyinput (by omega)).1, (gc_poll_state s f keyinput (by omega)).2, hd]
  exact ⟨rfl, rfl⟩

theorem gc_atDispatch_origin (s : GC.State) (f : Frame) (keyinput : Nat) :
    (GC.atDispatch s f keyinput).origin
      = { s.origin with buttons := (GC.atDispatch s f keyinput).origin.buttons } :=
  (gc_prepare_rest (GC.received s f) keyinput).1

theorem gc_atDispatch_analog (s : GC.State) (f : Frame) (keyinput : Nat) :
    (GC.atDispatch s f keyinput).origin.stick_x = s.origin.stick_x
      ∧ (GC.atDispatch s f keyinput).origin.stick_y = s.origin.stick_y
      ∧ (GC.atDispatch s f keyinput).origin.substick_x = s.origin.substick_x
      ∧ (GC.atDispatch s f keyinput).origin.substick_y = s.origin.substick_y
      ∧ (GC.atDispatch s f keyinput).origin.trigger_l = s.origin.trigger_l
      ∧ (GC.atDispatch s f keyinput).origin.trigger_r = s.origin.trigger_r
      ∧ (GC.atDispatch s f keyinput).origin.button_a = s.origin.button_a
      ∧ (GC.atDispatch s f keyinput).origin.button_b = s.origin.button_b := by
  rw [gc_atDispatch_origin]
  exact ⟨rfl, rfl, rfl, rfl, rfl, rfl, rfl, rfl⟩

theorem gc_atDispatch_gbaInput (s : GC.State) (f : Frame) (keyinput : Nat) :
    (GC.atDispatch s f keyinput).gbaInput = gbaInputOf keyinput :=
  (gc_prepare_rest (GC.received s f) keyinput).2.2.2.2.2.2

/-- The whole response of a GameCube Status command of legal length. -/
theorem gc_poll_status_bytes (s : GC.State) (f : Frame) (keyinput : Nat)
    (hop : f.buf 0 = GC.CMD_STATUS) (hlen : f.len = 25)
    (hsx : s.origin.substick_x < 256) (hsy : s.origin.substick_y < 256)
    (hl : s.origin.trigger_l < 256) (hr : s.origin.trigger_r < 256)
    (ha : s.origin.button_a < 256) (hb : s.origin.button_b < 256) :
    (GC.poll s f keyinput).response
      = some ⟨((GC.atDispatch s f keyinput).origin.buttons.bytes
            ++ [GC.stickAxis (gbaInputOf keyinput) KEY_RIGHT KEY_LEFT s.origin.stick_x,
                GC.stickAxis (gbaInputOf keyinput) KEY_UP KEY_DOWN s.origin.stick_y])
          ++ GC.packedTail (f.buf 1 % 8) s.origin.substick_x s.origin.substick_y
              (GC.analogOf (GC.atDispatch s f keyinput).origin.buttons.l s.origin.trigger_l)
              (GC.analogOf (GC.atDispatch s f keyinput).origin.buttons.r s.origin.trigger_r)
              (GC.analogOf (GC.atDispatch s f keyinput).origin.buttons.a s.origin.button_a)
              (GC.analogOf (GC.atDispatch s f keyinput).origin.buttons.b s.origin.button_b),
          64⟩ := by
  obtain ⟨a1, a2, a3, a4, a5, a6, a7, a8⟩ := gc_atDispatch_analog s f keyinput
  rw [(gc_poll_status s f keyinput hop hlen).1,
    gc_cmdStatus_response _ (by rw [a3]; exact hsx) (by rw [a4]; exact hsy)
      (by rw [a5]; exact hl) (by rw [a6]; exact hr) (by rw [a7]; exact ha)
      (by rw [a8]; exact hb),
    a1, a2, a3, a4, a5, a6, a7, a8, gc_atDispatch_gbaInput, (gc_atDispatch_frame s f keyinput).1]

theorem gc_buttons_bytes_length (b : GC.Buttons) : b.bytes.length = 2 := rfl

/-- C12: variant-2 Status packing.  With mode the low 3 bits of request byte 1 and `v(f)` =
200 if the digital button of field `f` (L, R, A, B, as the profile set them in this cycle) is
pressed, else the origin value of `f`, the response of a 25-bit Status is four leading bytes
(buttons and stick) followed by the four bytes the spec lists for the mode: mode 0 and modes
5-7 substick x, substick y, L/R nibbles, A/B nibbles; mode 1 substick nibbles, `v(L)`, `v(R)`,
A/B nibbles; mode 2 substick nibbles, L/R nibbles, `v(A)`, `v(B)`; mode 3 substick, `v(L)`,
`v(R)`; mode 4 substick, `v(A)`, `v(B)`; a nibble pair is `(hi >> 4) << 4 | lo >> 4`. -/
theorem c12_status_packing (s : GC.State) (f : Frame) (keyinput : Nat)
    (hop : f.buf 0 = GC.CMD_STATUS) (hlen : f.len = 25)
    (hsx : s.origin.substick_x < 256) (hsy : s.origin.substick_y < 256)
    (hl : s.origin.trigger_l < 256) (hr : s.origin.trigger_r < 256)
    (ha : s.origin.button_a < 256) (hb : s.origin.button_b < 256) :
    ∃ head : List Nat, head.length = 4
      ∧ (GC.poll s f keyinput).response
        = some ⟨head ++ GC.packedTail (f.buf 1 % 8) s.origin.substick_x s.origin.substick_y
            (if (GC.atDispatch s f keyinput).origin.buttons.l then 200 else s.origin.trigger_l)
            (if (GC.atDispatch s f keyinput).origin.buttons.r then 200 else s.origin.trigger_r)
            (if (GC.atDispatch s f keyinput).origin.buttons.a then 200 else s.origin.button_a)
            (if (GC.atDispatch s f keyinput).origin.buttons.b then 200 else s.origin.button_b),
          64⟩
      ∧ (GC.poll s f keyinput).state.status.buttons
          = (GC.atDispatch s f keyinput).origin.buttons := by
  refine ⟨_, ?_, gc_poll_status_bytes s f keyinput hop hlen hsx hsy hl hr ha hb, ?_⟩
  · simp [gc_buttons_bytes_length]
  · rw [(gc_poll_status s f keyinput hop hlen).2, (gc_finish_rest _).2.2.2.2.2,
      gc_cmdStatus_buttons]

/-- C12 at a concrete session: an origin trigger-L of `0xFF` with L released packs to the
nibble `0x0F` in mode 0: byte 6 of the response is `0xF0`. -/
theorem c12_status_packing_witness :
    ∃ head : List Nat, head.length = 4
      ∧ (GC.poll GC.fullTriggerState (frameOf [0x40, 0x00, 0x00] 25) 0x3FF).response
        = some ⟨head ++ [128, 128, 0xF0, 0x00], 64⟩ := by
  obtain ⟨head, h1, h2, _⟩ := c12_status_packing GC.fullTriggerState
    (frameOf [0x40, 0x00, 0x00] 25) 0x3FF (by decide) (by decide) (by decide) (by decide)
    (by decide) (by decide) (by decide) (by decide)
  refine ⟨head, h1, h2.trans ?_⟩
  congr 3


/-- C13 as stated fails for the substick: in a mode-0 Status with Right held the stick x is
origin plus 100 (228) while the substick x stays at its origin value 128. -/
theorem c13_stick_offset_counterexample :
    keyDown (gbaInputOf 0x3EF) KEY_RIGHT = true
    ∧ (GC.bootState plainCart 1).origin.stick_x = 128
    ∧ (GC.bootState plainCart 1).origin.substick_x = 128
    ∧ ((GC.poll (GC.bootState plainCart 1) (frameOf [0x40, 0x00, 0x00] 25) 0x3EF).response.map
        (fun r => (r.bytes.getD 2 0, r.bytes.getD 4 0))) = some (228, 128)
    ∧ (128 + 100) % 256 ≠ 128 := by
  decide

theorem gc_packedTail_substick (mode sx sy vL vR vA vB : Nat) :
    ∃ t0 t1 t2 t3, GC.packedTail mode sx sy vL vR vA vB = [t0, t1, t2, t3]
      ∧ (mode ≠ 1 → mode ≠ 2 → t0 = sx ∧ t1 = sy)
      ∧ (mode = 1 ∨ mode = 2 → t0 = ((sx >>> 4) <<< 4) ||| (sy >>> 4)) := by
  unfold GC.packedTail
  split_ifs with h1 h2 h3 h4
  · exact ⟨_, _, _, _, rfl, fun h => absurd h1 h, fun _ => rfl⟩
  · exact ⟨_, _, _, _, rfl, fun _ h => absurd h2 h, fun _ => rfl⟩
  · exact ⟨_, _, _, _, rfl, fun _ _ => ⟨rfl, rfl⟩, fun h => by omega⟩
  · exact ⟨_, _, _, _, rfl, fun _ _ => ⟨rfl, rfl⟩, fun h => by omega⟩
  · exact ⟨_, _, _, _, rfl, fun _ _ => ⟨rfl, rfl⟩, fun h => by omega⟩

/-- C13 amended: in a variant-2 Status response, for every origin record and input snapshot,
stick X (byte 2) is the origin value plus 100 when Right is held, minus 100 when Left is held
(and not Right), and the origin value otherwise, and likewise stick Y (byte 3) with Up and
Down, reduced modulo 256 with no saturation.  The substick is not moved by the d-pad: the
response carries the origin substick values, as the bytes 4 and 5 in modes 0, 3, 4 and 5-7
and as their top nibbles in byte 4 in modes 1 and 2. -/
theorem c13_stick_offset (s : GC.State) (f : Frame) (keyinput : Nat)
    (hop : f.buf 0 = GC.CMD_STATUS) (hlen : f.len = 25)
    (hsx : s.origin.substick_x < 256) (hsy : s.origin.substick_y < 256)
    (hl : s.origin.trigger_l < 256) (hr : s.origin.trigger_r < 256)
    (ha : s.origin.button_a < 256) (hb : s.origin.button_b < 256) :
    ∃ b0 b1 t0 t1 t2 t3,
      (GC.poll s f keyinput).response
        = some ⟨[b0, b1,
            if keyDown (gbaInputOf keyinput) KEY_RIGHT then (s.origin.stick_x + 100) % 256
            else if keyDown (gbaInputOf keyinput) KEY_LEFT
              then (((s.origin.stick_x : Int) - 100) % 256).toNat
            else s.origin.stick_x,
            if keyDown (gbaInputOf keyinput) KEY_UP then (s.origin.stick_y + 100) % 256
            else if keyDown (gbaInputOf keyinput) KEY_DOWN
              then (((s.origin.stick_y : Int) - 100) % 256).toNat
            else s.origin.stick_y,
            t0, t1, t2, t3], 64⟩
      ∧ (f.buf 1 % 8 ≠ 1 → f.buf 1 % 8 ≠ 2 →
          t0 = s.origin.substick_x ∧ t1 = s.origin.substick_y)
      ∧ (f.buf 1 % 8 = 1 ∨ f.buf 1 % 8 = 2 →
          t0 = ((s.origin.substick_x >>> 4) <<< 4) ||| (s.origin.substick_y >>> 4)) := by
  obtain ⟨t0, t1, t2, t3, ht, h1, h2⟩ := gc_packedTail_substick (f.buf 1 % 8)
    s.origin.substick_x s.origin.substick_y
    (GC.analogOf (GC.atDispatch s f keyinput).origin.buttons.l s.origin.trigger_l)
    (GC.analogOf (GC.atDispatch s f keyinput).origin.buttons.r s.origin.trigger_r)
    (GC.analogOf (GC.atDispatch s f keyinput).origin.buttons.a s.origin.button_a)
    (GC.analogOf (GC.atDispatch s f keyinput).origin.buttons.b s.origin.button_b)
  refine ⟨(GC.atDispatch s f keyinput).origin.buttons.bytes.getD 0 0,
    (GC.atDispatch s f keyinput).origin.buttons.bytes.getD 1 0, t0, t1, t2, t3, ?_, h1, h2⟩
  rw [gc_poll_status_bytes s f keyinput hop hlen hsx hsy hl hr ha hb, ht]
  rfl

/-- C13 amended, at a concrete session: with Left and Up held the stick is (28, 228) and the
substick stays (128, 128), by the theorem. -/
theorem c13_stick_offset_witness :
    ∃ b0 b1 t2 t3,
      (GC.poll (GC.bootState plainCart 1) (frameOf [0x40, 0x00, 0x00] 25) 0x39F).response
        = some ⟨[b0, b1, 28, 228, 128, 128, t2, t3], 64⟩ := by
  obtain ⟨b0, b1, t0, t1, t2, t3, h, h1, _⟩ := c13_stick_offset (GC.bootState plainCart 1)
    (frameOf [0x40, 0x00, 0x00] 25) 0x39F (by decide) (by decide) (by decide) (by decide)
    (by decide) (by decide) (by decide) (by decide)
  obtain ⟨e0, e1⟩ := h1 (by decide) (by decide)
  subst e0 e1
  exact ⟨b0, b1, t2, t3, h⟩


/-! ## The origin record -/

/-- C14 as stated fails: an Identify cycle with A held and no soft-reset chord (default
preset) changes the origin record, whose A bit goes from 0 to 1; and an Origin command in
such a cycle answers the rewritten record, not the record persisted before the cycle. -/
theorem c14_origin_frame_counterexample :
    gbaInputOf 0x3FE ≠ SOFTRESET_INPUT
    ∧ (GC.bootState plainCart 1).origin.buttons.a = false
    ∧ (GC.poll (GC.bootState plainCart 1) (frameOf [0x00] 9) 0x3FE).state.origin.buttons.a = true
    ∧ (GC.poll (GC.bootState plainCart 1) (frameOf [0x00] 9) 0x3FE).state.origin
        ≠ (GC.bootState plainCart 1).origin
    ∧ (GC.poll (GC.bootState plainCart 1) (frameOf [0x40, 0x00, 0x00] 25) 0x3FE).state.origin
        ≠ (GC.bootState plainCart 1).origin
    ∧ (GC.bootState plainCart 1).origin.bytes = [0, 128, 128, 128, 128, 128, 0, 0, 0, 0]
    ∧ (GC.poll (GC.bootState plainCart 1) (frameOf [0x41] 9) 0x3FE).response
        = some ⟨[1, 128, 128, 128, 128, 128, 0, 0, 0, 0], 80⟩ := by
  decide

theorem gc_atDispatch_buttons (s : GC.State) (f : Frame) (keyinput : Nat) :
    (GC.atDispatch s f keyinput).origin.buttons
      = if s.nGameProfile = 0 then
          (GC.mapLoop s.aCustomGameProfileConfig (gbaInputOf keyinput) 6
            (s.origin.buttons, s.nProfileIterationGbaButtonState)).1
        else GC.presetButtons s.nGameProfile (gbaInputOf keyinput) s.origin.buttons := by
  simp only [GC.atDispatch, GC.prepare, GC.applyProfile, GC.received]
  split_ifs <;> rfl

theorem gc_poll_origin (s : GC.State) (f : Frame) (keyinput : Nat) (hlen : ¬ f.len < 9) :
    (GC.poll s f keyinput).state.origin
      = if gbaInputOf keyinput = SOFTRESET_INPUT
        then GC.clearOrigin (GC.atDispatch s f keyinput).origin
        else (GC.atDispatch s f keyinput).origin := by
  have hsr : (GC.dispatch (GC.atDispatch s f keyinput)).1.softReset
      = decide (gbaInputOf keyinput = SOFTRESET_INPUT) := by
    rw [gc_dispatch_softReset]
    unfold GC.atDispatch
    rw [gc_prepare_softReset]
  rw [(gc_poll_state s f keyinput hlen).1, (gc_finish_rest _).1, hsr,
    (gc_dispatch_rest _).1]
  by_cases h : gbaInputOf keyinput = SOFTRESET_INPUT
  · simp [h]
  · simp [h]

/-- C14 amended: in variant 2 no poll cycle changes the analog fields of the persisted origin
record (stick, substick, triggers, analog buttons).  Its button bits are rewritten in every
cycle that receives at least 9 bits, whatever the opcode, with what the selected profile
computes from the input snapshot (and are released when the soft-reset chord is held); a
cycle with a shorter frame leaves the record unchanged.  An Origin command of legal length
answers the ten bytes of the record as rewritten in that cycle. -/
theorem c14_origin_frame (s : GC.State) (f : Frame) (keyinput : Nat) :
    (GC.poll s f keyinput).state.origin
        = { s.origin with buttons := (GC.poll s f keyinput).state.origin.buttons }
    ∧ (f.len < 9 → (GC.poll s f keyinput).state.origin = s.origin)
    ∧ (¬ f.len < 9 → gbaInputOf keyinput ≠ SOFTRESET_INPUT →
        (GC.poll s f keyinput).state.origin.buttons
          = if s.nGameProfile = 0 then
              (GC.mapLoop s.aCustomGameProfileConfig (gbaInputOf keyinput) 6
                (s.origin.buttons, s.nProfileIterationGbaButtonState)).1
            else GC.presetButtons s.nGameProfile (gbaInputOf keyinput) s.origin.buttons)
    ∧ (f.buf 0 = GC.CMD_ORIGIN → f.len = 9 →
        (GC.poll s f keyinput).response
          = some ⟨({ s.origin with
              buttons := if s.nGameProfile = 0 then
                  (GC.mapLoop s.aCustomGameProfileConfig (gbaInputOf keyinput) 6
                    (s.origin.buttons, s.nProfileIterationGbaButtonState)).1
                else GC.presetButtons s.nGameProfile (gbaInputOf keyinput) s.origin.buttons }
              : GC.Origin).bytes, 80⟩) := by
  have hat := gc_atDispatch_origin s f keyinput
  refine ⟨?_, fun h => ?_, fun h hs => ?_, fun hop hlen => ?_⟩
  · by_cases hlen : f.len < 9
    · rw [gc_poll_of_short s f keyinput hlen]
      rfl
    · rw [gc_poll_origin s f keyinput hlen]
      split_ifs
      · rw [hat]
        rfl
      · rw [hat]
  · rw [gc_poll_of_short s f keyinput h]
    rfl
  · rw [gc_poll_origin s f keyinput h, if_neg hs, gc_atDispatch_buttons]
  · rw [(gc_poll_state s f keyinput (by omega)).2]
    have hb := (gc_atDispatch_frame s f keyinput).1
    have hl := (gc_atDispatch_frame s f keyinput).2
    have hd : (GC.dispatch (GC.atDispatch s f keyinput)).2
        = some ⟨(GC.atDispatch s f keyinput).origin.bytes, 80⟩ := by
      simp [GC.dispatch, hb, hl, hop, hlen, GC.CMD_ORIGIN, GC.CMD_RESET, GC.CMD_ID,
        GC.CMD_STATUS]
    rw [hd, hat, gc_atDispatch_buttons]

/-- C14 amended, at a concrete session: the Origin command with A held answers the origin
record with its A bit set and the analog fields of the initial record, by the theorem. -/
theorem c14_origin_frame_witness :
    (GC.poll (GC.bootState plainCart 1) (frameOf [0x41] 9) 0x3FE).response
      = some ⟨[1, 128, 128, 128, 128, 128, 0, 0, 0, 0], 80⟩ :=
  ((c14_origin_frame (GC.bootState plainCart 1) (frameOf [0x41] 9) 0x3FE).2.2.2
    (by decide) (by decide)).trans (by decide)


/-! ## Identify and Reset -/

/-- C15 as stated fails for the origin record: a legal Reset received with A held is answered
while the origin record has its A bit set, and a legal Reset received with no key held in a
session restarted after a soft reset is answered while `use_origin` is 0; in both cases the
origin record is not its initial value when the identity record is sent. -/
theorem c15_reset_counterexample :
    (GC.poll (GC.bootState plainCart 1) (frameOf [0xFF] 9) 0x3FE).response
        = some ⟨[0x29, 0x00, 0x00], 24⟩
    ∧ (GC.dispatch (GC.atDispatch (GC.bootState plainCart 1) (frameOf [0xFF] 9) 0x3FE)).1.origin
        ≠ GC.Origin.init
    ∧ (GC.poll (GC.bootState plainCart 1) (frameOf [0xFF] 9) 0x3FE).state.origin
        ≠ GC.Origin.init
    ∧ (GC.poll GC.afterSoftReset (frameOf [0xFF] 9) 0x3FF).response
        = some ⟨[0x29, 0x00, 0x00], 24⟩
    ∧ (GC.dispatch (GC.atDispatch GC.afterSoftReset (frameOf [0xFF] 9)
        0x3FF)).1.origin.buttons.use_origin = false
    ∧ GC.Origin.init.buttons.use_origin = true := by
  decide

theorem gc_dispatch_identify (s : GC.State)
    (hop : s.buffer 0 = GC.CMD_RESET ∨ s.buffer 0 = GC.CMD_ID) (hlen : s.nSiCmdLen = 9) :
    (GC.dispatch s).2
      = some ⟨[if s.hasMotor then 0x09 else 0x29, 0x00,
          64 * bit s.id.unknown + 32 * bit s.id.get_origin
            + 8 * ((if s.buffer 0 = GC.CMD_RESET then GC.MOTOR_STOP else s.id.motor) % 4)
            + s.id.mode % 8], 24⟩ := by
  simp only [GC.dispatch, hop, hlen, GC.Id.bytes, if_true]
  by_cases hr : s.buffer 0 = GC.CMD_RESET
  · cases hm : s.hasMotor <;> simp [hr, hm, hlen]
  · cases hm : s.hasMotor <;> simp [hr, hm, hlen]

theorem gc_atDispatch_id (s : GC.State) (f : Frame) (keyinput : Nat) :
    (GC.atDispatch s f keyinput).id = { s.id with unknown := s.origin.buttons.unknown }
      ∧ (GC.atDispatch s f keyinput).hasMotor = s.hasMotor
      ∧ (GC.atDispatch s f keyinput).rumble = s.rumble
      ∧ (GC.atDispatch s f keyinput).hw = s.hw := by
  have hp := gc_prepare_rest (GC.received s f) keyinput
  have hpf := gc_prepare_flags (GC.received s f) keyinput
  refine ⟨?_, hp.2.2.2.2.2.1, hp.2.2.2.2.1, hp.2.2.2.1⟩
  unfold GC.atDispatch
  rw [hp.2.1, hpf.1]
  rfl

/-- The response of a legal Identify or Reset of the GameCube responder. -/
theorem gc_poll_identify (s : GC.State) (f : Frame) (keyinput : Nat)
    (hop : f.buf 0 = GC.CMD_RESET ∨ f.buf 0 = GC.CMD_ID) (hlen : f.len = 9) :
    (GC.poll s f keyinput).response
      = some ⟨[if s.hasMotor then 0x09 else 0x29, 0x00,
          64 * bit s.origin.buttons.unknown + 32 * bit s.id.get_origin
            + 8 * ((if f.buf 0 = GC.CMD_RESET then GC.MOTOR_STOP else s.id.motor) % 4)
            + s.id.mode % 8], 24⟩ := by
  have hb := (gc_atDispatch_frame s f keyinput).1
  have hl := (gc_atDispatch_frame s f keyinput).2
  rw [(gc_poll_state s f keyinput (by omega)).2,
    gc_dispatch_identify _ (by rw [hb]; exact hop) (by rw [hl]; exact hlen), hb,
    (gc_atDispatch_id s f keyinput).1, (gc_atDispatch_id s f keyinput).2.1]

/-- C15 amended: on a Reset command of legal length the dispatcher clears the accumulated
motor state before the reply is produced: in variant 2 the motor field of the identity status
is `MOTOR_STOP` when the identity record is sent (bits 3 and 4 of its status byte are 0) and
the motor is commanded off at the end of the cycle.  The origin record is not reset: the
Reset leaves it as every cycle does, with its analog fields unchanged and its buttons as the
profile computed them from the snapshot. -/
theorem c15_reset (s : GC.State) (f : Frame) (keyinput : Nat)
    (hop : f.buf 0 = GC.CMD_RESET) (hlen : f.len = 9) :
    (GC.dispatch (GC.atDispatch s f keyinput)).1.id.motor = GC.MOTOR_STOP
    ∧ (GC.poll s f keyinput).response
        = some ⟨[if s.hasMotor then 0x09 else 0x29, 0x00,
            64 * bit s.origin.buttons.unknown + 32 * bit s.id.get_origin + 8 * GC.MOTOR_STOP
              + s.id.mode % 8], 24⟩
    ∧ (64 * bit s.origin.buttons.unknown + 32 * bit s.id.get_origin + 8 * GC.MOTOR_STOP
        + s.id.mode % 8) / 8 % 4 = GC.MOTOR_STOP
    ∧ (GC.poll s f keyinput).state.id.motor = GC.MOTOR_STOP
    ∧ (GC.poll s f keyinput).motor = some false
    ∧ (GC.dispatch (GC.atDispatch s f keyinput)).1.origin = (GC.atDispatch s f keyinput).origin
    ∧ (GC.atDispatch s f keyinput).origin
        = { s.origin with
            buttons := if s.nGameProfile = 0 then
                (GC.mapLoop s.aCustomGameProfileConfig (gbaInputOf keyinput) 6
                  (s.origin.buttons, s.nProfileIterationGbaButtonState)).1
              else GC.presetButtons s.nGameProfile (gbaInputOf keyinput) s.origin.buttons } := by
  have hb : (GC.atDispatch s f keyinput).buffer 0 = GC.CMD_RESET := by
    rw [(gc_atDispatch_frame s f keyinput).1]
    exact hop
  have hm : (GC.dispatch (GC.atDispatch s f keyinput)).1.id.motor = GC.MOTOR_STOP := by
    rw [gc_dispatch_id_motor, hb]
    simp [GC.CMD_RESET, GC.CMD_STATUS, GC.CMD_RECALIBRATE, GC.CMD_STATUS_LONG]
  refine ⟨hm, ?_, ?_, ?_, ?_, (gc_dispatch_rest _).1, ?_⟩
  · rw [gc_poll_identify s f keyinput (Or.inl hop) hlen, if_pos hop]
    rfl
  · have h8 : s.id.mode % 8 < 8 := Nat.mod_lt _ (by decide)
    simp only [GC.MOTOR_STOP]
    cases s.origin.buttons.unknown <;> cases s.id.get_origin <;> simp only [bit] <;> omega
  · rw [(gc_poll_state s f keyinput (by omega)).1, (gc_finish_rest _).2.2.2.2.1, hm]
  · rw [gc_poll_of_long s f keyinput (by omega)]
    show some (GC.motorArg (GC.dispatch (GC.atDispatch s f keyinput)).1) = some false
    simp [GC.motorArg, hm, GC.MOTOR_STOP, GC.MOTOR_RUMBLE]
  · rw [gc_atDispatch_origin, gc_atDispatch_buttons]

/-- C15 amended, at a concrete session: after a Status that requested rumble, a legal Reset
is answered with a status byte whose motor bits are 0 and commands the motor off. -/
theorem c15_reset_witness :
    (GC.poll (GC.bootState gpioCart 1) (frameOf [0x40, 0x03, 0x01] 25) 0x3FF).state.id.motor = 1
    ∧ (GC.poll (GC.poll (GC.bootState gpioCart 1) (frameOf [0x40, 0x03, 0x01] 25) 0x3FF).state
        (frameOf [0xFF] 9) 0x3FF).state.id.motor = 0
    ∧ (GC.poll (GC.poll (GC.bootState gpioCart 1) (frameOf [0x40, 0x03, 0x01] 25) 0x3FF).state
        (frameOf [0xFF] 9) 0x3FF).motor = some false :=
  ⟨by decide,
   (c15_reset (GC.poll (GC.bootState gpioCart 1) (frameOf [0x40, 0x03, 0x01] 25) 0x3FF).state
      (frameOf [0xFF] 9) 0x3FF (by decide) (by decide)).2.2.2.1,
   (c15_reset (GC.poll (GC.bootState gpioCart 1) (frameOf [0x40, 0x03, 0x01] 25) 0x3FF).state
      (frameOf [0xFF] 9) 0x3FF (by decide) (by decide)).2.2.2.2.1⟩


theorem motor_mode_or : ∀ m, m < 4 → ∀ d, d < 8 → 8 * m + d = (m <<< 3) ||| d := by
  decide

theorem gc_has_motor_flag (hw : Hardware) :
    (GC.has_motor hw).2 = true ↔ (GC.has_motor hw).1 ≠ GC.Rumble.RUMBLE_NONE := by
  unfold GC.has_motor
  split_ifs <;> simp

/-- No poll cycle of the GameCube responder writes `rumble` or `hasMotor`. -/
theorem gc_poll_rumble (s : GC.State) (f : Frame) (keyinput : Nat) :
    (GC.poll s f keyinput).state.rumble = s.rumble
      ∧ (GC.poll s f keyinput).state.hasMotor = s.hasMotor := by
  by_cases hlen : f.len < 9
  · rw [gc_poll_of_short s f keyinput hlen]
    exact ⟨rfl, rfl⟩
  · rw [(gc_poll_state s f keyinput hlen).1, (gc_finish_rest _).2.2.1,
      (gc_finish_rest _).2.2.2.1, (gc_dispatch_rest _).2.2.1, (gc_dispatch_rest _).2.2.2.1,
      (gc_atDispatch_id s f keyinput).2.1, (gc_atDispatch_id s f keyinput).2.2.1]
    exact ⟨rfl, rfl⟩

theorem gc_reachable_hasMotor (s : GC.State) (h : GC.Reachable s) :
    s.hasMotor = true ↔ s.rumble ≠ GC.Rumble.RUMBLE_NONE := by
  induction h with
  | boot hw p cfg pk => exact gc_has_motor_flag hw
  | restart s hw p cfg pk _ _ _ => exact gc_has_motor_flag hw
  | poll s f keyinput _ _ ih =>
    rw [(gc_poll_rumble s f keyinput).1, (gc_poll_rumble s f keyinput).2]
    exact ih

theorem gc_poll_id_fields (s : GC.State) (f : Frame) (keyinput : Nat) (hlen : ¬ f.len < 9) :
    (GC.poll s f keyinput).state.id.mode
        = (if (f.buf 0 = GC.CMD_STATUS ∨ f.buf 0 = GC.CMD_RECALIBRATE
              ∨ f.buf 0 = GC.CMD_STATUS_LONG) ∧ f.len = 25
           then f.buf 1 % 8 else s.id.mode)
      ∧ (GC.poll s f keyinput).state.id.motor
        = (if (f.buf 0 = GC.CMD_STATUS ∨ f.buf 0 = GC.CMD_RECALIBRATE
              ∨ f.buf 0 = GC.CMD_STATUS_LONG) ∧ f.len = 25
           then f.buf 2 % 4
           else if f.buf 0 = GC.CMD_RESET then GC.MOTOR_STOP else s.id.motor) := by
  rw [(gc_poll_state s f keyinput hlen).1, (gc_finish_rest _).2.2.2.2.1, gc_dispatch_id_mode,
    gc_dispatch_id_motor, (gc_atDispatch_frame s f keyinput).1,
    (gc_atDispatch_frame s f keyinput).2, (gc_atDispatch_id s f keyinput).1]
  exact ⟨rfl, rfl⟩

/-- C16: Identify response.  Variant 1: a legal Identify or Reset always answers the bytes
`0x05, 0x00, 0x01`, whatever the state.  Variant 2, in every reachable state: it answers the
type bytes `0x09, 0x00` when a rumble mechanism was classified and `0x29, 0x00` otherwise,
then the status byte `(motor << 3) | mode` with its top three bits 0, where `motor` (2 bits)
and `mode` (3 bits) are the fields last taken from bytes 2 and 1 of a legal Status,
Recalibrate or Long-Status request, `motor` being forced to 0 by a Reset. -/
theorem c16_identify :
    (∀ (s : N64.State) (f : Frame) (keyinput : Nat),
        f.buf 0 = N64.CMD_ID ∨ f.buf 0 = N64.CMD_RESET → f.len = 9 →
        (N64.poll s f keyinput).response = some ⟨[0x05, 0x00, 0x01], 24⟩)
    ∧ (∀ (s : GC.State) (f : Frame) (keyinput : Nat), GC.Reachable s →
        f.buf 0 = GC.CMD_ID ∨ f.buf 0 = GC.CMD_RESET → f.len = 9 →
        (GC.poll s f keyinput).response
          = some ⟨[if s.rumble ≠ GC.Rumble.RUMBLE_NONE then 0x09 else 0x29, 0x00,
              ((if f.buf 0 = GC.CMD_RESET then 0 else s.id.motor) <<< 3) ||| s.id.mode], 24⟩
        ∧ ((if f.buf 0 = GC.CMD_RESET then 0 else s.id.motor) <<< 3) ||| s.id.mode < 32
        ∧ s.id.motor < 4 ∧ s.id.mode < 8)
    ∧ (∀ (s : GC.State) (f : Frame) (keyinput : Nat), ¬ f.len < 9 →
        (GC.poll s f keyinput).state.id.mode
          = (if (f.buf 0 = GC.CMD_STATUS ∨ f.buf 0 = GC.CMD_RECALIBRATE
                ∨ f.buf 0 = GC.CMD_STATUS_LONG) ∧ f.len = 25
             then f.buf 1 % 8 else s.id.mode)
        ∧ (GC.poll s f keyinput).state.id.motor
          = (if (f.buf 0 = GC.CMD_STATUS ∨ f.buf 0 = GC.CMD_RECALIBRATE
                ∨ f.buf 0 = GC.CMD_STATUS_LONG) ∧ f.len = 25
             then f.buf 2 % 4
             else if f.buf 0 = GC.CMD_RESET then 0 else s.id.motor))
    ∧ (∀ (s : GC.State) (f : Frame) (keyinput : Nat), f.len < 9 →
        (GC.poll s f keyinput).state.id = s.id) := by
  refine ⟨fun s f keyinput hop hlen => ?_, fun s f keyinput hr hop hlen => ?_,
    gc_poll_id_fields, fun s f keyinput hlen => ?_⟩
  · rcases hop with h | h <;>
      simp [N64.poll, h, hlen, N64.CMD_ID, N64.CMD_RESET, N64.id_bytes]
  · obtain ⟨hu, _, hg, hmo, hmd⟩ := gc_reachable_inv s hr
    have hmot : (if f.buf 0 = GC.CMD_RESET then 0 else s.id.motor) < 4 := by
      split_ifs
      · decide
      · exact hmo
    have hbyte : 64 * bit s.origin.buttons.unknown + 32 * bit s.id.get_origin
        + 8 * ((if f.buf 0 = GC.CMD_RESET then GC.MOTOR_STOP else s.id.motor) % 4)
        + s.id.mode % 8
        = ((if f.buf 0 = GC.CMD_RESET then 0 else s.id.motor) <<< 3) ||| s.id.mode := by
      rw [hu, hg, ← motor_mode_or _ hmot _ hmd, Nat.mod_eq_of_lt hmd]
      simp only [GC.MOTOR_STOP, bit]
      rw [Nat.mod_eq_of_lt hmot]
      simp
    have htype : (if s.hasMotor = true then 0x09 else 0x29)
        = (if s.rumble ≠ GC.Rumble.RUMBLE_NONE then 0x09 else 0x29) := by
      by_cases hm : s.hasMotor = true
      · rw [if_pos hm, if_pos ((gc_reachable_hasMotor s hr).mp hm)]
      · rw [if_neg hm, if_neg (fun h => hm ((gc_reachable_hasMotor s hr).mpr h))]
    refine ⟨?_, ?_, hmo, hmd⟩
    · rw [gc_poll_identify s f keyinput hop.symm hlen, hbyte, htype]
    · rw [← motor_mode_or _ hmot _ hmd]
      omega
  · rw [gc_poll_of_short s f keyinput hlen]
    rfl

theorem gc_bootState_reachable (hw : Hardware) (p : Int) : GC.Reachable (GC.bootState hw p) :=
  GC.Reachable.boot hw p GC.aDefaultProfileConfig false

/-- C16 at concrete sessions: the N64 Identify answers `05 00 01`; after a Status that asked
for mode 3 and motor 1, the GameCube Identify with a rumble cartridge answers `09 00 0B` and
the Reset answers `09 00 03`, by the theorem. -/
theorem c16_identify_witness :
    (N64.poll (N64.bootState plainCart) (frameOf [0x00] 9) 0x3FF).response
        = some ⟨[0x05, 0x00, 0x01], 24⟩
    ∧ (GC.poll (GC.poll (GC.bootState gpioCart 1) (frameOf [0x40, 0x03, 0x01] 25) 0x3FF).state
        (frameOf [0x00] 9) 0x3FF).response = some ⟨[0x09, 0x00, 0x0B], 24⟩
    ∧ (GC.poll (GC.poll (GC.bootState gpioCart 1) (frameOf [0x40, 0x03, 0x01] 25) 0x3FF).state
        (frameOf [0xFF] 9) 0x3FF).response = some ⟨[0x09, 0x00, 0x03], 24⟩ :=
  ⟨c16_identify.1 (N64.bootState plainCart) (frameOf [0x00] 9) 0x3FF (by decide) (by decide),
   (c16_identify.2.1 _ (frameOf [0x00] 9) 0x3FF
      (GC.Reachable.poll _ (frameOf [0x40, 0x03, 0x01] 25) 0x3FF
        (gc_bootState_reachable gpioCart 1) rfl) (by decide) (by decide)).1.trans (by decide),
   (c16_identify.2.1 _ (frameOf [0xFF] 9) 0x3FF
      (GC.Reachable.poll _ (frameOf [0x40, 0x03, 0x01] 25) 0x3FF
        (gc_bootState_reachable gpioCart 1) rfl) (by decide) (by decide)).1.trans (by decide)⟩


/-! ## Variant 1: Status wire format -/

theorem status_byte_or : ∀ b0 b1 b2 b3 b4 b5 b6 b7 : Bool,
    bit b0 + 2 * bit b1 + 4 * bit b2 + 8 * bit b3 + 16 * bit b4 + 32 * bit b5 + 64 * bit b6
        + 128 * bit b7
      = (bit b7 <<< 7) ||| (bit b6 <<< 6) ||| (bit b5 <<< 5) ||| (bit b4 <<< 4)
          ||| (bit b3 <<< 3) ||| (bit b2 <<< 2) ||| (bit b1 <<< 1) ||| bit b0 := by
  decide

theorem n64_setButton_reset (b : N64.Buttons) (t : Int) (v : Bool) :
    (N64.setButton b t v).reset = b.reset := by
  by_cases hr : t < 0 ∨ 13 < t
  · rw [n64_setButton_out_of_range b t v hr]
  · obtain ⟨n, rfl⟩ : ∃ n : Nat, t = (n : Int) := ⟨t.toNat, by omega⟩
    have hn : n < 14 := by omega
    interval_cases n <;> rfl

theorem n64_mapLoop_reset (cfg : Nat → Int) (g : Nat) :
    ∀ (n : Nat) (b : N64.Buttons) (p : Bool),
      (N64.mapLoop cfg g n (b, p)).1.reset = b.reset := by
  intro n
  induction n with
  | zero => intro b p; rfl
  | succ n ih =>
    intro b p
    simp only [N64.mapLoop]
    rw [ih, n64_setButton_reset]

theorem n64_cmdStatus_reset (s : N64.State) (keyinput : Nat) :
    (N64.cmdStatus s keyinput).state.status.buttons.reset = s.status.buttons.reset := by
  by_cases hs : gbaInputOf keyinput = SOFTRESET_INPUT
  · simp [N64.cmdStatus, hs]
  · rw [n64_cmdStatus_buttons s keyinput hs, n64_mapLoop_reset]

/-- Only the Status command writes `status`; no cycle writes its `reset` bit. -/
theorem n64_poll_reset (s : N64.State) (f : Frame) (keyinput : Nat) :
    (N64.poll s f keyinput).state.status.buttons.reset = s.status.buttons.reset := by
  unfold N64.poll
  simp only []
  split_ifs
  · rfl
  · rfl
  · rfl
  · exact n64_cmdStatus_reset _ keyinput
  · rfl
  · simp only [N64.cmdRead]
    split_ifs <;> rfl
  · rfl
  · simp only [N64.cmdWrite]
    split_ifs <;> rfl
  · rfl
  · rfl

theorem n64_reachable_reset (s : N64.State) (h : N64.Reachable s) :
    s.status.buttons.reset = false := by
  induction h with
  | boot hw vram cfg => rfl
  | restart s hw vram cfg _ _ ih => exact ih
  | poll s f keyinput _ _ ih =>
    rw [n64_poll_reset]
    exact ih

theorem byteOfInt8_twos (x : Int) (hlo : -128 ≤ x) (hhi : x < 128) :
    (N64.byteOfInt8 x : Int) = if 0 ≤ x then x else x + 256 := by
  unfold N64.byteOfInt8
  split_ifs <;> omega

/-- C17: variant-1 Status wire format.  For every state and snapshot for which a Status
response is produced, the response is the four bytes of the new `status`: byte 0 =
`A<<7 | B<<6 | Z<<5 | Start<<4 | Up<<3 | Down<<2 | Left<<1 | Right`, byte 1 =
`Reset<<7 | 0<<6 | L<<5 | R<<4 | C-Up<<3 | C-Down<<2 | C-Left<<1 | C-Right`, bytes 2 and 3 the
stick x and y as two-complement bytes; the Reset bit is 0 in every reachable state (the
unused bit is 0 by construction), so byte 1 is below 64 there. -/
theorem c17_status_wire :
    (∀ (s : N64.State) (f : Frame) (keyinput : Nat),
        f.buf 0 = N64.CMD_STATUS → f.len = 9 → gbaInputOf keyinput ≠ SOFTRESET_INPUT →
        (N64.poll s f keyinput).response
          = some ⟨[
              (bit (N64.poll s f keyinput).state.status.buttons.a <<< 7)
                ||| (bit (N64.poll s f keyinput).state.status.buttons.b <<< 6)
                ||| (bit (N64.poll s f keyinput).state.status.buttons.z <<< 5)
                ||| (bit (N64.poll s f keyinput).state.status.buttons.start <<< 4)
                ||| (bit (N64.poll s f keyinput).state.status.buttons.up <<< 3)
                ||| (bit (N64.poll s f keyinput).state.status.buttons.down <<< 2)
                ||| (bit (N64.poll s f keyinput).state.status.buttons.left <<< 1)
                ||| bit (N64.poll s f keyinput).state.status.buttons.right,
              (bit (N64.poll s f keyinput).state.status.buttons.reset <<< 7)
                ||| (0 <<< 6)
                ||| (bit (N64.poll s f keyinput).state.status.buttons.l <<< 5)
                ||| (bit (N64.poll s f keyinput).state.status.buttons.r <<< 4)
                ||| (bit (N64.poll s f keyinput).state.status.buttons.c_up <<< 3)
                ||| (bit (N64.poll s f keyinput).state.status.buttons.c_down <<< 2)
                ||| (bit (N64.poll s f keyinput).state.status.buttons.c_left <<< 1)
                ||| bit (N64.poll s f keyinput).state.status.buttons.c_right,
              N64.byteOfInt8 (N64.poll s f keyinput).state.status.stick_x,
              N64.byteOfInt8 (N64.poll s f keyinput).state.status.stick_y], 32⟩)
    ∧ (∀ x : Int, -128 ≤ x → x < 128 →
        (N64.byteOfInt8 x : Int) = if 0 ≤ x then x else x + 256)
    ∧ (∀ s : N64.State, N64.Reachable s → s.status.buttons.reset = false)
    ∧ (∀ (s : N64.State) (f : Frame) (keyinput : Nat), N64.Reachable s →
        f.buf 0 = N64.CMD_STATUS → f.len = 9 → gbaInputOf keyinput ≠ SOFTRESET_INPUT →
        (N64.poll s f keyinput).state.status.buttons.reset = false
        ∧ ∃ b0 b1 b2 b3, (N64.poll s f keyinput).response = some ⟨[b0, b1, b2, b3], 32⟩
            ∧ b1 < 64) := by
  have fmt : ∀ (s : N64.State) (f : Frame) (keyinput : Nat),
      f.buf 0 = N64.CMD_STATUS → f.len = 9 → gbaInputOf keyinput ≠ SOFTRESET_INPUT →
      (N64.poll s f keyinput).response
        = some ⟨[
            (bit (N64.poll s f keyinput).state.status.buttons.a <<< 7)
              ||| (bit (N64.poll s f keyinput).state.status.buttons.b <<< 6)
              ||| (bit (N64.poll s f keyinput).state.status.buttons.z <<< 5)
              ||| (bit (N64.poll s f keyinput).state.status.buttons.start <<< 4)
              ||| (bit (N64.poll s f keyinput).state.status.buttons.up <<< 3)
              ||| (bit (N64.poll s f keyinput).state.status.buttons.down <<< 2)
              ||| (bit (N64.poll s f keyinput).state.status.buttons.left <<< 1)
              ||| bit (N64.poll s f keyinput).state.status.buttons.right,
            (bit (N64.poll s f keyinput).state.status.buttons.reset <<< 7)
              ||| (0 <<< 6)
              ||| (bit (N64.poll s f keyinput).state.status.buttons.l <<< 5)
              ||| (bit (N64.poll s f keyinput).state.status.buttons.r <<< 4)
              ||| (bit (N64.poll s f keyinput).state.status.buttons.c_up <<< 3)
              ||| (bit (N64.poll s f keyinput).state.status.buttons.c_down <<< 2)
              ||| (bit (N64.poll s f keyinput).state.status.buttons.c_left <<< 1)
              ||| bit (N64.poll s f keyinput).state.status.buttons.c_right,
            N64.byteOfInt8 (N64.poll s f keyinput).state.status.stick_x,
            N64.byteOfInt8 (N64.poll s f keyinput).state.status.stick_y], 32⟩ := by
    intro s f keyinput hop hlen hs
    rw [n64_poll_status_response s f keyinput hop hlen hs]
    simp only [N64.Status.bytes]
    rw [status_byte_or]
    have h1 := status_byte_or (N64.poll s f keyinput).state.status.buttons.c_right
      (N64.poll s f keyinput).state.status.buttons.c_left
      (N64.poll s f keyinput).state.status.buttons.c_down
      (N64.poll s f keyinput).state.status.buttons.c_up
      (N64.poll s f keyinput).state.status.buttons.r
      (N64.poll s f keyinput).state.status.buttons.l false
      (N64.poll s f keyinput).state.status.buttons.reset
    simp only [bit, Bool.false_eq_true, if_false, Nat.mul_zero, Nat.add_zero] at h1 ⊢
    rw [h1]
  refine ⟨fmt, byteOfInt8_twos, n64_reachable_reset, fun s f keyinput hr hop hlen hs => ?_⟩
  have hreset : (N64.poll s f keyinput).state.status.buttons.reset = false := by
    rw [n64_poll_reset]
    exact n64_reachable_reset s hr
  refine ⟨hreset, _, _, _, _, n64_poll_status_response s f keyinput hop hlen hs, ?_⟩
  rw [hreset]
  have hb : ∀ b : Bool, bit b ≤ 1 := by decide
  have h1 := hb (N64.poll s f keyinput).state.status.buttons.c_right
  have h2 := hb (N64.poll s f keyinput).state.status.buttons.c_left
  have h3 := hb (N64.poll s f keyinput).state.status.buttons.c_down
  have h4 := hb (N64.poll s f keyinput).state.status.buttons.c_up
  have h5 := hb (N64.poll s f keyinput).state.status.buttons.r
  have h6 := hb (N64.poll s f keyinput).state.status.buttons.l
  have h7 : bit false = 0 := rfl
  omega

/-- C17 at a concrete session: with A, Start and R held and Left on the d-pad, the Status
response is `90 10 B0 00`, by the theorem. -/
theorem c17_status_wire_witness :
    (N64.poll (N64.bootState plainCart) (frameOf [0x01] 9) 0x2D6).response
      = some ⟨[0x90, 0x10, 0xB0, 0x00], 32⟩ :=
  (c17_status_wire.1 (N64.bootState plainCart) (frameOf [0x01] 9) 0x2D6 (by decide) (by decide)
    (by decide)).trans (by decide)


/-! ## Rumble controller -/

/-- C18: `has_motor` is a total decision table over the three cartridge halfwords
`h = ROM[0x59]`, `s = ROM[0xFFFFFF]` (as `int16_t` values) and `m = ROM[0x56] & 0xFF`: the
stored kind is slot-adapter-refresh-DMA iff `h = 0x59` and `s = ~0x0002`,
slot-adapter-address-write iff `h = 0x59` and `s = ~0x0101`, GPIO-toggle iff `h = 0x96` and
`m` is the letter R or V, the GPIO-bit variant (variant 2 only) iff `h = 0x96` and `m` is the
letter G, and none for every other input; the sentinel test and the maker test sit under
different values of `h`, so no input reaches both; `has_motor` returns true iff the stored
kind is not none. -/
theorem c18_has_motor_table (hw : Hardware) :
    ((N64.has_motor hw).1 = N64.Rumble.RUMBLE_NDS
        ↔ sext16 (hw.rom 0x59) = 0x59 ∧ sext16 (hw.rom 0xFFFFFF) = -3)
    ∧ ((N64.has_motor hw).1 = N64.Rumble.RUMBLE_NDS_SLIDE
        ↔ sext16 (hw.rom 0x59) = 0x59 ∧ sext16 (hw.rom 0xFFFFFF) = -258)
    ∧ ((N64.has_motor hw).1 = N64.Rumble.RUMBLE_GBA
        ↔ sext16 (hw.rom 0x59) = 0x96
          ∧ (sext16 (hw.rom 0x56) % 256 = 0x52 ∨ sext16 (hw.rom 0x56) % 256 = 0x56))
    ∧ ((N64.has_motor hw).2 = true ↔ (N64.has_motor hw).1 ≠ N64.Rumble.RUMBLE_NONE)
    ∧ ((GC.has_motor hw).1 = GC.Rumble.RUMBLE_NDS
        ↔ sext16 (hw.rom 0x59) = 0x59 ∧ sext16 (hw.rom 0xFFFFFF) = -3)
    ∧ ((GC.has_motor hw).1 = GC.Rumble.RUMBLE_NDS_SLIDE
        ↔ sext16 (hw.rom 0x59) = 0x59 ∧ sext16 (hw.rom 0xFFFFFF) = -258)
    ∧ ((GC.has_motor hw).1 = GC.Rumble.RUMBLE_GBA
        ↔ sext16 (hw.rom 0x59) = 0x96
          ∧ (sext16 (hw.rom 0x56) % 256 = 0x52 ∨ sext16 (hw.rom 0x56) % 256 = 0x56))
    ∧ ((GC.has_motor hw).1 = GC.Rumble.RUMBLE_EZFLASH_OMEGA_DE
        ↔ sext16 (hw.rom 0x59) = 0x96 ∧ sext16 (hw.rom 0x56) % 256 = 0x47)
    ∧ ((GC.has_motor hw).2 = true ↔ (GC.has_motor hw).1 ≠ GC.Rumble.RUMBLE_NONE)
    ∧ ((N64.has_motor hw).1 = N64.Rumble.RUMBLE_NONE
        ↔ ¬ (sext16 (hw.rom 0x59) = 0x59
              ∧ (sext16 (hw.rom 0xFFFFFF) = -3 ∨ sext16 (hw.rom 0xFFFFFF) = -258))
          ∧ ¬ (sext16 (hw.rom 0x59) = 0x96
              ∧ (sext16 (hw.rom 0x56) % 256 = 0x52 ∨ sext16 (hw.rom 0x56) % 256 = 0x56)))
    ∧ ((GC.has_motor hw).1 = GC.Rumble.RUMBLE_NONE
        ↔ ¬ (sext16 (hw.rom 0x59) = 0x59
              ∧ (sext16 (hw.rom 0xFFFFFF) = -3 ∨ sext16 (hw.rom 0xFFFFFF) = -258))
          ∧ ¬ (sext16 (hw.rom 0x59) = 0x96
              ∧ (sext16 (hw.rom 0x56) % 256 = 0x52 ∨ sext16 (hw.rom 0x56) % 256 = 0x56
                ∨ sext16 (hw.rom 0x56) % 256 = 0x47)))
    ∧ ((-3 : Int) = -(0x0002 : Int) - 1 ∧ (-258 : Int) = -(0x0101 : Int) - 1
        ∧ 'R'.toNat = 0x52 ∧ 'V'.toNat = 0x56 ∧ 'G'.toNat = 0x47) := by
  refine ⟨?_, ?_, ?_, n64_has_motor_flag hw, ?_, ?_, ?_, ?_, gc_has_motor_flag hw, ?_, ?_,
    by decide⟩
  all_goals
    (first | unfold N64.has_motor | unfold GC.has_motor)
    split_ifs <;> simp_all <;> omega

/-- C18 at concrete cartridges: the header `0x96` with maker letter R is the GPIO-toggle kind
in both variants; with maker letter G it is none in variant 1 and the GPIO-bit variant in
variant 2. -/
theorem c18_has_motor_table_witness :
    (N64.has_motor gpioCart).1 = N64.Rumble.RUMBLE_GBA
    ∧ (GC.has_motor gpioCart).1 = GC.Rumble.RUMBLE_GBA
    ∧ (N64.has_motor omegaCart).1 = N64.Rumble.RUMBLE_NONE
    ∧ (GC.has_motor omegaCart).1 = GC.Rumble.RUMBLE_EZFLASH_OMEGA_DE :=
  ⟨(c18_has_motor_table gpioCart).2.2.1.mpr (by decide),
   (c18_has_motor_table gpioCart).2.2.2.2.2.2.1.mpr (by decide),
   (c18_has_motor_table omegaCart).2.2.2.2.2.2.2.2.2.1.mpr (by decide),
   (c18_has_motor_table omegaCart).2.2.2.2.2.2.2.1.mpr (by decide)⟩


theorem n64_set_motor_ident (r : N64.Rumble) (hw : Hardware) (en : Bool) :
    N64.has_motor (N64.set_motor r hw en) = N64.has_motor hw := by
  apply n64_has_motor_of_rom <;> cases r <;> cases en <;>
    simp [N64.set_motor, store, GPIODATA_IX, GPIODIR_IX]

theorem gc_has_motor_of_rom (hw hw2 : Hardware) (h59 : hw2.rom 0x59 = hw.rom 0x59)
    (h56 : hw2.rom 0x56 = hw.rom 0x56) (hend : hw2.rom 0xFFFFFF = hw.rom 0xFFFFFF) :
    GC.has_motor hw2 = GC.has_motor hw := by
  simp [GC.has_motor, h59, h56, hend]

theorem gc_set_motor_ident (r : GC.Rumble) (hw : Hardware) (en : Bool) :
    GC.has_motor (GC.set_motor r hw en) = GC.has_motor hw := by
  apply gc_has_motor_of_rom <;> cases r <;> cases en <;>
    simp [GC.set_motor, store, GPIODATA_IX, GPIODIR_IX]

theorem gc_poll_hw (s : GC.State) (f : Frame) (keyinput : Nat) :
    GC.has_motor (GC.poll s f keyinput).state.hw = GC.has_motor s.hw := by
  by_cases hlen : f.len < 9
  · rw [gc_poll_of_short s f keyinput hlen]
    rfl
  · rw [(gc_poll_state s f keyinput hlen).1, (gc_finish_rest _).2.1, gc_set_motor_ident,
      (gc_dispatch_rest _).2.1, (gc_atDispatch_id s f keyinput).2.2.2]

/-- The rumble kind and the hardware after an N64 poll cycle: only an accepted Write to the
top half classifies the cartridge and may drive the motor. -/
theorem n64_poll_rumble (s : N64.State) (f : Frame) (keyinput : Nat) :
    (N64.poll s f keyinput).state.rumble
        = (if f.buf 0 = N64.CMD_WRITE ∧ f.len = 281
              ∧ crc5 (N64.address f.buf) = f.buf 2 &&& 0x1F
              ∧ (N64.address f.buf &&& 0x8000) = 0x8000
           then (N64.has_motor s.hw).1 else s.rumble)
      ∧ N64.has_motor (N64.poll s f keyinput).state.hw = N64.has_motor s.hw := by
  by_cases hw : f.buf 0 = N64.CMD_WRITE ∧ f.len = 281
  · obtain ⟨hop, hlen⟩ := hw
    rw [n64_poll_write s f keyinput hop hlen]
    by_cases hc : crc5 (N64.address f.buf) = f.buf 2 &&& 0x1F
    · have hc2 : crc5 (N64.address (N64.received s f).buffer)
          = (N64.received s f).buffer 2 &&& 0x1F := hc
      rw [n64_cmdWrite_hw _ hc2]
      constructor
      · simp only [N64.cmdWrite, N64.received, hc, ne_eq, not_true_eq_false, if_false, hop, hlen,
          true_and]
        split_ifs <;> rfl
      · split_ifs
        · exact n64_set_motor_ident _ _ _
        · rfl
    · have hc2 : crc5 (N64.address (N64.received s f).buffer)
          ≠ (N64.received s f).buffer 2 &&& 0x1F := hc
      rw [n64_cmdWrite_drop _ hc2]
      simp [hc, N64.received]
  · rw [if_neg (fun h => hw ⟨h.1, h.2.1⟩)]
    unfold N64.poll
    simp only []
    split_ifs with h1 h2 h3 h4 h5 h6 h7 h8 h9
    · exact ⟨rfl, rfl⟩
    · exact ⟨rfl, rfl⟩
    · exact ⟨rfl, rfl⟩
    · simp only [N64.cmdStatus]
      split_ifs <;> exact ⟨rfl, rfl⟩
    · exact ⟨rfl, rfl⟩
    · simp only [N64.cmdRead]
      split_ifs <;> exact ⟨rfl, rfl⟩
    · exact ⟨rfl, rfl⟩
    · exact absurd ⟨h8, h9⟩ hw
    · exact ⟨rfl, rfl⟩
    · exact ⟨rfl, rfl⟩

/-- C19 as stated fails in variant 1: the session starts with no kind stored, and the first
accepted Write to the top half stores the GPIO-toggle kind of the inserted cartridge, whose
identification bytes did not change. -/
theorem c19_rumble_immutable_counterexample :
    (N64.bootState gpioCart).rumble = N64.Rumble.RUMBLE_NONE
    ∧ (N64.poll (N64.bootState gpioCart) (frameOf [0x03, 0x80, 0x01, 0x01] 281)
        0x3FF).state.rumble = N64.Rumble.RUMBLE_GBA
    ∧ (N64.poll (N64.bootState gpioCart) (frameOf [0x03, 0x80, 0x01, 0x01] 281)
        0x3FF).state.hw.rom 0x59 = gpioCart.rom 0x59
    ∧ (N64.poll (N64.bootState gpioCart) (frameOf [0x03, 0x80, 0x01, 0x01] 281)
        0x3FF).state.hw.rom 0x56 = gpioCart.rom 0x56
    ∧ (N64.poll (N64.bootState gpioCart) (frameOf [0x03, 0x80, 0x01, 0x01] 281)
        0x3FF).state.hw.rom 0xFFFFFF = gpioCart.rom 0xFFFFFF := by
  decide

/-- C19 amended: no poll cycle changes the classification `has_motor` reads from the
cartridge.  In variant 2 the stored rumble kind (and `hasMotor`) is set once by
`profileSelect` and has the same value before and after every poll cycle.  In variant 1 the
stored kind is rewritten by every accepted Write to the top half of the address space with
the classification of the cartridge, and left unchanged by every other cycle; hence once it
equals that classification it has the same value before and after every poll cycle. -/
theorem c19_rumble_immutable :
    (∀ (s : GC.State) (f : Frame) (keyinput : Nat),
        (GC.poll s f keyinput).state.rumble = s.rumble
        ∧ (GC.poll s f keyinput).state.hasMotor = s.hasMotor
        ∧ GC.has_motor (GC.poll s f keyinput).state.hw = GC.has_motor s.hw)
    ∧ (∀ (s : GC.State) (hw : Hardware) (p : Int) (cfg : Nat → Int) (pk : Bool),
        (GC.sessionStart s hw p cfg pk).rumble = (GC.has_motor hw).1)
    ∧ (∀ (s : N64.State) (f : Frame) (keyinput : Nat),
        (N64.poll s f keyinput).state.rumble
          = (if f.buf 0 = N64.CMD_WRITE ∧ f.len = 281
                ∧ crc5 (N64.address f.buf) = f.buf 2 &&& 0x1F
                ∧ (N64.address f.buf &&& 0x8000) = 0x8000
             then (N64.has_motor s.hw).1 else s.rumble)
        ∧ N64.has_motor (N64.poll s f keyinput).state.hw = N64.has_motor s.hw)
    ∧ (∀ (s : N64.State) (f : Frame) (keyinput : Nat),
        s.rumble = (N64.has_motor s.hw).1 →
        (N64.poll s f keyinput).state.rumble = s.rumble
        ∧ (N64.poll s f keyinput).state.rumble
            = (N64.has_motor (N64.poll s f keyinput).state.hw).1) := by
  refine ⟨fun s f keyinput => ⟨(gc_poll_rumble s f keyinput).1, (gc_poll_rumble s f keyinput).2,
    gc_poll_hw s f keyinput⟩, fun _ _ _ _ _ => rfl, n64_poll_rumble, fun s f keyinput h => ?_⟩
  obtain ⟨h1, h2⟩ := n64_poll_rumble s f keyinput
  have h3 : (N64.poll s f keyinput).state.rumble = s.rumble := by
    rw [h1]
    split_ifs
    · exact h.symm
    · rfl
  exact ⟨h3, by rw [h3, h2, h]⟩

/-- C19 amended, at concrete sessions: after the first top-half Write the N64 kind stays the
GPIO-toggle kind through a Read, and the GameCube kind chosen at session start survives a
Status that asks for rumble. -/
theorem c19_rumble_immutable_witness :
    (N64.poll N64.afterRumbleWrite (frameOf [0x02, 0x80, 0x01] 25) 0x3FF).state.rumble
        = N64.Rumble.RUMBLE_GBA
    ∧ (GC.poll (GC.bootState gpioCart 1) (frameOf [0x40, 0x00, 0x01] 25) 0x3FF).state.rumble
        = GC.Rumble.RUMBLE_GBA :=
  ⟨((c19_rumble_immutable.2.2.2 N64.afterRumbleWrite (frameOf [0x02, 0x80, 0x01] 25) 0x3FF
      (by decide)).1).trans (by decide),
   ((c19_rumble_immutable.1 (GC.bootState gpioCart 1) (frameOf [0x40, 0x00, 0x01] 25)
      0x3FF).1).trans (by decide)⟩


theorem testBit_or_8 (x i : Nat) : (x ||| 8).testBit i = (x.testBit i || decide (i = 3)) := by
  rw [Nat.testBit_or]
  have h : (8 : Nat) = 2 ^ 3 := rfl
  rw [h, Nat.testBit_two_pow]
  by_cases h3 : i = 3
  · simp [h3]
  · have h4 : ¬ 3 = i := fun e => h3 e.symm
    simp [h3, h4]

theorem testBit_fff7 : ∀ i, i < 16 → (0xFFF7 : Nat).testBit i = decide (i ≠ 3) := by
  decide

theorem testBit_and_fff7 (x i : Nat) (hx : x < 65536) :
    (x &&& 0xFFF7).testBit i = (x.testBit i && decide (i ≠ 3)) := by
  rw [Nat.testBit_and]
  by_cases hi : i < 16
  · rw [testBit_fff7 i hi]
  · have hlt : x < 2 ^ i :=
      lt_of_lt_of_le hx (by
        have : (65536 : Nat) = 2 ^ 16 := rfl
        rw [this]
        exact Nat.pow_le_pow_right (by decide) (by omega))
    rw [Nat.testBit_lt_two_pow hlt]
    simp

/-- C20: frame conditions of `set_motor` (variant 2).  For kind none, `set_motor(enable)`
leaves every hardware register unchanged for both values of `enable`.  For the GPIO-bit
variant, `set_motor(enable)` sets bit 3 of the 16-bit GPIO data register to `enable`, leaves
every other bit of that register unchanged, and leaves every other cell of the cartridge
space and the DMA registers unchanged. -/
theorem c20_set_motor_frame (hw : Hardware) (enable : Bool)
    (h16 : hw.rom GPIODATA_IX < 65536) :
    GC.set_motor GC.Rumble.RUMBLE_NONE hw enable = hw
    ∧ (GC.set_motor GC.Rumble.RUMBLE_EZFLASH_OMEGA_DE hw enable).rom GPIODATA_IX < 65536
    ∧ ((GC.set_motor GC.Rumble.RUMBLE_EZFLASH_OMEGA_DE hw enable).rom GPIODATA_IX).testBit 3
        = enable
    ∧ (∀ i, i ≠ 3 →
        ((GC.set_motor GC.Rumble.RUMBLE_EZFLASH_OMEGA_DE hw enable).rom GPIODATA_IX).testBit i
          = (hw.rom GPIODATA_IX).testBit i)
    ∧ (∀ j, j ≠ GPIODATA_IX →
        (GC.set_motor GC.Rumble.RUMBLE_EZFLASH_OMEGA_DE hw enable).rom j = hw.rom j)
    ∧ (GC.set_motor GC.Rumble.RUMBLE_EZFLASH_OMEGA_DE hw enable).dma3sad = hw.dma3sad
    ∧ (GC.set_motor GC.Rumble.RUMBLE_EZFLASH_OMEGA_DE hw enable).dma3dad = hw.dma3dad
    ∧ (GC.set_motor GC.Rumble.RUMBLE_EZFLASH_OMEGA_DE hw enable).dma3cnt = hw.dma3cnt := by
  refine ⟨rfl, ?_, ?_, fun i hi => ?_, fun j hj => ?_, ?_, ?_, ?_⟩
  · cases enable
    · simp only [GC.set_motor, Bool.false_eq_true, if_false, store_same]
      exact lt_of_le_of_lt Nat.and_le_left h16
    · simp only [GC.set_motor, if_true, store_same]
      have h : hw.rom GPIODATA_IX < 2 ^ 16 := h16
      have h8 : (8 : Nat) < 2 ^ 16 := by decide
      exact Nat.or_lt_two_pow h h8
  · cases enable
    · simp only [GC.set_motor, Bool.false_eq_true, if_false, store_same]
      rw [testBit_and_fff7 _ _ h16]
      simp
    · simp only [GC.set_motor, if_true, store_same]
      rw [testBit_or_8]
      simp
  · cases enable
    · simp only [GC.set_motor, Bool.false_eq_true, if_false, store_same]
      rw [testBit_and_fff7 _ _ h16]
      simp [hi]
    · simp only [GC.set_motor, if_true, store_same]
      rw [testBit_or_8]
      simp [hi]
  · cases enable <;> simp [GC.set_motor, store, hj]
  · cases enable <;> rfl
  · cases enable <;> rfl
  · cases enable <;> rfl

/-- C20 at a concrete register: with `0x1234` in the GPIO data register the GPIO-bit variant
writes `0x123C` to switch on and `0x1234` to switch off, by the theorem bit 3 is the only
bit that moves. -/
theorem c20_set_motor_frame_witness :
    ((GC.set_motor GC.Rumble.RUMBLE_EZFLASH_OMEGA_DE omegaCart true).rom GPIODATA_IX).testBit 3
        = true
    ∧ ((GC.set_motor GC.Rumble.RUMBLE_EZFLASH_OMEGA_DE omegaCart false).rom
        GPIODATA_IX).testBit 3 = false
    ∧ (GC.set_motor GC.Rumble.RUMBLE_EZFLASH_OMEGA_DE omegaCart true).rom GPIODATA_IX = 0x123C
    ∧ (GC.set_motor GC.Rumble.RUMBLE_EZFLASH_OMEGA_DE omegaCart false).rom GPIODATA_IX
        = 0x1234 :=
  ⟨(c20_set_motor_frame omegaCart true (by decide)).2.2.1,
   (c20_set_motor_frame omegaCart false (by decide)).2.2.1, by decide, by decide⟩

/-! ## Profile validation -/

theorem isGameProfileValid_inner_false (cfg : Nat → Int) (n : Int) (fuel i : Nat) :
    isGameProfileValid_inner cfg n (fuel + 1) i false = some false := by
  simp [isGameProfileValid_inner]

theorem isGameProfileValid_inner_spec (cfg : Nat → Int) (n : Int) :
    ∀ d i fuel, i + d = 6 → d + 2 ≤ fuel →
      ∃ v, isGameProfileValid_inner cfg n fuel i true = some v
        ∧ (v = true ↔ ∀ j, i ≤ j → j < 6 → n ≠ cfg j) := by
  intro d
  induction d with
  | zero =>
    intro i fuel hi hf
    obtain ⟨F, rfl⟩ : ∃ F, fuel = F + 1 := ⟨fuel - 1, by omega⟩
    have h6 : ¬ (i < 6) := by omega
    refine ⟨true, by simp [isGameProfileValid_inner, h6], ?_⟩
    simp only [true_iff]
    intro j h1 h2
    omega
  | succ d ih =>
    intro i fuel hi hf
    obtain ⟨F, rfl⟩ : ∃ F, fuel = F + 1 := ⟨fuel - 1, by omega⟩
    have h6 : i < 6 := by omega
    by_cases hn : n = cfg i
    · obtain ⟨G, rfl⟩ : ∃ G, F = G + 1 := ⟨F - 1, by omega⟩
      refine ⟨false, ?_, ?_⟩
      · rw [isGameProfileValid_inner]
        simp only [h6, true_and, if_true, if_pos hn]
        exact isGameProfileValid_inner_false cfg n G i
      · constructor
        · intro h
          cases h
        · intro h
          exact absurd hn (h i (le_refl i) h6)
    · obtain ⟨v, hv, hiff⟩ := ih (i + 1) F (by omega) (by omega)
      refine ⟨v, ?_, ?_⟩
      · rw [isGameProfileValid_inner]
        simp only [h6, true_and, if_true, if_neg hn]
        exact hv
      · rw [hiff]
        constructor
        · intro h j h1 h2
          rcases Nat.eq_or_lt_of_le h1 with he | hl
          · rw [← he]
            exact hn
          · exact h j hl h2
        · intro h j h1 h2
          exact h j (by omega) h2

theorem isGameProfileValid_outer_spec (cfg : Nat → Int) :
    ∀ d k fuel, k + d = 6 → d + 2 ≤ fuel →
      ∃ v, isGameProfileValid_outer cfg fuel k true = some v
        ∧ (v = true ↔ ∀ a, k ≤ a → ∀ b, a < b → b < 6 → cfg a ≠ cfg b) := by
  intro d
  induction d with
  | zero =>
    intro k fuel hk hf
    obtain ⟨F, rfl⟩ : ∃ F, fuel = F + 1 := ⟨fuel - 1, by omega⟩
    have h6 : ¬ (k < 6) := by omega
    refine ⟨true, by simp [isGameProfileValid_outer, h6], ?_⟩
    simp only [true_iff]
    intro a h1 b h2 h3
    omega
  | succ d ih =>
    intro k fuel hk hf
    obtain ⟨F, rfl⟩ : ∃ F, fuel = F + 1 := ⟨fuel - 1, by omega⟩
    have h6 : k < 6 := by omega
    obtain ⟨v1, hv1, hiff1⟩ :=
      isGameProfileValid_inner_spec cfg (cfg k) d (k + 1) F (by omega) (by omega)
    cases v1 with
    | false =>
      obtain ⟨G, rfl⟩ : ∃ G, F = G + 1 := ⟨F - 1, by omega⟩
      refine ⟨false, ?_, ?_⟩
      · rw [isGameProfileValid_outer]
        simp only [h6, true_and, if_true, hv1]
        simp [isGameProfileValid_outer]
      · constructor
        · intro h
          cases h
        · intro h
          exact hiff1.mpr (fun j h1 h2 => h k (le_refl k) j (by omega) h2)
    | true =>
      obtain ⟨v, hv, hiff⟩ := ih (k + 1) F (by omega) (by omega)
      have hrow := hiff1.mp rfl
      refine ⟨v, ?_, ?_⟩
      · rw [isGameProfileValid_outer]
        simp only [h6, true_and, if_true, hv1]
        exact hv
      · rw [hiff]
        constructor
        · intro h a h1 b h2 h3
          rcases Nat.eq_or_lt_of_le h1 with he | hl
          · rw [← he]
            exact hrow b (by omega) h3
          · exact h a hl b h2 h3
        · intro h a h1 b h2 h3
          exact h a (by omega) b h2 h3

/-- C21: `isGameProfileValid` returns on every table (eight evaluations of a loop condition
per loop are enough), its result is `true` exactly when the six entries are pairwise
distinct, and the built-in default tables of both variants are valid. -/
theorem c21_profile_valid (cfg : Nat → Int) (fuel : Nat) (hfuel : 8 ≤ fuel) :
    (∃ v, isGameProfileValid fuel cfg = some v
      ∧ (v = true ↔ ∀ i, i < 6 → ∀ j, j < 6 → i ≠ j → cfg i ≠ cfg j))
    ∧ isGameProfileValid fuel N64.defaultProfileConfig = some true
    ∧ isGameProfileValid fuel GC.aDefaultProfileConfig = some true := by
  have key : ∀ c : Nat → Int, ∃ v, isGameProfileValid fuel c = some v
      ∧ (v = true ↔ ∀ i, i < 6 → ∀ j, j < 6 → i ≠ j → c i ≠ c j) := by
    intro c
    obtain ⟨v, hv, hiff⟩ := isGameProfileValid_outer_spec c 6 0 fuel rfl (by omega)
    refine ⟨v, hv, ?_⟩
    rw [hiff]
    constructor
    · intro h i hi j hj hij
      rcases Nat.lt_or_gt_of_ne hij with hl | hg
      · exact h i (Nat.zero_le i) j hl hj
      · exact fun e => h j (Nat.zero_le j) i hg hi e.symm
    · intro h a _ b h2 h3
      exact h a (by omega) b h3 (by omega)
  refine ⟨key cfg, ?_, ?_⟩
  · obtain ⟨v, hv, hiff⟩ := key N64.defaultProfileConfig
    have : v = true := hiff.mpr (by decide)
    rw [hv, this]
  · obtain ⟨v, hv, hiff⟩ := key GC.aDefaultProfileConfig
    have : v = true := hiff.mpr (by decide)
    rw [hv, this]

/-- C21 at a table that maps slots A and B to the same target: the function returns
`false`; the defaults return `true`. -/
theorem c21_profile_valid_witness :
    8 ≤ 8
    ∧ ((∃ v, isGameProfileValid 8 (tableOf [0, 0, 2, 3, 4, 5]) = some v
        ∧ (v = true ↔ ∀ i, i < 6 → ∀ j, j < 6 → i ≠ j →
            tableOf [0, 0, 2, 3, 4, 5] i ≠ tableOf [0, 0, 2, 3, 4, 5] j))
      ∧ isGameProfileValid 8 N64.defaultProfileConfig = some true
      ∧ isGameProfileValid 8 GC.aDefaultProfileConfig = some true)
    ∧ isGameProfileValid 8 (tableOf [0, 0, 2, 3, 4, 5]) = some false
    ∧ isGameProfileValid 8 (tableOf [0, 1, 2, 3, 4, 0]) = some false :=
  ⟨by decide, c21_profile_valid (tableOf [0, 0, 2, 3, 4, 5]) 8 (by decide), by decide,
    by decide⟩

/-! ## Checksum tables -/

theorem lsbSteps_8_128 (p : Nat) : lsbSteps p 8 128 = p := by
  simp [lsbSteps, lsbStep, Nat.testBit]

theorem lsbSteps_5_16 (p : Nat) : lsbSteps p 5 16 = p := by
  simp [lsbSteps, lsbStep, Nat.testBit]

theorem getD_map_range (f : Nat → Nat) (n i : Nat) (h : i < n) :
    ((List.range n).map f).getD i 0 = f i := by
  simp [List.getD_eq_getElem?_getD, h]

set_option maxRecDepth 100000 in
theorem crc8_lut_eq : crc8_lut = (List.range 256).map (msbSteps 8 0x85 8) := by
  decide

theorem crc5_lut_eq : crc5_lut = (List.range 32).map (msbSteps 5 0x15 5) := by
  decide

theorem crc8_lut_msb (i : Nat) (h : i < 256) : crc8_lut.getD i 0 = msbSteps 8 0x85 8 i := by
  rw [crc8_lut_eq, getD_map_range _ _ _ h]

theorem crc5_lut_msb (i : Nat) (h : i < 32) : crc5_lut.getD i 0 = msbSteps 5 0x15 5 i := by
  rw [crc5_lut_eq, getD_map_range _ _ _ h]

/-- C22 as stated fails: no polynomial `p` makes `crc8_lut` the table of eight LSB-first
steps (index `0x80` forces `p = 0x89`, and index 1 then gives `0xA4`, not `0x85`), and no
`p` makes `crc5_lut` the table of five LSB-first steps. -/
theorem c22_tables_counterexample :
    (¬ ∃ p, ∀ i, i < 256 → crc8_lut.getD i 0 = lsbSteps p 8 i)
    ∧ (¬ ∃ p, ∀ i, i < 32 → crc5_lut.getD i 0 = lsbSteps p 5 i)
    ∧ lsbSteps 0x89 8 1 = 0xA4 ∧ crc8_lut.getD 1 0 = 0x85 := by
  refine ⟨?_, ?_, by decide, by decide⟩
  · rintro ⟨p, hp⟩
    have h1 := hp 128 (by decide)
    rw [lsbSteps_8_128] at h1
    have h2 := hp 1 (by decide)
    rw [← h1] at h2
    revert h2
    decide
  · rintro ⟨p, hp⟩
    have h1 := hp 16 (by decide)
    rw [lsbSteps_5_16] at h1
    have h2 := hp 1 (by decide)
    rw [← h1] at h2
    revert h2
    decide

/-- C22 amended: both tables are MSB-first (non-reflected) tables. `crc8_lut[i]` is the
result of eight MSB-first steps on `i` in an 8-bit register with polynomial byte `0x85`,
and `crc5_lut[i]` the result of five MSB-first steps in a 5-bit register with `0x15`. -/
theorem c22_tables :
    (∀ i, i < 256 → crc8_lut.getD i 0 = msbSteps 8 0x85 8 i)
    ∧ (∀ i, i < 32 → crc5_lut.getD i 0 = msbSteps 5 0x15 5 i) :=
  ⟨crc8_lut_msb, crc5_lut_msb⟩

/-- C22 amended, at index 1 of each table: one set bit travels to the top and the
polynomial comes out. -/
theorem c22_tables_witness :
    crc8_lut.getD 1 0 = msbSteps 8 0x85 8 1 ∧ msbSteps 8 0x85 8 1 = 0x85
    ∧ crc5_lut.getD 1 0 = msbSteps 5 0x15 5 1 ∧ msbSteps 5 0x15 5 1 = 0x15 :=
  ⟨c22_tables.1 1 (by decide), by decide, c22_tables.2 1 (by decide), by decide⟩

/-! ## Re-arming of mode and motor, and the motor command of a cycle -/

theorem gc_dispatch_recalibrate (s : GC.State)
    (hop : s.buffer 0 = GC.CMD_RECALIBRATE ∨ s.buffer 0 = GC.CMD_STATUS_LONG)
    (hlen : s.nSiCmdLen = 25) :
    (GC.dispatch s).2 = some ⟨s.origin.bytes, 80⟩ := by
  have h1 : ¬ (s.buffer 0 = GC.CMD_RESET ∨ s.buffer 0 = GC.CMD_ID) := by
    simp only [GC.CMD_RESET, GC.CMD_ID, GC.CMD_RECALIBRATE, GC.CMD_STATUS_LONG] at hop ⊢
    omega
  have h2 : ¬ (s.buffer 0 = GC.CMD_STATUS) := by
    simp only [GC.CMD_STATUS, GC.CMD_RECALIBRATE, GC.CMD_STATUS_LONG] at hop ⊢
    omega
  have h3 : ¬ (s.buffer 0 = GC.CMD_ORIGIN) := by
    simp only [GC.CMD_ORIGIN, GC.CMD_RECALIBRATE, GC.CMD_STATUS_LONG] at hop ⊢
    omega
  simp only [GC.dispatch, if_neg h1, if_neg h2, if_neg h3, if_pos hop, if_pos hlen]

theorem gc_origin_bytes_length (o : GC.Origin) : o.bytes.length = 10 := by
  simp [GC.Origin.bytes, gc_buttons_bytes_length]

theorem gc_poll_motor (s : GC.State) (f : Frame) (keyinput : Nat) (hlen : ¬ f.len < 9) :
    (GC.poll s f keyinput).motor
      = some (decide (gbaInputOf keyinput ≠ SOFTRESET_INPUT
          ∧ (GC.poll s f keyinput).state.id.motor = GC.MOTOR_RUMBLE)) := by
  have hm : (GC.poll s f keyinput).motor
      = some (GC.motorArg (GC.dispatch (GC.atDispatch s f keyinput)).1) := by
    rw [gc_poll_of_long s f keyinput hlen]
    rfl
  have hsr : (GC.dispatch (GC.atDispatch s f keyinput)).1.softReset
      = decide (gbaInputOf keyinput = SOFTRESET_INPUT) := by
    rw [gc_dispatch_softReset]
    unfold GC.atDispatch
    rw [gc_prepare_softReset]
  rw [hm, (gc_poll_state s f keyinput hlen).1, (gc_finish_rest _).2.2.2.2.1]
  unfold GC.motorArg
  rw [hsr]
  by_cases h : gbaInputOf keyinput = SOFTRESET_INPUT <;> simp [h]

/-- C23 as stated fails on two counts.  A cycle whose frame has fewer than 9 bits ends
before the motor call: in a session whose stored motor field is 1, with no key held, an
8-bit frame commands nothing.  And the motor is held off by the soft-reset flag, which is an
exact match: with A, B, Start and Select held together with L (snapshot `0x1F0`) a Status
frame asking for rumble commands the motor on. -/
theorem c23_motor_rearm_counterexample :
    GC.afterRumbleStatus.id.motor = GC.MOTOR_RUMBLE
    ∧ gbaInputOf 0x3FF ≠ SOFTRESET_INPUT
    ∧ (GC.poll GC.afterRumbleStatus (frameOf [0x40] 8) 0x3FF).state.id.motor = GC.MOTOR_RUMBLE
    ∧ (GC.poll GC.afterRumbleStatus (frameOf [0x40] 8) 0x3FF).motor = none
    ∧ keyDown (gbaInputOf 0x1F0) KEY_A = true ∧ keyDown (gbaInputOf 0x1F0) KEY_B = true
    ∧ keyDown (gbaInputOf 0x1F0) KEY_START = true ∧ keyDown (gbaInputOf 0x1F0) KEY_SELECT = true
    ∧ (GC.poll (GC.bootState plainCart 1) (frameOf [0x40, 0x03, 0x01] 25) 0x1F0).motor
        = some true := by
  decide

/-- C23 amended: in variant 2, on every Status, Recalibrate or Long-Status frame of 25 bits
the mode field becomes request byte 1 modulo 8 and the motor field becomes request byte 2
modulo 4, and the response to Recalibrate and Long-Status is the 10-byte origin record as the
profile step of the cycle left it.  Every cycle that received at least 9 bits ends with one
motor command, which is on exactly when the snapshot is not the soft-reset snapshot (A, B,
Start and Select and nothing else) and the stored motor field equals 1; so the command is off
in every such cycle that handles a Reset opcode and in the soft-reset cycle.  A cycle that
received fewer than 9 bits commands nothing. -/
theorem c23_motor_rearm (s : GC.State) (f : Frame) (keyinput : Nat) :
    (f.len = 25 →
        f.buf 0 = GC.CMD_STATUS ∨ f.buf 0 = GC.CMD_RECALIBRATE ∨ f.buf 0 = GC.CMD_STATUS_LONG →
        (GC.poll s f keyinput).state.id.mode = f.buf 1 % 8
        ∧ (GC.poll s f keyinput).state.id.motor = f.buf 2 % 4)
    ∧ (f.len = 25 → f.buf 0 = GC.CMD_RECALIBRATE ∨ f.buf 0 = GC.CMD_STATUS_LONG →
        (GC.poll s f keyinput).response
          = some ⟨(GC.atDispatch s f keyinput).origin.bytes, 80⟩
        ∧ (GC.atDispatch s f keyinput).origin.bytes.length = 10)
    ∧ (¬ f.len < 9 →
        (GC.poll s f keyinput).motor
          = some (decide (gbaInputOf keyinput ≠ SOFTRESET_INPUT
              ∧ (GC.poll s f keyinput).state.id.motor = GC.MOTOR_RUMBLE))
        ∧ (f.buf 0 = GC.CMD_RESET → (GC.poll s f keyinput).motor = some false)
        ∧ (gbaInputOf keyinput = SOFTRESET_INPUT → (GC.poll s f keyinput).motor = some false))
    ∧ (f.len < 9 → (GC.poll s f keyinput).motor = none) := by
  refine ⟨?_, ?_, ?_, ?_⟩
  · intro hlen hop
    have h9 : ¬ f.len < 9 := by omega
    have h := gc_poll_id_fields s f keyinput h9
    rw [if_pos ⟨hop, hlen⟩, if_pos ⟨hop, hlen⟩] at h
    exact h
  · intro hlen hop
    have h9 : ¬ f.len < 9 := by omega
    refine ⟨?_, gc_origin_bytes_length _⟩
    rw [(gc_poll_state s f keyinput h9).2]
    apply gc_dispatch_recalibrate
    · rw [(gc_atDispatch_frame s f keyinput).1]
      exact hop
    · rw [(gc_atDispatch_frame s f keyinput).2]
      exact hlen
  · intro h9
    have hm := gc_poll_motor s f keyinput h9
    refine ⟨hm, ?_, ?_⟩
    · intro hop
      have h := (gc_poll_id_fields s f keyinput h9).2
      have hne : ¬ ((f.buf 0 = GC.CMD_STATUS ∨ f.buf 0 = GC.CMD_RECALIBRATE
          ∨ f.buf 0 = GC.CMD_STATUS_LONG) ∧ f.len = 25) := by
        simp only [GC.CMD_STATUS, GC.CMD_RECALIBRATE, GC.CMD_STATUS_LONG, GC.CMD_RESET] at hop ⊢
        omega
      rw [if_neg hne, if_pos hop] at h
      rw [hm, h]
      simp [GC.MOTOR_STOP, GC.MOTOR_RUMBLE]
    · intro hsr
      rw [hm]
      simp [hsr]
  · intro hlen
    rw [gc_poll_of_short s f keyinput hlen]

/-- C23 amended, at a Long-Status frame with mode 3 and rumble requested, no key held: the
fields are re-armed, the answer is the origin record and the motor is commanded on. -/
theorem c23_motor_rearm_witness :
    (GC.poll (GC.bootState plainCart 1) (frameOf [0x43, 0x03, 0x01] 25) 0x3FF).state.id.mode = 3
    ∧ (GC.poll (GC.bootState plainCart 1) (frameOf [0x43, 0x03, 0x01] 25) 0x3FF).state.id.motor
        = 1
    ∧ (GC.poll (GC.bootState plainCart 1) (frameOf [0x43, 0x03, 0x01] 25) 0x3FF).response
        = some ⟨[0x00, 0x80, 128, 128, 128, 128, 0, 0, 0, 0], 80⟩
    ∧ (GC.poll (GC.bootState plainCart 1) (frameOf [0x43, 0x03, 0x01] 25) 0x3FF).motor
        = some true
    ∧ (GC.poll GC.afterRumbleStatus (frameOf [0xFF] 9) 0x3FF).motor = some false
    ∧ (GC.poll GC.afterRumbleStatus (frameOf [0x43, 0x03, 0x01] 25) 0x3F0).motor = some false :=
  ⟨((c23_motor_rearm (GC.bootState plainCart 1) (frameOf [0x43, 0x03, 0x01] 25) 0x3FF).1
      (by decide) (by decide)).1,
   by decide, by decide, by decide, by decide, by decide⟩

/-! ## Exclusive-or algebra of the address checksum -/

theorem shiftRight_xor (a b k : Nat) : (a ^^^ b) >>> k = (a >>> k) ^^^ (b >>> k) := by
  apply Nat.eq_of_testBit_eq
  intro i
  simp

theorem shiftLeft_xor (a b k : Nat) : (a ^^^ b) <<< k = (a <<< k) ^^^ (b <<< k) := by
  apply Nat.eq_of_testBit_eq
  intro i
  simp only [Nat.testBit_shiftLeft, Nat.testBit_xor]
  cases decide (i ≥ k) <;> simp

theorem and_32768 (a : Nat) : (a &&& 0x8000 ≠ 0) ↔ a.testBit 15 = true := by
  have h2 : (0x8000 : Nat) = 2 ^ 15 := by norm_num
  rw [h2]
  constructor
  · intro h
    by_contra hb
    apply h
    apply Nat.eq_of_testBit_eq
    intro i
    rw [Nat.testBit_and, Nat.testBit_two_pow, Nat.zero_testBit]
    by_cases hi : 15 = i
    · subst hi
      simp [hb]
    · simp [hi]
  · intro h he
    have h3 : (a &&& 2 ^ 15).testBit 15 = true := by
      rw [Nat.testBit_and, h, Nat.testBit_two_pow_self]
      rfl
    rw [he, Nat.zero_testBit] at h3
    cases h3

theorem crc5_lut_lt : ∀ x, x < 32 → crc5_lut.getD x 0 < 32 := by
  decide

theorem crc5_lut_xor :
    ∀ x, x < 32 → ∀ y, y < 32 →
      crc5_lut.getD (x ^^^ y) 0 = crc5_lut.getD x 0 ^^^ crc5_lut.getD y 0 := by
  decide

theorem crc5_lut_injective :
    ∀ x, x < 32 → crc5_lut.getD x 0 = 0 → x = 0 := by
  decide

/-- The seed of `crc5`: `(addr & 0x8000) ? 0x15 : 0x00`. -/
theorem crc5_seed_xor (a b : Nat) :
    (if (a ^^^ b) &&& 0x8000 ≠ 0 then 0x15 else 0)
      = (if a &&& 0x8000 ≠ 0 then 0x15 else 0) ^^^ (if b &&& 0x8000 ≠ 0 then (0x15 : Nat) else 0) := by
  simp only [and_32768, Nat.testBit_xor]
  cases a.testBit 15 <;> cases b.testBit 15 <;> decide

theorem crc5_seed_lt (a : Nat) : (if a &&& 0x8000 ≠ 0 then 0x15 else 0) < 32 := by
  split_ifs <;> decide

theorem and_31_lt (x : Nat) : x &&& 0x1F < 32 :=
  Nat.and_lt_two_pow x (by decide : (0x1F : Nat) < 2 ^ 5)

theorem xor_lt_32 {x y : Nat} (hx : x < 32) (hy : y < 32) : x ^^^ y < 32 :=
  Nat.xor_lt_two_pow (by simpa using hx : x < 2 ^ 5) (by simpa using hy : y < 2 ^ 5)

theorem xor_swap_mid (a b c d : Nat) : (a ^^^ b) ^^^ (c ^^^ d) = (a ^^^ c) ^^^ (b ^^^ d) := by
  rw [Nat.xor_assoc, Nat.xor_assoc, ← Nat.xor_assoc b c d, Nat.xor_comm b c, Nat.xor_assoc c b d]

theorem crc5_lt (a : Nat) : crc5 a < 32 := by
  unfold crc5
  exact crc5_lut_lt _ (xor_lt_32 (crc5_lut_lt _ (xor_lt_32 (crc5_seed_lt a) (and_31_lt _)))
    (and_31_lt _))

/-- The address checksum is linear over exclusive or. -/
theorem crc5_xor (a b : Nat) : crc5 (a ^^^ b) = crc5 a ^^^ crc5 b := by
  unfold crc5
  simp only []
  rw [crc5_seed_xor, shiftRight_xor, shiftRight_xor, Nat.and_xor_distrib_right,
    Nat.and_xor_distrib_right, xor_swap_mid,
    crc5_lut_xor _ (xor_lt_32 (crc5_seed_lt a) (and_31_lt _)) _
      (xor_lt_32 (crc5_seed_lt b) (and_31_lt _)),
    xor_swap_mid,
    crc5_lut_xor _ (xor_lt_32 (crc5_lut_lt _ (xor_lt_32 (crc5_seed_lt a) (and_31_lt _)))
        (and_31_lt _)) _
      (xor_lt_32 (crc5_lut_lt _ (xor_lt_32 (crc5_seed_lt b) (and_31_lt _))) (and_31_lt _))]

/-- The address checksum reads its argument through `addr >> 5` only. -/
theorem crc5_of_shift (a b : Nat) (h : a >>> 5 = b >>> 5) : crc5 a = crc5 b := by
  have h15 : a.testBit 15 = b.testBit 15 := by
    have := congrArg (fun x => x.testBit 10) h
    simpa using this
  have h10 : a >>> 10 = b >>> 10 := by
    have := congrArg (fun x => x >>> 5) h
    simpa [← Nat.shiftRight_add] using this
  have hs : (if a &&& 0x8000 ≠ 0 then 0x15 else 0) = (if b &&& 0x8000 ≠ 0 then (0x15 : Nat) else 0) := by
    simp only [and_32768, h15]
  unfold crc5
  simp only []
  rw [hs, h10, h]
/-! ## The address checksum as a polynomial remainder -/

theorem xor_right_swap (a b c : Nat) : (a ^^^ b) ^^^ c = (a ^^^ c) ^^^ b := by
  rw [Nat.xor_assoc, Nat.xor_comm b c, ← Nat.xor_assoc]

theorem xor_both (a b e : Nat) : (a ^^^ e) ^^^ (b ^^^ e) = a ^^^ b := by
  rw [xor_swap_mid, Nat.xor_self, Nat.xor_zero]

theorem gf2_divmod_xor (p deg : Nat) :
    ∀ n q1 r1 q2 r2,
      gf2_divmod p deg n (q1 ^^^ q2, r1 ^^^ r2)
        = ((gf2_divmod p deg n (q1, r1)).1 ^^^ (gf2_divmod p deg n (q2, r2)).1,
           (gf2_divmod p deg n (q1, r1)).2 ^^^ (gf2_divmod p deg n (q2, r2)).2) := by
  intro n
  induction n with
  | zero =>
    intro q1 r1 q2 r2
    rfl
  | succ k ih =>
    intro q1 r1 q2 r2
    simp only [gf2_divmod, Nat.testBit_xor]
    cases h1 : r1.testBit (k + deg) <;> cases h2 : r2.testBit (k + deg)
    · simpa using ih q1 r1 q2 r2
    · simpa [Nat.xor_assoc] using ih q1 r1 (q2 ^^^ 1 <<< k) (r2 ^^^ p <<< k)
    · have := ih (q1 ^^^ 1 <<< k) (r1 ^^^ p <<< k) q2 r2
      rw [xor_right_swap q1 _ q2, xor_right_swap r1 _ r2] at this
      simpa using this
    · have := ih (q1 ^^^ 1 <<< k) (r1 ^^^ p <<< k) (q2 ^^^ 1 <<< k) (r2 ^^^ p <<< k)
      rw [xor_both, xor_both] at this
      simpa using this

theorem gf2_mul_xor (a q1 q2 : Nat) :
    ∀ n, gf2_mul a (q1 ^^^ q2) n = gf2_mul a q1 n ^^^ gf2_mul a q2 n := by
  intro n
  induction n with
  | zero => simp [gf2_mul]
  | succ k ih =>
    simp only [gf2_mul, Nat.testBit_xor, ih]
    cases q1.testBit k <;> cases q2.testBit k
    · simp
    · simp [Nat.xor_assoc]
    · simp [xor_right_swap]
    · simp [xor_both]

theorem gf2_divmod_small (p deg : Nat) :
    ∀ n q r, r < 2 ^ deg → gf2_divmod p deg n (q, r) = (q, r) := by
  intro n
  induction n with
  | zero =>
    intro q r _
    rfl
  | succ k ih =>
    intro q r hr
    have hb : r.testBit (k + deg) = false :=
      Nat.testBit_lt_two_pow (Nat.lt_of_lt_of_le hr (Nat.pow_le_pow_right (by decide) (by omega)))
    simp only [gf2_divmod, hb]
    exact ih q r hr

theorem split_low5 (m : Nat) : m = ((m >>> 5) <<< 5) ^^^ (m &&& 0x1F) := by
  apply Nat.eq_of_testBit_eq
  intro i
  have h31 : (0x1F : Nat) = 2 ^ 5 - 1 := by norm_num
  rw [Nat.testBit_xor, Nat.testBit_shiftLeft, Nat.testBit_shiftRight, Nat.testBit_and, h31,
    Nat.testBit_two_pow_sub_one]
  by_cases hi : i < 5
  · have : ¬ i ≥ 5 := by omega
    simp [hi, this]
  · have h5 : i ≥ 5 := by omega
    have e : 5 + (i - 5) = i := by omega
    simp [hi, h5, e]

theorem crc5_agrees_iff (x : Nat) :
    crc5_agrees x = true
      ↔ (gf2_divmod CRC5_POLY 5 11 (0, x)).2 = crc5 x
        ∧ gf2_mul CRC5_POLY (gf2_divmod CRC5_POLY 5 11 (0, x)).1 11
            ^^^ (gf2_divmod CRC5_POLY 5 11 (0, x)).2 = x
        ∧ (gf2_divmod CRC5_POLY 5 11 (0, x)).1 < 2048 := by
  simp [crc5_agrees, and_assoc]

theorem crc5_agrees_xor (x y : Nat) (hx : crc5_agrees x = true) (hy : crc5_agrees y = true) :
    crc5_agrees (x ^^^ y) = true := by
  rw [crc5_agrees_iff] at hx hy ⊢
  obtain ⟨x1, x2, x3⟩ := hx
  obtain ⟨y1, y2, y3⟩ := hy
  have hd := gf2_divmod_xor CRC5_POLY 5 11 0 x 0 y
  rw [Nat.xor_self] at hd
  rw [hd]
  refine ⟨?_, ?_, ?_⟩
  · show _ ^^^ _ = _
    rw [x1, y1, crc5_xor]
  · show gf2_mul _ (_ ^^^ _) 11 ^^^ (_ ^^^ _) = _
    rw [gf2_mul_xor, xor_swap_mid, x2, y2]
  · exact Nat.xor_lt_two_pow (by simpa using x3 : _ < 2 ^ 11) (by simpa using y3 : _ < 2 ^ 11)

theorem crc5_agrees_high : ∀ k, k < 64 → crc5_agrees (k <<< 10) = true := by
  decide

theorem crc5_agrees_low : ∀ l, l < 32 → crc5_agrees (l <<< 5) = true := by
  decide

theorem crc5_agrees_block (m : Nat) (hm : m < 2048) : crc5_agrees (m <<< 5) = true := by
  have hk : m >>> 5 < 64 := by
    rw [Nat.shiftRight_eq_div_pow]
    omega
  have hs : m <<< 5 = ((m >>> 5) <<< 10) ^^^ ((m &&& 0x1F) <<< 5) := by
    conv_lhs => rw [split_low5 m]
    rw [shiftLeft_xor, ← Nat.shiftLeft_add]
  rw [hs]
  exact crc5_agrees_xor _ _ (crc5_agrees_high _ hk) (crc5_agrees_low _ (and_31_lt m))
theorem and_ffe0 (a : Nat) (ha : a < 65536) : a &&& 0xFFE0 = (a >>> 5) <<< 5 := by
  have h : (0xFFE0 : Nat) = (2 ^ 16 - 1) ^^^ (2 ^ 5 - 1) := by decide
  apply Nat.eq_of_testBit_eq
  intro i
  rw [h, Nat.testBit_and, Nat.testBit_xor, Nat.testBit_two_pow_sub_one,
    Nat.testBit_two_pow_sub_one, Nat.testBit_shiftLeft, Nat.testBit_shiftRight]
  by_cases h5 : i < 5
  · have h16 : i < 16 := by omega
    have : ¬ i ≥ 5 := by omega
    simp [h5, h16, this]
  · have hge : i ≥ 5 := by omega
    have e : 5 + (i - 5) = i := by omega
    by_cases h16 : i < 16
    · simp [h5, h16, hge, e]
    · have hb : a.testBit i = false :=
        Nat.testBit_lt_two_pow (Nat.lt_of_lt_of_le (by simpa using ha : a < 2 ^ 16)
          (Nat.pow_le_pow_right (by decide) (by omega)))
      simp [h5, h16, hge, e, hb]

theorem shl5_or_low (m c : Nat) (hc : c < 32) : (m <<< 5) ||| c = (m <<< 5) ^^^ c := by
  apply Nat.eq_of_testBit_eq
  intro i
  rw [Nat.testBit_or, Nat.testBit_xor, Nat.testBit_shiftLeft]
  by_cases h5 : i < 5
  · have : ¬ i ≥ 5 := by omega
    simp [this]
  · have hb : c.testBit i = false :=
      Nat.testBit_lt_two_pow (Nat.lt_of_lt_of_le (by simpa using hc : c < 2 ^ 5)
        (Nat.pow_le_pow_right (by decide) (by omega)))
    simp [hb]

/-- C24: for every 16-bit address `a`, `crc5 a` is below 32, is the same for every
argument with the same bits above bit 4, and is the remainder of `(a >> 5) * x^5` modulo
`x^5 + x^4 + x^2 + 1` over GF(2): long division leaves it, and some quotient `q` gives
`(a >> 5) * x^5 = q * (x^5 + x^4 + x^2 + 1) + crc5 a`.  Equivalently the word
`(a & 0xFFE0) | crc5 a` is a multiple of that polynomial and leaves remainder 0. -/
theorem c24_crc5_remainder (a : Nat) (ha : a < 65536) :
    crc5 a < 32
    ∧ (∀ b, b >>> 5 = a >>> 5 → crc5 b = crc5 a)
    ∧ crc5 a = gf2_mod CRC5_POLY 5 11 ((a >>> 5) <<< 5)
    ∧ (∃ q, q < 2048 ∧ (a >>> 5) <<< 5 = gf2_mul CRC5_POLY q 11 ^^^ crc5 a)
    ∧ (∃ q, q < 2048 ∧ (a &&& 0xFFE0) ||| crc5 a = gf2_mul CRC5_POLY q 11)
    ∧ gf2_mod CRC5_POLY 5 11 ((a &&& 0xFFE0) ||| crc5 a) = 0 := by
  have hm : a >>> 5 < 2048 := by
    rw [Nat.shiftRight_eq_div_pow]
    omega
  have hc : crc5 ((a >>> 5) <<< 5) = crc5 a :=
    crc5_of_shift _ _ (Nat.shiftLeft_shiftRight _ _)
  obtain ⟨h1, h2, h3⟩ := (crc5_agrees_iff _).mp (crc5_agrees_block (a >>> 5) hm)
  rw [hc] at h1
  rw [h1] at h2
  have hor : (a &&& 0xFFE0) ||| crc5 a = ((a >>> 5) <<< 5) ^^^ crc5 a := by
    rw [and_ffe0 a ha, shl5_or_low _ _ (crc5_lt a)]
  refine ⟨crc5_lt a, fun b hb => crc5_of_shift b a hb, h1.symm, ⟨_, h3, h2.symm⟩,
    ⟨_, h3, ?_⟩, ?_⟩
  · rw [hor]
    conv_lhs => rw [← h2]
    rw [Nat.xor_assoc, Nat.xor_self, Nat.xor_zero]
  · rw [hor]
    unfold gf2_mod
    have hd := gf2_divmod_xor CRC5_POLY 5 11 0 ((a >>> 5) <<< 5) 0 (crc5 a)
    rw [Nat.xor_self] at hd
    rw [hd, gf2_divmod_small CRC5_POLY 5 11 0 (crc5 a) (by simpa using crc5_lt a)]
    show _ ^^^ crc5 a = 0
    rw [h1, Nat.xor_self]

/-- C24 at address `0x8000`: the checksum is `0x01`, the quotient of the division is `0x765`
and the word `0x8001` is a multiple of the polynomial; address `0x801F` has the same
checksum. -/
theorem c24_crc5_remainder_witness :
    (0x8000 : Nat) < 65536
    ∧ crc5 0x801F = crc5 0x8000
    ∧ crc5 0x8000 = 0x01
    ∧ gf2_divmod CRC5_POLY 5 11 (0, 0x8000) = (0x765, 0x01)
    ∧ gf2_mul CRC5_POLY 0x765 11 = 0x8001
    ∧ gf2_mod CRC5_POLY 5 11 ((0x8000 &&& 0xFFE0) ||| crc5 0x8000) = 0 :=
  ⟨by decide, (c24_crc5_remainder 0x8000 (by decide)).2.1 0x801F (by decide), by decide,
    by decide, by decide, (c24_crc5_remainder 0x8000 (by decide)).2.2.2.2.2⟩

/-! ## The data checksum as a bit-serial CRC -/

theorem mul2_mod_xor (x r : Nat) :
    ((x ^^^ r) * 2) % 256 = ((x * 2) % 256) ^^^ ((r * 2) % 256) := by
  have h (y : Nat) : (y * 2) % 256 = (y <<< 1) &&& (2 ^ 8 - 1) := by
    rw [Nat.and_pow_two_sub_one_eq_mod, Nat.shiftLeft_eq]
  rw [h, h, h, shiftLeft_xor, Nat.and_xor_distrib_right]

theorem msbStep_xor (x r : Nat) :
    msbStep 8 0x85 (x ^^^ r) = crc8_bit x (r.testBit 7) ^^^ ((r * 2) % 256) := by
  unfold msbStep crc8_bit
  show (if (x ^^^ r).testBit 7 = true then ((x ^^^ r) * 2) % 256 ^^^ 0x85
      else ((x ^^^ r) * 2) % 256) = _
  rw [mul2_mod_xor, Nat.testBit_xor]
  cases x.testBit 7 <;> cases r.testBit 7 <;> simp [xor_right_swap]

theorem msbSteps_xor :
    ∀ n x r, msbSteps 8 0x85 n (x ^^^ r)
      = (bitsShiftedOut n r).foldl crc8_bit x ^^^ shiftedLeft n r := by
  intro n
  induction n with
  | zero =>
    intro x r
    rfl
  | succ k ih =>
    intro x r
    show msbSteps 8 0x85 k (msbStep 8 0x85 (x ^^^ r)) = _
    rw [msbStep_xor, ih]
    rfl

set_option maxRecDepth 100000 in
theorem bitsShiftedOut_byte : ∀ b, b < 256 → bitsShiftedOut 8 b = bitsOfByte b := by
  decide

set_option maxRecDepth 100000 in
theorem shiftedLeft_byte : ∀ b, b < 256 → shiftedLeft 8 b = 0 := by
  decide

/-- One table lookup does the work of the eight bit-serial steps of a byte. -/
theorem crc8_step_bitwise (c b : Nat) (hc : c < 256) (hb : b < 256) :
    crc8_step c b = (bitsOfByte b).foldl crc8_bit c := by
  have hx : c ^^^ b < 256 :=
    Nat.xor_lt_two_pow (by simpa using hc : c < 2 ^ 8) (by simpa using hb : b < 2 ^ 8)
  unfold crc8_step
  rw [crc8_lut_msb _ hx, msbSteps_xor, bitsShiftedOut_byte b hb, shiftedLeft_byte b hb,
    Nat.xor_zero]

theorem crc8_foldl_bitwise :
    ∀ (bytes : List Nat), (∀ b, b ∈ bytes → b < 256) → ∀ c, c < 256 →
      bytes.foldl (fun crc b => crc8_lut.getD (crc ^^^ b) 0) c
        = (messageBits bytes).foldl crc8_bit c := by
  intro bytes
  induction bytes with
  | nil =>
    intro _ c _
    rfl
  | cons b bs ih =>
    intro hall c hc
    have hb : b < 256 := hall b (List.mem_cons_self b bs)
    have hstep := crc8_step_bitwise c b hc hb
    unfold crc8_step at hstep
    rw [List.foldl_cons, messageBits, List.foldl_append, ← hstep]
    exact ih (fun x hx => hall x (List.mem_cons_of_mem b hx)) _ (crc8_step_lt c b)

theorem messageBits_length (bytes : List Nat) : (messageBits bytes).length = 8 * bytes.length := by
  induction bytes with
  | nil => rfl
  | cons b bs ih =>
    rw [messageBits, List.length_append, ih, List.length_cons]
    simp [bitsOfByte]
    omega

/-- C25: for every block of 32 bytes, the checksum `pak_copyto` returns is the bit-serial
MSB-first CRC-8 with polynomial `0x85`, initial value 0, no reflection and no final xor,
taken one bit at a time over the 256 message bits of the block. -/
theorem c25_crc8_bitwise (vram : Nat → Nat) (addr : Nat) (src : Nat → Nat) (off : Nat)
    (hbytes : ∀ i, i < 32 → src (off + i) < 256) :
    (pak_copyto vram addr src off).2 = crc8_bitwise (bytesAt src off 32)
    ∧ (messageBits (bytesAt src off 32)).length = 256 := by
  refine ⟨?_, ?_⟩
  · rw [pak_copyto_crc]
    unfold crc8 crc8_bitwise
    apply crc8_foldl_bitwise _ _ 0 (by decide)
    intro b hb
    unfold bytesAt at hb
    rw [List.mem_map] at hb
    obtain ⟨i, hi, rfl⟩ := hb
    exact hbytes i (List.mem_range.mp hi)
  · rw [messageBits_length]
    simp [bytesAt]

/-- C25 at the block whose first byte is `0x01` and whose other bytes are zero. -/
theorem c25_crc8_bitwise_witness :
    (∀ i, i < 32 → (fun j => if j = 0 then 1 else 0) (0 + i) < 256)
    ∧ ((pak_copyto (fun _ => 0) 0 (fun j => if j = 0 then 1 else 0) 0).2
        = crc8_bitwise (bytesAt (fun j => if j = 0 then 1 else 0) 0 32)
      ∧ (messageBits (bytesAt (fun j => if j = 0 then 1 else 0) 0 32)).length = 256)
    ∧ crc8_bitwise [0x01] = 0x85
    ∧ crc8_bitwise [0x80] = crc8_lut.getD 0x80 0 :=
  ⟨by decide, c25_crc8_bitwise (fun _ => 0) 0 (fun j => if j = 0 then 1 else 0) 0 (by decide),
    by decide, by decide⟩

/-! ## Error detection of the address check -/

theorem crc5_single_bit (k : Nat) (h5 : 5 ≤ k) (h15 : k ≤ 15) : crc5 (1 <<< k) ≠ 0 := by
  interval_cases k <;> decide

theorem crc5_flip (a k : Nat) (h5 : 5 ≤ k) (h15 : k ≤ 15) : crc5 (a ^^^ (1 <<< k)) ≠ crc5 a := by
  rw [crc5_xor]
  intro h
  have h0 : crc5 a ^^^ crc5 (1 <<< k) = crc5 a ^^^ 0 := by rw [h, Nat.xor_zero]
  exact crc5_single_bit k h5 h15 (Nat.xor_right_inj.mp h0)

/-- C26: `crc5` is linear over exclusive or, and flipping any one of the address bits 5 to
15 changes it.  Hence a Read or Write frame of legal length whose block address differs in
exactly one bit from the address of a frame that passes the check, with the same five check
bits, is dropped: no response, no motor command, the backing store unchanged. -/
theorem c26_crc5_detects :
    (∀ a b, crc5 (a ^^^ b) = crc5 a ^^^ crc5 b)
    ∧ (∀ a k, 5 ≤ k → k ≤ 15 → crc5 (a ^^^ (1 <<< k)) ≠ crc5 a)
    ∧ (∀ (s : N64.State) (f g : Frame) (keyinput k : Nat),
        (g.buf 0 = N64.CMD_READ ∧ g.len = 25) ∨ (g.buf 0 = N64.CMD_WRITE ∧ g.len = 281) →
        crc5 (N64.address f.buf) = f.buf 2 &&& 0x1F →
        5 ≤ k → k ≤ 15 →
        N64.address g.buf = N64.address f.buf ^^^ (1 <<< k) →
        g.buf 2 &&& 0x1F = f.buf 2 &&& 0x1F →
        (N64.poll s g keyinput).response = none
        ∧ (N64.poll s g keyinput).motor = none
        ∧ (N64.poll s g keyinput).state.vram = s.vram) := by
  refine ⟨crc5_xor, crc5_flip, ?_⟩
  intro s f g keyinput k hop hf h5 h15 haddr hchk
  have hne : crc5 (N64.address (N64.received s g).buffer)
      ≠ (N64.received s g).buffer 2 &&& 0x1F := by
    show crc5 (N64.address g.buf) ≠ g.buf 2 &&& 0x1F
    rw [haddr, hchk, ← hf]
    exact crc5_flip _ k h5 h15
  rcases hop with ⟨hop, hlen⟩ | ⟨hop, hlen⟩
  · rw [n64_poll_read s g keyinput hop hlen, n64_cmdRead_drop _ hne]
    exact ⟨rfl, rfl, rfl⟩
  · rw [n64_poll_write s g keyinput hop hlen, n64_cmdWrite_drop _ hne]
    exact ⟨rfl, rfl, rfl⟩

/-- C26 at a Read of block `0x8000` (check bits `0x01`, accepted) and the frame with bit 8
of the address flipped (block `0x8100`, same check bits): the second one is dropped. -/
theorem c26_crc5_detects_witness :
    crc5 (N64.address (frameOf [2, 0x80, 0x01] 25).buf) = (frameOf [2, 0x80, 0x01] 25).buf 2 &&& 0x1F
    ∧ (N64.poll (N64.bootState gpioCart) (frameOf [2, 0x80, 0x01] 25) 0x3FF).response ≠ none
    ∧ N64.address (frameOf [2, 0x81, 0x01] 25).buf
        = N64.address (frameOf [2, 0x80, 0x01] 25).buf ^^^ (1 <<< 8)
    ∧ ((N64.poll (N64.bootState gpioCart) (frameOf [2, 0x81, 0x01] 25) 0x3FF).response = none
      ∧ (N64.poll (N64.bootState gpioCart) (frameOf [2, 0x81, 0x01] 25) 0x3FF).motor = none
      ∧ (N64.poll (N64.bootState gpioCart) (frameOf [2, 0x81, 0x01] 25) 0x3FF).state.vram
          = (N64.bootState gpioCart).vram) :=
  ⟨by decide, by decide, by decide,
    c26_crc5_detects.2.2 (N64.bootState gpioCart) (frameOf [2, 0x80, 0x01] 25)
      (frameOf [2, 0x81, 0x01] 25) 0x3FF 8 (Or.inl ⟨by decide, by decide⟩) (by decide)
      (by decide) (by decide) (by decide) (by decide)⟩

/-! ## Frame condition of the accessory store -/

/-- C27: for two distinct 32-aligned addresses `a` and `b` and every block `d`,
`pak_copyto(a, d)` leaves the 32 cells `VRAM[b + i]` of block `b` unchanged, so a later
`pak_copyfrom(b, ...)` gives the same bytes and the same checksum as before the write, under
every mask. -/
theorem c27_store_frame (vram : Nat → Nat) (a b : Nat) (d : Nat → Nat) (off : Nat)
    (ha : a % 32 = 0) (hb : b % 32 = 0) (hab : a ≠ b) :
    (∀ i, i < 32 → (pak_copyto vram a d off).1 (b + i) = vram (b + i))
    ∧ (∀ (out : Nat → Nat) (outOff mask : Nat),
        pak_copyfrom (pak_copyto vram a d off).1 b out outOff mask
          = pak_copyfrom vram b out outOff mask) := by
  have hcell : ∀ i, i < 32 → (pak_copyto vram a d off).1 (b + i) = vram (b + i) := by
    intro i hi
    rw [pak_copyto_vram]
    have hout : ¬ (a ≤ b + i ∧ b + i < a + 32) := by omega
    rw [if_neg hout]
  refine ⟨hcell, ?_⟩
  intro out outOff mask
  apply Prod.ext
  · funext j
    rw [pak_copyfrom_dst, pak_copyfrom_dst]
    by_cases hj : outOff ≤ j ∧ j < outOff + 32
    · rw [if_pos hj, if_pos hj, hcell _ (by omega)]
    · rw [if_neg hj, if_neg hj]
  · rw [pak_copyfrom_crc, pak_copyfrom_crc]
    congr 1
    apply List.map_congr_left
    intro k hk
    rw [hcell k (List.mem_range.mp hk)]

/-- C27 at the neighbouring blocks `0x20` and `0x40`: a write of block `0x20` leaves
block `0x40` as it was. -/
theorem c27_store_frame_witness :
    0x20 % 32 = 0 ∧ 0x40 % 32 = 0 ∧ (0x20 : Nat) ≠ 0x40
    ∧ (∀ i, i < 32 →
        (pak_copyto (fun j => j % 251) 0x20 (fun _ => 0xFF) 3).1 (0x40 + i)
          = (fun j => j % 251) (0x40 + i))
    ∧ (pak_copyfrom (pak_copyto (fun j => j % 251) 0x20 (fun _ => 0xFF) 3).1 0x40
          (fun _ => 0) 3 0xFF).2
        = (pak_copyfrom (fun j => j % 251) 0x40 (fun _ => 0) 3 0xFF).2 :=
  ⟨by decide, by decide, by decide,
    (c27_store_frame (fun j => j % 251) 0x20 0x40 (fun _ => 0xFF) 3 (by decide) (by decide)
      (by decide)).1,
    congrArg Prod.snd
      ((c27_store_frame (fun j => j % 251) 0x20 0x40 (fun _ => 0xFF) 3 (by decide) (by decide)
        (by decide)).2 (fun _ => 0) 3 0xFF)⟩
/-! ## The analog fields of the origin record -/

theorem gc_poll_analog (s : GC.State) (f : Frame) (keyinput : Nat) :
    (GC.poll s f keyinput).state.origin.stick_x = s.origin.stick_x
      ∧ (GC.poll s f keyinput).state.origin.stick_y = s.origin.stick_y
      ∧ (GC.poll s f keyinput).state.origin.substick_x = s.origin.substick_x
      ∧ (GC.poll s f keyinput).state.origin.substick_y = s.origin.substick_y
      ∧ (GC.poll s f keyinput).state.origin.trigger_l = s.origin.trigger_l
      ∧ (GC.poll s f keyinput).state.origin.trigger_r = s.origin.trigger_r
      ∧ (GC.poll s f keyinput).state.origin.button_a = s.origin.button_a
      ∧ (GC.poll s f keyinput).state.origin.button_b = s.origin.button_b := by
  by_cases hlen : f.len < 9
  · rw [gc_poll_of_short s f keyinput hlen]
    exact ⟨rfl, rfl, rfl, rfl, rfl, rfl, rfl, rfl⟩
  · rw [gc_poll_origin s f keyinput hlen]
    by_cases h : gbaInputOf keyinput = SOFTRESET_INPUT
    · rw [if_pos h]
      exact gc_atDispatch_analog s f keyinput
    · rw [if_neg h]
      exact gc_atDispatch_analog s f keyinput

theorem gc_reachable_analog (s : GC.State) (h : GC.Reachable s) :
    s.origin.stick_x = 128 ∧ s.origin.stick_y = 128
      ∧ s.origin.substick_x = 128 ∧ s.origin.substick_y = 128
      ∧ s.origin.trigger_l = 0 ∧ s.origin.trigger_r = 0
      ∧ s.origin.button_a = 0 ∧ s.origin.button_b = 0 := by
  induction h with
  | boot hw p cfg pk => exact ⟨rfl, rfl, rfl, rfl, rfl, rfl, rfl, rfl⟩
  | restart s hw p cfg pk _ _ ih => exact ih
  | poll s f keyinput _ _ ih =>
    obtain ⟨a1, a2, a3, a4, a5, a6, a7, a8⟩ := gc_poll_analog s f keyinput
    rw [a1, a2, a3, a4, a5, a6, a7, a8]
    exact ih

theorem gc_stickAxis_128 (g pos neg : Nat) :
    GC.stickAxis g pos neg 128
      = if keyDown g pos then 228 else if keyDown g neg then 28 else 128 := by
  unfold GC.stickAxis
  split_ifs <;> rfl

/-- C28: in every state of variant 2 reachable from the initial state by frames, input
snapshots and soft-reset restarts, the analog fields of the origin record hold their initial
values (stick 128/128, substick 128/128, triggers 0/0, analog buttons 0/0).  Consequently the
stick bytes of every Status response are `128 + 100 = 228`, `128 - 100 = 28` or 128 (the
8-bit sum and difference never wrap), and the analog part of the response is built from
128, 128, 0 and 0. -/
theorem c28_origin_analog (s : GC.State) (h : GC.Reachable s) :
    (s.origin.stick_x = 128 ∧ s.origin.stick_y = 128
      ∧ s.origin.substick_x = 128 ∧ s.origin.substick_y = 128
      ∧ s.origin.trigger_l = 0 ∧ s.origin.trigger_r = 0
      ∧ s.origin.button_a = 0 ∧ s.origin.button_b = 0)
    ∧ (s.origin.stick_x + 100 < 256 ∧ 100 ≤ s.origin.stick_x
      ∧ s.origin.stick_y + 100 < 256 ∧ 100 ≤ s.origin.stick_y)
    ∧ (∀ (f : Frame) (keyinput : Nat), f.buf 0 = GC.CMD_STATUS → f.len = 25 →
        ∃ sx sy,
          (GC.poll s f keyinput).response
            = some ⟨((GC.atDispatch s f keyinput).origin.buttons.bytes ++ [sx, sy])
                ++ GC.packedTail (f.buf 1 % 8) 128 128
                    (GC.analogOf (GC.atDispatch s f keyinput).origin.buttons.l 0)
                    (GC.analogOf (GC.atDispatch s f keyinput).origin.buttons.r 0)
                    (GC.analogOf (GC.atDispatch s f keyinput).origin.buttons.a 0)
                    (GC.analogOf (GC.atDispatch s f keyinput).origin.buttons.b 0), 64⟩
          ∧ sx = (if keyDown (gbaInputOf keyinput) KEY_RIGHT then 228
                  else if keyDown (gbaInputOf keyinput) KEY_LEFT then 28 else 128)
          ∧ sy = (if keyDown (gbaInputOf keyinput) KEY_UP then 228
                  else if keyDown (gbaInputOf keyinput) KEY_DOWN then 28 else 128)
          ∧ (sx = 28 ∨ sx = 128 ∨ sx = 228) ∧ (sy = 28 ∨ sy = 128 ∨ sy = 228)) := by
  obtain ⟨a1, a2, a3, a4, a5, a6, a7, a8⟩ := gc_reachable_analog s h
  refine ⟨⟨a1, a2, a3, a4, a5, a6, a7, a8⟩, ?_, ?_⟩
  · rw [a1, a2]
    decide
  · intro f keyinput hop hlen
    refine ⟨GC.stickAxis (gbaInputOf keyinput) KEY_RIGHT KEY_LEFT 128,
      GC.stickAxis (gbaInputOf keyinput) KEY_UP KEY_DOWN 128, ?_, gc_stickAxis_128 _ _ _,
      gc_stickAxis_128 _ _ _, ?_, ?_⟩
    · have hr := gc_poll_status_bytes s f keyinput hop hlen (by rw [a3]; decide)
        (by rw [a4]; decide) (by rw [a5]; decide) (by rw [a6]; decide) (by rw [a7]; decide)
        (by rw [a8]; decide)
      rw [a1, a2, a3, a4, a5, a6, a7, a8] at hr
      exact hr
    · rw [gc_stickAxis_128]
      split_ifs
      · exact Or.inr (Or.inr rfl)
      · exact Or.inl rfl
      · exact Or.inr (Or.inl rfl)
    · rw [gc_stickAxis_128]
      split_ifs
      · exact Or.inr (Or.inr rfl)
      · exact Or.inl rfl
      · exact Or.inr (Or.inl rfl)

/-- C28 at the state after a soft reset and a restart, with Right, Down and L held (default
preset), Status in mode 3: the analog fields are the initial ones and the stick bytes are 228
and 28. -/
theorem c28_origin_analog_witness :
    GC.Reachable GC.afterSoftReset
    ∧ (GC.afterSoftReset.origin.stick_x = 128 ∧ GC.afterSoftReset.origin.stick_y = 128
      ∧ GC.afterSoftReset.origin.substick_x = 128 ∧ GC.afterSoftReset.origin.substick_y = 128
      ∧ GC.afterSoftReset.origin.trigger_l = 0 ∧ GC.afterSoftReset.origin.trigger_r = 0
      ∧ GC.afterSoftReset.origin.button_a = 0 ∧ GC.afterSoftReset.origin.button_b = 0)
    ∧ (GC.poll GC.afterSoftReset (frameOf [0x40, 0x03, 0x00] 25) 0x16F).response
        = some ⟨[0x00, 0x40, 228, 28, 128, 128, 200, 0], 64⟩ :=
  ⟨GC.Reachable.restart _ plainCart 1 GC.aDefaultProfileConfig false
      (GC.Reachable.poll _ _ _ (gc_bootState_reachable plainCart 1) (by decide)) (by decide),
    (c28_origin_analog GC.afterSoftReset
      (GC.Reachable.restart _ plainCart 1 GC.aDefaultProfileConfig false
        (GC.Reachable.poll _ _ _ (gc_bootState_reachable plainCart 1) (by decide))
        (by decide))).1,
    by decide⟩

/-! ## What a GameCube Status response depends on -/

theorem setLo_setHi (old x y : Nat) : GC.setLo (GC.setHi old x) y = (x % 16) * 16 + y % 16 := by
  unfold GC.setLo GC.setHi
  omega

/-- The Status command reads the origin record, the snapshot and the mode only: none of
the eight response bytes keeps anything of the previous `status` record. -/
theorem gc_cmdStatus_determined (s1 s2 : GC.State) (ho : s1.origin = s2.origin)
    (hg : s1.gbaInput = s2.gbaInput) (hm : s1.buffer 1 % 8 = s2.buffer 1 % 8) :
    (GC.cmdStatus s1).2 = (GC.cmdStatus s2).2 := by
  simp only [GC.cmdStatus, GC.packMode, ho, hg, hm]
  split_ifs <;> simp only [GC.Status.bytes, setLo_setHi]

theorem gc_mapLoop_congr (cfg1 cfg2 : Nat → Int) (g : Nat) :
    ∀ (n : Nat) (b : GC.Buttons) (p1 p2 : Bool), n ≤ 6 → (∀ k, k < n → cfg1 k = cfg2 k) →
      (GC.mapLoop cfg1 g n (b, p1)).1 = (GC.mapLoop cfg2 g n (b, p2)).1 := by
  intro n
  induction n with
  | zero =>
    intro b p1 p2 _ _
    rfl
  | succ n ih =>
    intro b p1 p2 hn hcfg
    simp only [GC.mapLoop]
    rw [gc_gbaButtonState_slot g n p1 (by omega), gc_gbaButtonState_slot g n p2 (by omega),
      hcfg n (by omega)]
    exact ih _ _ _ (by omega) (fun k hk => hcfg k (by omega))

/-- C29 as stated fails: two sessions at boot with the same origin record, the same status
record, the same snapshot (Select held) and the same Status request answer differently when
one runs preset 1 (Select is Z) and the other preset 2 (Select is X). -/
theorem c29_status_determined_counterexample :
    (GC.bootState plainCart 1).origin = (GC.bootState plainCart 2).origin
    ∧ (GC.bootState plainCart 1).status = (GC.bootState plainCart 2).status
    ∧ (GC.poll (GC.bootState plainCart 1) (frameOf [0x40, 0x00] 25) 0x3FB).response
        = some ⟨[0x00, 0x90, 128, 128, 128, 128, 0, 0], 64⟩
    ∧ (GC.poll (GC.bootState plainCart 2) (frameOf [0x40, 0x00] 25) 0x3FB).response
        = some ⟨[0x04, 0x80, 128, 128, 128, 128, 0, 0], 64⟩
    ∧ (GC.poll (GC.bootState plainCart 1) (frameOf [0x40, 0x00] 25) 0x3FB).response
        ≠ (GC.poll (GC.bootState plainCart 2) (frameOf [0x40, 0x00] 25) 0x3FB).response := by
  refine ⟨rfl, rfl, by decide, by decide, by decide⟩

/-- C29 amended: a variant-2 Status response is a function of the origin record, the input
snapshot, request byte 1 and the selected profile (with the six entries of the custom table
when profile 0 is selected) only.  For every mode all 8 response bytes are rewritten, so two
sessions that agree on those values answer a Status frame identically, whatever earlier
Status frames left in the status record and whatever else differs between them.  The
profile enters through the buttons of the origin record only: the command itself is a
function of the origin record as the profile step left it, the snapshot and the low three
bits of request byte 1. -/
theorem c29_status_determined (s1 s2 : GC.State) (f1 f2 : Frame) (keyinput : Nat)
    (hop1 : f1.buf 0 = GC.CMD_STATUS) (hlen1 : f1.len = 25)
    (hop2 : f2.buf 0 = GC.CMD_STATUS) (hlen2 : f2.len = 25)
    (hbyte : f1.buf 1 = f2.buf 1)
    (horigin : s1.origin = s2.origin)
    (hprofile : s1.nGameProfile = s2.nGameProfile)
    (htable : s1.nGameProfile = 0 →
      ∀ k, k < 6 → s1.aCustomGameProfileConfig k = s2.aCustomGameProfileConfig k) :
    (GC.poll s1 f1 keyinput).response = (GC.poll s2 f2 keyinput).response
    ∧ (∃ bytes, bytes.length = 8 ∧ (GC.poll s1 f1 keyinput).response = some ⟨bytes, 64⟩)
    ∧ (∀ t1 t2 : GC.State, t1.origin = t2.origin → t1.gbaInput = t2.gbaInput →
        t1.buffer 1 % 8 = t2.buffer 1 % 8 → (GC.cmdStatus t1).2 = (GC.cmdStatus t2).2) := by
  have hb : (GC.atDispatch s1 f1 keyinput).origin.buttons
      = (GC.atDispatch s2 f2 keyinput).origin.buttons := by
    rw [gc_atDispatch_buttons, gc_atDispatch_buttons, ← hprofile, ← horigin]
    by_cases hp : s1.nGameProfile = 0
    · rw [if_pos hp, if_pos hp]
      exact gc_mapLoop_congr _ _ _ 6 _ _ _ (le_refl 6) (htable hp)
    · rw [if_neg hp, if_neg hp]
  have ho : (GC.atDispatch s1 f1 keyinput).origin = (GC.atDispatch s2 f2 keyinput).origin := by
    rw [gc_atDispatch_origin s1, gc_atDispatch_origin s2, hb, horigin]
  refine ⟨?_, ?_, gc_cmdStatus_determined⟩
  · rw [(gc_poll_status s1 f1 keyinput hop1 hlen1).1, (gc_poll_status s2 f2 keyinput hop2 hlen2).1]
    apply gc_cmdStatus_determined _ _ ho
    · rw [gc_atDispatch_gbaInput, gc_atDispatch_gbaInput]
    · rw [(gc_atDispatch_frame s1 f1 keyinput).1, (gc_atDispatch_frame s2 f2 keyinput).1, hbyte]
  · rw [(gc_poll_status s1 f1 keyinput hop1 hlen1).1]
    refine ⟨_, ?_, rfl⟩
    simp [GC.Status.bytes, gc_buttons_bytes_length]

/-- C29 amended, at two sessions on preset 1 that differ in their status record and their
stored mode (one has answered a mode-1 Status before, the other is at boot): with A held
both answer the same mode-0 Status response. -/
theorem c29_status_determined_witness :
    (GC.poll (GC.bootState plainCart 1) (frameOf [0x40, 0x01, 0x00] 25) 0x3FF).state.status
        ≠ (GC.bootState plainCart 1).status
    ∧ (GC.poll (GC.poll (GC.bootState plainCart 1) (frameOf [0x40, 0x01, 0x00] 25) 0x3FF).state
          (frameOf [0x40, 0x00, 0x00] 25) 0x3FE).response
        = (GC.poll (GC.bootState plainCart 1) (frameOf [0x40, 0x00, 0x00] 25) 0x3FE).response
    ∧ (GC.poll (GC.bootState plainCart 1) (frameOf [0x40, 0x00, 0x00] 25) 0x3FE).response
        = some ⟨[0x01, 0x80, 128, 128, 128, 128, 0, 0xC0], 64⟩ :=
  ⟨by decide,
    (c29_status_determined
      (GC.poll (GC.bootState plainCart 1) (frameOf [0x40, 0x01, 0x00] 25) 0x3FF).state
      (GC.bootState plainCart 1) (frameOf [0x40, 0x00, 0x00] 25) (frameOf [0x40, 0x00, 0x00] 25)
      0x3FE (by decide) (by decide) (by decide) (by decide) rfl (by decide) (by decide)
      (fun _ _ _ => rfl)).1,
    by decide⟩
/-! ## Several slots mapped to one target -/

/-- C30: when a mapping table assigns several slots to one target button, the mapping step
(slots applied from R down to A, the last write wins) leaves that button at the state of the
key of the lowest-numbered of those slots, whatever the other keys and the button held
before; this is not the logical OR of the keys: with slots A and B both mapped to target A,
B held and A released, the target ends released in both variants. -/
theorem c30_lowest_slot :
    (∀ (cfg : Nat → Int) (g : Nat) (b : N64.Buttons) (p : Bool) (t k : Nat),
        t < 14 → k < 6 → cfg k = (t : Int) → (∀ j, j < k → cfg j ≠ (t : Int)) →
        (N64.mapLoop cfg g 6 (b, p)).1.get t = keyDown g (slotKey k))
    ∧ (∀ (cfg : Nat → Int) (g : Nat) (b : GC.Buttons) (p : Bool) (t k : Nat),
        t < 12 → k < 6 → cfg k = (t : Int) → (∀ j, j < k → cfg j ≠ (t : Int)) →
        (GC.mapLoop cfg g 6 (b, p)).1.get t = keyDown g (slotKey k))
    ∧ (keyDown (gbaInputOf 0x3FD) KEY_A = false ∧ keyDown (gbaInputOf 0x3FD) KEY_B = true
      ∧ (N64.mapLoop (tableOf [0, 0, 2, 3, 4, 5]) (gbaInputOf 0x3FD) 6
          (N64.Buttons.zero, false)).1.get 0 = false
      ∧ (GC.mapLoop (tableOf [0, 0, 4, 5, 6, 7]) (gbaInputOf 0x3FD) 6
          (GC.Buttons.zero, false)).1.get 0 = false) := by
  refine ⟨?_, ?_, by decide, by decide, by decide, by decide⟩
  · intro cfg g b p t k ht hk hck hlow
    exact n64_mapLoop_get_lowest cfg g t ht 6 b p k (le_refl 6) hk hck hlow
  · intro cfg g b p t k ht hk hck hlow
    exact gc_mapLoop_get_lowest cfg g t ht 6 b p k (le_refl 6) hk hck hlow

/-- C30 in whole poll cycles: the table maps slots A, B and Start to target A.  With B and
Start held and A released the Status response of either variant has the A bit clear; with A
held alone it has the A bit set. -/
theorem c30_lowest_slot_witness :
    (N64.mapLoop (tableOf [0, 0, 0, 3, 4, 5]) (gbaInputOf 0x3F5) 6
        (N64.Buttons.zero, false)).1.get 0 = keyDown (gbaInputOf 0x3F5) (slotKey 0)
    ∧ keyDown (gbaInputOf 0x3F5) (slotKey 0) = false
    ∧ (N64.poll { N64.bootState plainCart with
                    aGameProfileConfig := tableOf [0, 0, 0, 3, 4, 5] }
        (frameOf [0x01] 9) 0x3F5).response = some ⟨[0x00, 0x00, 0x00, 0x00], 32⟩
    ∧ (N64.poll { N64.bootState plainCart with
                    aGameProfileConfig := tableOf [0, 0, 0, 3, 4, 5] }
        (frameOf [0x01] 9) 0x3FE).response = some ⟨[0x80, 0x00, 0x00, 0x00], 32⟩
    ∧ (GC.poll { GC.bootState plainCart 0 with
                   aCustomGameProfileConfig := tableOf [0, 0, 0, 5, 6, 7] }
        (frameOf [0x40, 0x03, 0x00] 25) 0x3F5).response
        = some ⟨[0x00, 0x80, 128, 128, 128, 128, 0, 0], 64⟩
    ∧ (GC.poll { GC.bootState plainCart 0 with
                   aCustomGameProfileConfig := tableOf [0, 0, 0, 5, 6, 7] }
        (frameOf [0x40, 0x03, 0x00] 25) 0x3FE).response
        = some ⟨[0x01, 0x80, 128, 128, 128, 128, 0, 0], 64⟩ :=
  ⟨c30_lowest_slot.1 (tableOf [0, 0, 0, 3, 4, 5]) (gbaInputOf 0x3F5) N64.Buttons.zero false 0 0
      (by decide) (by decide) (by decide) (fun j hj => absurd hj (Nat.not_lt_zero j)),
    by decide, by decide, by decide, by decide, by decide⟩

/-! ## The Default preset and the mapping engine -/

theorem gc_mapLoop_default (b : GC.Buttons) (g : Nat) (p : Bool) :
    (GC.mapLoop GC.aDefaultProfileConfig g 6 (b, p)).1 = GC.presetButtons 1 g b := by
  rfl

theorem gc_atDispatch_withDefaultTable (s : GC.State) (f : Frame) (keyinput : Nat)
    (h1 : s.nGameProfile = 1) :
    GC.atDispatch (GC.withDefaultTable s) f keyinput
      = GC.withProfile (GC.atDispatch s f keyinput) 0 GC.aDefaultProfileConfig (-1)
          (GC.mapLoop GC.aDefaultProfileConfig (gbaInputOf keyinput) 6
            (s.origin.buttons, s.nProfileIterationGbaButtonState)).2 := by
  simp only [GC.atDispatch, GC.prepare, GC.applyProfile, GC.received, GC.withDefaultTable,
    GC.withProfile, h1]
  rfl

theorem gc_dispatch_withProfile (s : GC.State) (n : Int) (cfg : Nat → Int) (key : Int)
    (st : Bool) :
    GC.dispatch (GC.withProfile s n cfg key st)
      = (GC.withProfile (GC.dispatch s).1 n cfg key st, (GC.dispatch s).2) := by
  simp only [GC.dispatch, GC.cmdStatus, GC.withProfile]
  split_ifs <;> rfl

theorem gc_motorArg_withProfile (s : GC.State) (n : Int) (cfg : Nat → Int) (key : Int)
    (st : Bool) : GC.motorArg (GC.withProfile s n cfg key st) = GC.motorArg s := rfl

theorem gc_finish_withProfile (s : GC.State) (n : Int) (cfg : Nat → Int) (key : Int)
    (st : Bool) :
    GC.finish (GC.withProfile s n cfg key st) = GC.withProfile (GC.finish s) n cfg key st := by
  simp only [GC.finish, GC.motorArg, GC.withProfile]
  split_ifs <;> rfl

/-- C31: in variant 2 the hard-coded Default preset (`case 1`) computes the same
`origin.buttons` as the custom-profile loop run on the table `aDefaultProfileConfig`
(A, B, START, Z, L, R), for every prior button record and every input snapshot, whatever
the loop's scratch flag held.  Hence a session on profile 1 and the same session on the
custom profile with that table reach the dispatch with the same origin record, and every
poll cycle gives both the same response, the same motor command and the same origin,
identity and status records. -/
theorem c31_default_preset :
    (∀ (b : GC.Buttons) (g : Nat) (p : Bool),
        GC.presetButtons 1 g b = (GC.mapLoop GC.aDefaultProfileConfig g 6 (b, p)).1)
    ∧ (∀ (s : GC.State), s.nGameProfile = 1 →
        (GC.applyProfile s).origin = (GC.applyProfile (GC.withDefaultTable s)).origin)
    ∧ (∀ (s : GC.State) (f : Frame) (keyinput : Nat), s.nGameProfile = 1 →
        (GC.poll (GC.withDefaultTable s) f keyinput).response = (GC.poll s f keyinput).response
        ∧ (GC.poll (GC.withDefaultTable s) f keyinput).motor = (GC.poll s f keyinput).motor
        ∧ (GC.poll (GC.withDefaultTable s) f keyinput).state.origin
            = (GC.poll s f keyinput).state.origin
        ∧ (GC.poll (GC.withDefaultTable s) f keyinput).state.id
            = (GC.poll s f keyinput).state.id
        ∧ (GC.poll (GC.withDefaultTable s) f keyinput).state.status
            = (GC.poll s f keyinput).state.status
        ∧ (GC.poll (GC.withDefaultTable s) f keyinput).state.hw
            = (GC.poll s f keyinput).state.hw) := by
  refine ⟨fun b g p => (gc_mapLoop_default b g p).symm, ?_, ?_⟩
  · intro s h1
    simp only [GC.applyProfile, GC.withDefaultTable, h1]
    rfl
  · intro s f keyinput h1
    by_cases hlen : f.len < 9
    · rw [gc_poll_of_short _ f keyinput hlen, gc_poll_of_short s f keyinput hlen]
      exact ⟨rfl, rfl, rfl, rfl, rfl, rfl⟩
    · rw [gc_poll_of_long _ f keyinput hlen, gc_poll_of_long s f keyinput hlen]
      have hd := gc_atDispatch_withDefaultTable s f keyinput h1
      unfold GC.atDispatch at hd
      rw [hd, gc_dispatch_withProfile, gc_finish_withProfile, gc_motorArg_withProfile]
      exact ⟨rfl, rfl, rfl, rfl, rfl, rfl⟩

/-- C31 at a session on the Default preset with Select and L held: the preset and the loop
both set Z and L and nothing else, and the Status responses agree. -/
theorem c31_default_preset_witness :
    GC.presetButtons 1 (gbaInputOf 0x1FB) GC.Origin.init.buttons
        = (GC.mapLoop GC.aDefaultProfileConfig (gbaInputOf 0x1FB) 6
            (GC.Origin.init.buttons, true)).1
    ∧ (GC.bootState plainCart 1).nGameProfile = 1
    ∧ (GC.poll (GC.withDefaultTable (GC.bootState plainCart 1)) (frameOf [0x40, 0x03, 0x00] 25)
          0x1FB).response
        = (GC.poll (GC.bootState plainCart 1) (frameOf [0x40, 0x03, 0x00] 25) 0x1FB).response
    ∧ (GC.poll (GC.bootState plainCart 1) (frameOf [0x40, 0x03, 0x00] 25) 0x1FB).response
        = some ⟨[0x00, 0xD0, 128, 128, 128, 128, 200, 0], 64⟩
    ∧ (GC.poll (GC.withDefaultTable (GC.bootState plainCart 1)) (frameOf [0x40, 0x03, 0x00] 25)
          0x1FB).response
        = some ⟨[0x00, 0xD0, 128, 128, 128, 128, 200, 0], 64⟩ :=
  ⟨c31_default_preset.1 GC.Origin.init.buttons (gbaInputOf 0x1FB) true, by decide,
    (c31_default_preset.2.2 (GC.bootState plainCart 1) (frameOf [0x40, 0x03, 0x00] 25) 0x1FB
      (by decide)).1,
    by decide, by decide⟩

end GbaController
